import Mathlib

/-!
# Gaussian-process object modelling: embedding and verified properties

A shallow embedding of the regression engine (`gp/GaussianProcess.h`), of the
thin-plate covariance (`gp/CovThinPlate.h`) and of the surface projection of the
chart atlas (`atlas/atlas.hpp`), followed by theorems about them.

Conventions of the embedding.

* Numbers are elements of a field `α` (exact arithmetic).  The square root of the
  C++ standard library and the general matrix inverse of Eigen are passed in a
  record `Numerics`; triangular solves and the Cholesky factorisation are written
  out (forward substitution, back substitution, row-wise Cholesky).
* Matrices and vectors are functions of their indices together with explicitly
  tracked dimensions; a write is `setCell`.
* Operations that mutate the object return the new state; operations that can
  raise return the raised message or the value, paired with the state that is
  left behind.
* `assert` is modelled as raising (builds that keep assertions).
-/

namespace gp

/-! ## Points, numerics, covariance functions -/

/-- 3-D point, the `Vec3` of the sources. -/
structure Vec3 (α : Type) where
  x : α
  y : α
  z : α
deriving DecidableEq

/-- Euclidean distance `x1.distance(x2)`; `sqrt` is the square-root routine. -/
def Vec3.distance {α : Type} [Field α] (sqrt : α → α) (a b : Vec3 α) : α :=
  sqrt ((a.x - b.x) * (a.x - b.x) + (a.y - b.y) * (a.y - b.y) + (a.z - b.z) * (a.z - b.z))

/-- Dense storage addressed by (row, column). -/
abbrev Mat (α : Type) := Nat → Nat → α

/-- The assignment `M(r, c) = v`. -/
def setCell {α : Type} (M : Mat α) (r c : Nat) (v : α) : Mat α :=
  fun i j => if i = r ∧ j = c then v else M i j

/-- Library routines used by the engine: `sqrt` of the C++ standard library and the
general matrix inverse of Eigen (`inverse n M` inverts the top-left `n × n` block). -/
structure Numerics (α : Type) where
  sqrt : α → α
  inverse : Nat → Mat α → Mat α

/-- Thin-plate covariance (`gp/CovThinPlate.h`): the stored length, the cached cube
`length_3` and the hyper-parameter flag set by the constructor. -/
structure ThinPlate (α : Type) where
  length_ : α
  length_3 : α
  loghyper_changed : Bool

/-- Constructor `ThinPlate(length)`. -/
def ThinPlate.ofLength {α : Type} [Field α] (length : α) : ThinPlate α :=
  { length_ := length, length_3 := length ^ 3, loghyper_changed := true }

/-- The method `ThinPlate::get(x1, x2)`. -/
def ThinPlate.get {α : Type} [Field α] (sqrt : α → α) (k : ThinPlate α) (x1 x2 : Vec3 α) : α :=
  let EE := x1.distance sqrt x2
  2 * EE ^ 3 - 3 * k.length_ * EE ^ 2 + k.length_

/-- The covariance interface the engine calls through `cf->`.  Its declaration
(`gp/Covs.h`) is not among the sources, so each overload the engine uses is a field:
`get(x1,x2)`, `get(x1,x2,dirac)`, `getDiff(x1,x2,d)`, `getDiff(x1,x2,d,dirac)`,
the four-argument call `getDiff(x1,x2,i-1,d)` of `update_k_star`, and
`getDiff2(x1,x2,d,e,dirac)`. -/
structure BaseCovFunc (α : Type) where
  get : Vec3 α → Vec3 α → α
  getDirac : Vec3 α → Vec3 α → Bool → α
  getDiff : Vec3 α → Vec3 α → Nat → α
  getDiffDirac : Vec3 α → Vec3 α → Nat → Bool → α
  getDiffAxes : Vec3 α → Vec3 α → Nat → Nat → α
  getDiff2 : Vec3 α → Vec3 α → Nat → Nat → Bool → α

/-! ## Sample set -/

/-- Modelled from the spec: the sample set (`gp/SampleSet.h` is not among the sources) is
an ordered sequence of 3-D inputs `X` and of scalar labels `Y`, append-only.  The
accessor `x(k)` is not bounds-checked in the model: a read past the end yields the
unspecified value `beyond k`. -/
structure SampleSet (α : Type) where
  X : List (Vec3 α)
  Y : List α
  beyond : Nat → Vec3 α

/-- Number of samples, `sampleset->rows()`. -/
def SampleSet.rows {α : Type} (s : SampleSet α) : Nat := s.X.length

/-- Emptiness test, `sampleset->empty()`. -/
def SampleSet.empty {α : Type} (s : SampleSet α) : Bool := s.X.isEmpty

/-- Input `k`, `sampleset->x(k)`. -/
def SampleSet.x {α : Type} (s : SampleSet α) (k : Nat) : Vec3 α := s.X.getD k (s.beyond k)

/-- Target vector, `sampleset->y()`. -/
def SampleSet.y {α : Type} (s : SampleSet α) : List α := s.Y

/-- Modelled from the spec: `sampleset->add(inputs, targets, normals)` appends the inputs
and their labels (the spec keeps one label per input). -/
def SampleSet.add {α : Type} (s : SampleSet α) (newInputs : List (Vec3 α)) (newTargets : List α)
    (_newNormals : List (Vec3 α)) : SampleSet α :=
  { s with X := s.X ++ newInputs, Y := s.Y ++ newTargets }

/-! ## Triangular solves and Cholesky factorisation -/

/-- Forward substitution with the lower triangle of `L`: `solveLower L b m` holds the
first `m` entries of the solution of `L v = b` (entries from `m` on are `0`).  This is
`L.topLeftCorner(m, m).triangularView<Lower>().solve(b)`. -/
def solveLower {α : Type} [Field α] (L : Mat α) (b : Nat → α) : Nat → Nat → α
  | 0 => fun _ => 0
  | m + 1 => fun i =>
      if i = m then (b m - ∑ j in Finset.range m, L m j * solveLower L b m j) / L m m
      else solveLower L b m i

/-- Back substitution with the transpose of the lower triangle of the top-left `n × n`
block of `L`: after `m` steps the last `m` entries of the solution of `Lᵀ a = b` are
in place.  `solveUpperT L b n n` is `...triangularView<Lower>().adjoint().solveInPlace(b)`. -/
def solveUpperT {α : Type} [Field α] (L : Mat α) (b : Nat → α) (n : Nat) : Nat → Nat → α
  | 0 => fun _ => 0
  | m + 1 => fun i =>
      if i = n - 1 - m then
        (b i - ∑ j in Finset.Ico (i + 1) n, L j i * solveUpperT L b n m j) / L i i
      else solveUpperT L b n m i

/-- Row `i` of the Cholesky factor of the symmetric matrix whose lower triangle is `A`,
written into `L`, whose rows `0..i-1` already hold the factor. -/
def lltRow {α : Type} [Field α] (sqrt : α → α) (A L : Mat α) (i : Nat) : Mat α :=
  let v := solveLower L (fun c => A i c) i
  fun r c =>
    if r = i then
      if c < i then v c
      else if c = i then sqrt (A i i - ∑ k in Finset.range i, v k * v k)
      else L r c
    else L r c

/-- The first `m` rows of the Cholesky factor of the symmetric matrix whose lower
triangle is `A` (`selfadjointView<Lower>().llt()`), computed row by row.  On a
positive-definite matrix this is the factor Eigen returns. -/
def llt {α : Type} [Field α] (sqrt : α → α) (A : Mat α) : Nat → Mat α
  | 0 => A
  | m + 1 => lltRow sqrt A (llt sqrt A m) m

/-- The assignment `L.topLeftCorner(ndt, ndt) = L.topLeftCorner(ndt, ndt)
.selfadjointView<Lower>().llt().matrixL()`: the block receives the factor, with zeros
above the diagonal; cells outside the block are kept. -/
def lltBlock {α : Type} [Field α] (sqrt : α → α) (L : Mat α) (ndt : Nat) : Mat α :=
  fun r c =>
    if r < ndt ∧ c < ndt then (if c ≤ r then llt sqrt L ndt r c else 0) else L r c

/-! ## The regression engine -/

/-- State of a `GaussianProcess` on which `set` has installed a sample set.  `Lrows`,
`alphaSize`, `k_starRows`, `k_starCols` are the current dimensions of the Eigen
objects; `loghyper_changed` is the flag read by `cf->isLogHyper()`. -/
structure GaussianProcess (α : Type) where
  cf : BaseCovFunc α
  loghyper_changed : Bool
  sampleset : SampleSet α
  alpha : Nat → α
  alphaSize : Nat
  k_star : Mat α
  k_starRows : Nat
  k_starCols : Nat
  L : Mat α
  Lrows : Nat
  delta_n : α
  alpha_needs_update : Bool
  initialLSize : Nat
  InvKppY : Nat → α

/-- Message of the `std::invalid_argument` raised by `f` on an empty sample set. -/
def msgNoTrainingData : String := "No training data available"

/-- Message of `update_alpha`. -/
def msgSizeDismatch : String := "Target and alpha vector have a size dismatch"

/-- Message standing for the failed `assert(newInputs.size() == newTargets.size())`. -/
def msgAssertSizes : String := "Assertion failed: newInputs.size() == newTargets.size()"

/-- `create(desc)` followed by `set(trainingData)` (optimisation disabled): `mem` and
`kmem` are the unspecified initial contents of `L` and `k_star`. -/
def GaussianProcess.create {α : Type} [Field α] (cf : BaseCovFunc α) (noise : α)
    (initialLSize : Nat) (mem kmem : Mat α) (trainingData : SampleSet α) : GaussianProcess α :=
  { cf := cf
    loghyper_changed := true
    sampleset := trainingData
    alpha := fun _ => 0
    alphaSize := 0
    k_star := kmem
    k_starRows := 0
    k_starCols := 0
    L := mem
    Lrows := initialLSize
    delta_n := noise
    alpha_needs_update := true
    initialLSize := initialLSize
    InvKppY := fun _ => 0 }

/-- First loop nest of `compute`: the lower triangle of the value block. -/
def computeValueBlock {α : Type} (cf : BaseCovFunc α) (s : SampleSet α) (n : Nat)
    (L : Mat α) : Mat α :=
  (List.range n).foldl (fun L i =>
    (List.range (i + 1)).foldl (fun L j =>
      setCell L i j (cf.getDirac (s.x i) (s.x j) (i == j))) L) L

/-- Second loop nest of `compute` ("first derivative"): for each sample `i` and axis `d`
the row `n + i*3 + d`, columns `0..n-1` and then columns `n..n + i*3 + d`. -/
def computeDiffBlock {α : Type} (cf : BaseCovFunc α) (s : SampleSet α) (n : Nat)
    (L : Mat α) : Mat α :=
  (List.range n).foldl (fun L i =>
    (List.range 3).foldl (fun L d =>
      let L1 := (List.range n).foldl (fun L j =>
        setCell L (n + i * 3 + d) j (cf.getDiffDirac (s.x i) (s.x j) d (i == j))) L
      (List.range (i * 3 + d + 1)).foldl (fun L j =>
        setCell L (n + i * 3 + d) (n + j) (cf.getDiff2 (s.x i) (s.x j) d (j % 3) (i == j))) L1) L) L

/-- The target vector as an Eigen vector (`convertToEigen(sampleset->y())`). -/
def targetVec {α : Type} [Field α] (s : SampleSet α) : Nat → α := fun i => s.y.getD i 0

/-- The method `compute(verbose)`.  The non-conservative `resize` leaves the contents of
`L` unspecified; the model keeps the stored cells, all of which inside the `4n × 4n`
block are overwritten before they are read.  The product with the target vector reads
the first `4n` targets. -/
def compute {α : Type} [Field α] (num : Numerics α) (g : GaussianProcess α) : GaussianProcess α :=
  if !g.loghyper_changed then g
  else
    let n := g.sampleset.rows
    let Lrows := if 4 * n > g.Lrows then 4 * n + g.initialLSize else g.Lrows
    let L1 := computeValueBlock g.cf g.sampleset n g.L
    let L2 := computeDiffBlock g.cf g.sampleset n L1
    let ndt := 4 * n
    let inv := num.inverse ndt L2
    let InvKppY := fun i => ∑ j in Finset.range ndt, inv i j * targetVec g.sampleset j
    let L3 := lltBlock num.sqrt L2 ndt
    { g with
      loghyper_changed := false
      Lrows := Lrows
      InvKppY := InvKppY
      L := L3
      alpha_needs_update := true }

/-- The method `update_alpha()`: the outcome and the state left behind. -/
def update_alpha {α : Type} [Field α] (g : GaussianProcess α) :
    Except String Unit × GaussianProcess α :=
  if !g.alpha_needs_update then (Except.ok (), g)
  else
    let ndt := 4 * g.sampleset.rows
    let g1 := { g with alpha_needs_update := false, alphaSize := ndt }
    if g.sampleset.y.length ≠ ndt then (Except.error msgSizeDismatch, g1)
    else
      let a1 := solveLower g1.L (targetVec g.sampleset) ndt
      let a2 := solveUpperT g1.L a1 ndt ndt
      (Except.ok (), { g1 with alpha := a2 })

/-- Row `0` of `update_k_star`: values, then the three first derivatives per sample. -/
def kStarRow0 {α : Type} (cf : BaseCovFunc α) (s : SampleSet α) (n : Nat) (x_star : Vec3 α)
    (k : Mat α) : Mat α :=
  let k1 := (List.range n).foldl (fun k j => setCell k 0 j (cf.get x_star (s.x j))) k
  (List.range n).foldl (fun k j =>
    (List.range 3).foldl (fun k d =>
      setCell k 0 (n + 3 * j + d) (cf.getDiff x_star (s.x j) d)) k) k1

/-- Rows `1..3` of `update_k_star`. -/
def kStarRows123 {α : Type} (cf : BaseCovFunc α) (s : SampleSet α) (n ndt : Nat)
    (x_star : Vec3 α) (k : Mat α) : Mat α :=
  (List.range' 1 3).foldl (fun k i =>
    let ka := (List.range n).foldl (fun k j =>
      setCell k i j (cf.getDiff x_star (s.x j) (i - 1))) k
    (List.range' n (ndt - n)).foldl (fun k j =>
      (List.range 3).foldl (fun k d =>
        setCell k i j (cf.getDiffAxes x_star (s.x j) (i - 1) d)) k) ka) k

/-- The method `update_k_star(x_star)`. -/
def update_k_star {α : Type} (g : GaussianProcess α) (x_star : Vec3 α) : GaussianProcess α :=
  let n := g.sampleset.rows
  let ndt := 4 * n
  let k0 := kStarRow0 g.cf g.sampleset n x_star g.k_star
  let k1 := kStarRows123 g.cf g.sampleset n ndt x_star k0
  { g with k_star := k1, k_starRows := 4, k_starCols := ndt }

/-- The method `f(xStar)`: the raised message or the four channels of the posterior
mean, and the state left behind. -/
def f {α : Type} [Field α] (num : Numerics α) (g : GaussianProcess α) (xStar : Vec3 α) :
    Except String (Fin 4 → α) × GaussianProcess α :=
  if g.sampleset.empty then (Except.error msgNoTrainingData, g)
  else
    let g1 := compute num g
    match update_alpha g1 with
    | (Except.error e, g2) => (Except.error e, g2)
    | (Except.ok _, g2) =>
      let g3 := update_k_star g2 xStar
      (Except.ok (fun i => ∑ j in Finset.range g3.k_starCols, g3.k_star i.val j * g3.alpha j), g3)

/-- The method `var(xStar)`: the raised message or the value of the returned
expression, and the state left behind. -/
def var {α : Type} [Field α] (num : Numerics α) (g : GaussianProcess α) (xStar : Vec3 α) :
    Except String α × GaussianProcess α :=
  if g.sampleset.empty then (Except.ok 0, g)
  else
    let g1 := compute num g
    match update_alpha g1 with
    | (Except.error e, g2) => (Except.error e, g2)
    | (Except.ok _, g2) =>
      let g3 := update_k_star g2 xStar
      let n := g3.sampleset.rows
      let ks := fun j => g3.k_star 0 j
      let v := solveLower g3.L ks n
      (Except.ok (g3.cf.get xStar xStar - ∑ j in Finset.range n, v j * v j), g3)

/-- Body of the loop of the incremental branch of `add_patterns` for the new sample `j`. -/
def addPatternsRow {α : Type} [Field α] (sqrt : α → α) (cf : BaseCovFunc α) (s : SampleSet α)
    (L : Mat α) (j : Nat) : Mat α :=
  let k := fun i => cf.get (s.x i) (s.x j)
  let kappa := cf.get (s.x j) (s.x j)
  let v := solveLower L k j
  let L1 : Mat α := fun r c => if r = j ∧ c < j then v c else L r c
  setCell L1 j j (sqrt (kappa - ∑ i in Finset.range j, v i * v i))

/-- The method `add_patterns(newInputs, newTargets)`. -/
def add_patterns {α : Type} [Field α] (num : Numerics α) (g : GaussianProcess α)
    (newInputs : List (Vec3 α)) (newTargets : List α) :
    Except String Unit × GaussianProcess α :=
  if newInputs.length ≠ newTargets.length then (Except.error msgAssertSizes, g)
  else
    let n := g.sampleset.rows
    let g1 := { g with sampleset := g.sampleset.add newInputs newTargets newInputs }
    let g2 :=
      if n = 0 then compute num { g1 with loghyper_changed := true }
      else
        let nnew := g1.sampleset.rows
        let Lrows := if nnew > g1.Lrows then nnew + g1.initialLSize else g1.Lrows
        let L := (List.range' n (nnew - n)).foldl
          (fun L j => addPatternsRow num.sqrt g1.cf g1.sampleset L j) g1.L
        { g1 with L := L, Lrows := Lrows }
    (Except.ok (), { g2 with alpha_needs_update := true })

/-! ## Tangent basis -/

/-- Result of `Eigen::JacobiSVD<Matrix3d>` with full `U` and `V`. -/
structure JacobiSVD (α : Type) where
  matrixU : Matrix (Fin 3) (Fin 3) α
  singularValues : Fin 3 → α
  matrixV : Matrix (Fin 3) (Fin 3) α

/-- What Eigen documents of a singular value decomposition of `A`: `U` and `V` are
orthogonal, `A = U Σ Vᵀ`, the singular values are non-negative and sorted in
decreasing order. -/
def IsSVD {α : Type} [OrderedCommRing α] (A : Matrix (Fin 3) (Fin 3) α) (s : JacobiSVD α) : Prop :=
  s.matrixU.transpose * s.matrixU = 1 ∧ s.matrixV.transpose * s.matrixV = 1 ∧
  s.matrixU * Matrix.diagonal s.singularValues * s.matrixV.transpose = A ∧
  (∀ i, 0 ≤ s.singularValues i) ∧
  s.singularValues 1 ≤ s.singularValues 0 ∧ s.singularValues 2 ≤ s.singularValues 1

/-- The method `computeTangentBasis(N, Tx, Ty)` of `GaussianProcess`: the pair
`(Tx, Ty)`; `svd` is the decomposition routine. -/
def computeTangentBasis {α : Type} [CommRing α]
    (svd : Matrix (Fin 3) (Fin 3) α → JacobiSVD α) (N : Fin 3 → α) :
    (Fin 3 → α) × (Fin 3 → α) :=
  let TProj : Matrix (Fin 3) (Fin 3) α := 1 - Matrix.vecMulVec N N
  let s := svd TProj
  (fun i => s.matrixU i 0, fun i => s.matrixU i 1)

/-! ## Concrete inputs used by the evaluations below -/

/-- Inverse of the top-left `n × n` block by the adjugate formula. -/
def adjugateInverse {α : Type} [Field α] (n : Nat) (M : Mat α) : Mat α :=
  let Mn : Matrix (Fin n) (Fin n) α := fun a b => M a.val b.val
  fun i j =>
    if h : i < n ∧ j < n then (Mn.det)⁻¹ * Mn.adjugate ⟨i, h.1⟩ ⟨j, h.2⟩ else M i j

/-- Exact rational arithmetic: `Rat.sqrt` is the exact root on squares of rationals. -/
def ratNumerics : Numerics ℚ := { sqrt := Rat.sqrt, inverse := adjugateInverse }

/-- The origin. -/
def p0 : Vec3 ℚ := ⟨0, 0, 0⟩

/-- The point `(1, 0, 0)`. -/
def p1 : Vec3 ℚ := ⟨1, 0, 0⟩

/-- A covariance for the evaluations: the thin-plate `get` with length `1`, the
`dirac` overload adding `noise` on the diagonal ("add noise on the diagonal of the
kernel"), and vanishing derivative overloads. -/
def thinPlateCov (noise : ℚ) : BaseCovFunc ℚ :=
  { get := ThinPlate.get Rat.sqrt (ThinPlate.ofLength 1)
    getDirac := fun a b dirac =>
      ThinPlate.get Rat.sqrt (ThinPlate.ofLength 1) a b + if dirac then noise else 0
    getDiff := fun _ _ _ => 0
    getDiffDirac := fun _ _ _ _ => 0
    getDiffAxes := fun _ _ _ _ => 0
    getDiff2 := fun _ _ _ _ _ => 0 }

/-- A sample set with the given inputs and labels. -/
def sampleSetOf (X : List (Vec3 ℚ)) (Y : List ℚ) : SampleSet ℚ :=
  { X := X, Y := Y, beyond := fun _ => p0 }

/-- A freshly created engine with room for an `8 × 8` factor whose storage holds `mem`,
on the sample set `s`. -/
def freshGP (noise : ℚ) (mem : Mat ℚ) (s : SampleSet ℚ) : GaussianProcess ℚ :=
  GaussianProcess.create (thinPlateCov noise) noise 8 mem (fun _ _ => 0) s

end gp

namespace gp_atlas_rrt

/-! ## Charts and atlas (`atlas/atlas.hpp`) -/

/-- An `Eigen::Vector3d`. -/
abbrev Vector3d (α : Type) := Fin 3 → α

/-- The regressor seen by the atlas: `evaluate model p` is the value `f.at(0)` that
`gp_reg->evaluate(gp_model, P, f)` delivers for the single query point `p`. -/
structure Regressor (μ α : Type) where
  evaluate : Option μ → Vector3d α → α

/-- The data of `struct Chart`. -/
structure Chart (α : Type) where
  id : Nat
  C : Vector3d α
  G : Vector3d α
  N : Vector3d α
  Tx : Vector3d α
  Ty : Vector3d α
  R : α
  V : α
  samples : List (Vector3d α)

/-- The data members of `AtlasBase`; `branches` is the connection map. -/
structure AtlasBase (μ α : Type) where
  gp_model : Option μ
  gp_reg : Option (Regressor μ α)
  nodes : List (Chart α)
  branches : Nat → Option (List Nat)

/-- Which of the three exits of `project` was taken. -/
inductive Convergence where
  | functionTolerance
  | improvementTolerance
  | maximumIterations
deriving DecidableEq

/-- Record of one run of the loop of `project`: the point assigned to `out`, the stop
taken, the value of the counter `iter` at that point and the number of calls of
`gp_reg->evaluate`. -/
structure ProjectRun (α : Type) where
  out : Vector3d α
  stop : Convergence
  iter : Nat
  evals : Nat

/-- The gradient-descent step `current -= step_mul * f(current) * normal`. -/
def projectStep {α : Type} [LinearOrderedRing α] (ev : Vector3d α → α) (normal : Vector3d α)
    (step_mul : α) (current : Vector3d α) : Vector3d α :=
  fun i => current i - step_mul * ev current * normal i

/-- The loop `while (iter < max_iter)` of `project`; the first argument is
`max_iter - iter`. -/
def projectLoop {α : Type} [LinearOrderedRing α] (ev : Vector3d α → α) (normal : Vector3d α)
    (f_tol improve_tol step_mul : α) : Nat → Nat → Nat → Vector3d α → ProjectRun α
  | 0, iter, evals, current =>
      { out := current, stop := Convergence.maximumIterations, iter := iter, evals := evals }
  | k + 1, iter, evals, current =>
      let current_f := ev current
      if |current_f| < f_tol then
        { out := current, stop := Convergence.functionTolerance, iter := iter, evals := evals + 1 }
      else
        let stepped := projectStep ev normal step_mul current
        let out_f := ev stepped
        if |out_f - current_f| < improve_tol then
          { out := stepped, stop := Convergence.improvementTolerance, iter := iter,
            evals := evals + 2 }
        else projectLoop ev normal f_tol improve_tol step_mul k (iter + 1) (evals + 2) stepped

/-- Message of the exception raised by `project`. -/
def msgEmptyRegressor : String := "Empty regressor pointer"

/-- The method `AtlasBase::project(in, out, normal, f_tol, improve_tol, max_iter, step_mul)`:
the raised message or the record of the run, paired with the value of `out` after the call. -/
def AtlasBase.project {μ α : Type} [LinearOrderedRing α] (a : AtlasBase μ α)
    (inp out normal : Vector3d α) (f_tol improve_tol : α) (max_iter : Nat) (step_mul : α) :
    Except String (ProjectRun α) × Vector3d α :=
  match a.gp_reg with
  | none => (Except.error msgEmptyRegressor, out)
  | some reg =>
    let run := projectLoop (reg.evaluate a.gp_model) normal f_tol improve_tol step_mul
      max_iter 0 0 inp
    (Except.ok run, run.out)

/-- An atlas over the integers whose regressor evaluates to the first coordinate. -/
def lineAtlas : AtlasBase Unit ℤ :=
  { gp_model := some (), gp_reg := some { evaluate := fun _ p => p 0 }, nodes := [],
    branches := fun _ => none }

/-- An atlas whose regressor reference is null. -/
def emptyAtlas : AtlasBase Unit ℤ :=
  { gp_model := none, gp_reg := none, nodes := [], branches := fun _ => none }

end gp_atlas_rrt

namespace gp

/-- One sample at the origin with four targets: the label `5` followed by three gradient
components, the `4n` layout that `update_alpha` expects. -/
def fourTargets : SampleSet ℚ := sampleSetOf [p0] [5, 0, 0, 1]

/-- A decomposition routine that returns `U = V = I` with singular values `1, 1, 0`: the
decomposition of `I − N·Nᵀ` for `N = (0, 0, 1)`. -/
def axisSVD {α : Type} [Zero α] [One α] (_A : Matrix (Fin 3) (Fin 3) α) : JacobiSVD α :=
  { matrixU := 1, singularValues := ![1, 1, 0], matrixV := 1 }

end gp

namespace gp_atlas_rrt

/-! ## Chart operations and atlas bookkeeping -/

/-- The routine `gp_regression::computeTangentBasis(G, N, Tx, Ty)` called by `Chart`.  Its
definition is not among the sources; it is taken as a function from the gradient to the
triple `(N, Tx, Ty)` it writes into its three output arguments. -/
abbrev TangentBasis (α : Type) := Vector3d α → Vector3d α × Vector3d α × Vector3d α

/-- The constructor `Chart(c, i, g, r, v)`; the sample cache starts empty. -/
def Chart.create {α : Type} (tb : TangentBasis α) (c : Vector3d α) (i : Nat) (g : Vector3d α)
    (r v : α) : Chart α :=
  { id := i, C := c, G := g, N := (tb g).1, Tx := (tb g).2.1, Ty := (tb g).2.2, R := r, V := v,
    samples := [] }

/-- The accessor `getNormal()`. -/
def Chart.getNormal {α : Type} (ch : Chart α) : Vector3d α := ch.N

/-- The accessor `getGradient()`. -/
def Chart.getGradient {α : Type} (ch : Chart α) : Vector3d α := ch.G

/-- The method `setGradient(g)`. -/
def Chart.setGradient {α : Type} (tb : TangentBasis α) (ch : Chart α) (g : Vector3d α) :
    Chart α :=
  { ch with G := g, N := (tb g).1, Tx := (tb g).2.1, Ty := (tb g).2.2 }

/-- The method `setRadius(r)`. -/
def Chart.setRadius {α : Type} (ch : Chart α) (r : α) : Chart α := { ch with R := r }

/-- The accessor `getRadius()`. -/
def Chart.getRadius {α : Type} (ch : Chart α) : α := ch.R

/-- The accessor `getCenter()`. -/
def Chart.getCenter {α : Type} (ch : Chart α) : Vector3d α := ch.C

/-- The accessor `getId()`. -/
def Chart.getId {α : Type} (ch : Chart α) : Nat := ch.id

/-- The accessor `getTanBasisOne()`. -/
def Chart.getTanBasisOne {α : Type} (ch : Chart α) : Vector3d α := ch.Tx

/-- The accessor `getTanBasisTwo()`. -/
def Chart.getTanBasisTwo {α : Type} (ch : Chart α) : Vector3d α := ch.Ty

/-- The accessor `getVariance()`. -/
def Chart.getVariance {α : Type} (ch : Chart α) : α := ch.V

/-- The method `resetSamples()`. -/
def Chart.resetSamples {α : Type} (ch : Chart α) : Chart α := { ch with samples := [] }

/-- Message of the exception raised by `getNode` and `getConnections`. -/
def msgOutOfRange : String := "Out of Range node id"

/-- The method `countNodes()`. -/
def AtlasBase.countNodes {μ α : Type} (a : AtlasBase μ α) : Nat := a.nodes.length

/-- The method `getNode(id)`: the raised message or the copy of the chart, paired with
the atlas after the call. -/
def AtlasBase.getNode {μ α : Type} (a : AtlasBase μ α) (id : Nat) :
    Except String (Chart α) × AtlasBase μ α :=
  if h : id < a.nodes.length then (Except.ok (a.nodes.get ⟨id, h⟩), a)
  else (Except.error msgOutOfRange, a)

/-- The method `clear()`. -/
def AtlasBase.clear {μ α : Type} (a : AtlasBase μ α) : AtlasBase μ α :=
  { a with nodes := [], gp_model := none, gp_reg := none }

/-- The method `setGPModel(gpm)`. -/
def AtlasBase.setGPModel {μ α : Type} (a : AtlasBase μ α) (gpm : Option μ) : AtlasBase μ α :=
  { a with gp_model := gpm }

/-- The method `setGPRegressor(gpr)`. -/
def AtlasBase.setGPRegressor {μ α : Type} (a : AtlasBase μ α) (gpr : Option (Regressor μ α)) :
    AtlasBase μ α :=
  { a with gp_reg := gpr }

/-- The method `getConnections(id)`: the raised message or the list of connected ids,
paired with the atlas after the call. -/
def AtlasBase.getConnections {μ α : Type} (a : AtlasBase μ α) (id : Nat) :
    Except String (List Nat) × AtlasBase μ α :=
  if id < a.nodes.length then
    match a.branches id with
    | some branch => (Except.ok branch, a)
    | none => (Except.ok [], a)
  else (Except.error msgOutOfRange, a)

/-- No dangling edges: every id that is a key of `branches` or occurs in one of its
lists is the index of a stored chart. -/
def NoDanglingEdges {μ α : Type} (a : AtlasBase μ α) : Prop :=
  ∀ k l, a.branches k = some l → k < a.countNodes ∧ ∀ v, v ∈ l → v < a.countNodes

/-- A tangent-basis routine for the examples: it returns the gradient itself and two
fixed axes. -/
def axisBasis : TangentBasis ℤ := fun g => (g, ![1, 0, 0], ![0, 1, 0])

/-- The chart with id `i`, centre `(i, 0, 0)`, gradient `(0, 0, 1)`, radius `1`, variance `0`. -/
def chartAt (i : Nat) : Chart ℤ := Chart.create axisBasis ![(i : ℤ), 0, 0] i ![0, 0, 1] 1 0

/-- An atlas with the two charts `0` and `1` and the single edge `0 → 1`. -/
def twoNodeAtlas : AtlasBase Unit ℤ :=
  { gp_model := some (), gp_reg := some { evaluate := fun _ p => p 0 },
    nodes := [chartAt 0, chartAt 1],
    branches := fun k => if k = 0 then some [1] else none }

end gp_atlas_rrt
namespace gp

/-! ## Batched evaluation and the validity of `alpha` -/

/-- The method `evaluate(x, fx, vars)`: the pair `(fx, vars)` it leaves in its two output
arguments.  Both are assigned `size` zeros; the loop that would fill them is commented
out in the source.  The six-argument overload obtains `fx` and `varx` from this call. -/
def evaluate {α : Type} [Field α] (_g : GaussianProcess α) (x : List (Vec3 α)) :
    List α × List α :=
  let size := x.length
  (List.replicate size 0, List.replicate size 0)

/-- The lower-triangular view of `L` (`triangularView<Eigen::Lower>`). -/
def lowerView {α : Type} [Field α] (L : Mat α) : Mat α := fun i k => if k ≤ i then L i k else 0

/-- The cached `alpha` is a valid signal of the current sample set: it has `4n` entries,
as many as there are targets, and `L·Lᵀ·alpha = y` on the top-left `4n × 4n` block. -/
def AlphaValid {α : Type} [Field α] (g : GaussianProcess α) : Prop :=
  g.alphaSize = 4 * g.sampleset.rows ∧ g.sampleset.y.length = 4 * g.sampleset.rows ∧
  ∀ i, i < 4 * g.sampleset.rows →
    ∑ j in Finset.range (4 * g.sampleset.rows),
      (∑ k in Finset.range (4 * g.sampleset.rows), lowerView g.L i k * lowerView g.L j k)
        * g.alpha j
      = targetVec g.sampleset i

/-- A covariance for the evaluations: like `thinPlateCov`, with the second-derivative
overload returning `1` for equal axes and `0` otherwise. -/
def unitDiffCov (noise : ℚ) : BaseCovFunc ℚ :=
  { get := ThinPlate.get Rat.sqrt (ThinPlate.ofLength 1)
    getDirac := fun a b dirac =>
      ThinPlate.get Rat.sqrt (ThinPlate.ofLength 1) a b + if dirac then noise else 0
    getDiff := fun _ _ _ => 0
    getDiffDirac := fun _ _ _ _ => 0
    getDiffAxes := fun _ _ _ _ => 0
    getDiff2 := fun _ _ d e _ => if d = e then 1 else 0 }

/-- A freshly created engine with the covariance `unitDiffCov 3` on the sample set with one
point and four targets; its augmented kernel matrix is `diag(4, 1, 1, 1)`. -/
def trainedGP : GaussianProcess ℚ :=
  GaussianProcess.create (unitDiffCov 3) 3 8 (fun _ _ => 0) (fun _ _ => 0) fourTargets

end gp
namespace GaussianProcessNode

/-! ## Training data of the node (`src/gp_node.cpp`) -/

/-- Routines of the C++ mathematics library used by the node, and the constant `M_PI`. -/
structure MathLib (α : Type) where
  sqrt : α → α
  cos : α → α
  sin : α → α
  pi : α

/-- A `for` loop over a floating counter, `for (x = x0; x < bound; x += step) body`, with the
state threaded through the body.  The first argument bounds the number of iterations of
the model: the result is `none` when it is used up while the loop condition still holds. -/
def forLoop {α σ : Type} [LinearOrderedField α] (bound step : α) (body : α → σ → Option σ) :
    Nat → α → σ → Option σ
  | 0, x, s => if x < bound then none else some s
  | fuel + 1, x, s =>
      if x < bound then (body x s).bind (fun s2 => forLoop bound step body fuel (x + step) s2)
      else some s

/-- The training data `gp_regression::Data`: three coordinate sequences and the labels. -/
structure Data (α : Type) where
  coord_x : List α
  coord_y : List α
  coord_z : List α
  label : List α

/-- Appending one labelled point to the training data (the four `push_back` calls). -/
def Data.push {α : Type} (d : Data α) (x y z l : α) : Data α :=
  { coord_x := d.coord_x ++ [x], coord_y := d.coord_y ++ [y], coord_z := d.coord_z ++ [z],
    label := d.label ++ [l] }

/-- The training data prepared by `computeGP`.  `object_ptr` is the object cloud (absent
for a null pointer); `compute3DCentroid` is the PCL routine, returning the number of
points it used and the centroid.  The outer result is `none` when the iteration bound of
the model is used up; the inner one is `none` where `computeGP` returns `false` before the
model is created.  The visualisation cloud and the kernel length `R_` are not modelled. -/
def computeGP {α : Type} [LinearOrderedField α] (m : MathLib α)
    (compute3DCentroid : List (gp.Vec3 α) → Nat × gp.Vec3 α)
    (object_ptr : Option (List (gp.Vec3 α))) (fuel : Nat) : Option (Option (Data α)) :=
  match object_ptr with
  | none => some none
  | some object =>
    if object.isEmpty then some none
    else
      let cloud_gp : Data α := { coord_x := [], coord_y := [], coord_z := [], label := [] }
      let centroid := (compute3DCentroid object).2
      if (compute3DCentroid object).1 = 0 then some none
      else
        let cloud_gp := cloud_gp.push centroid.x centroid.y centroid.z (-1.0)
        let cloud_gp := object.foldl (fun d pt => d.push pt.x pt.y pt.z 0) cloud_gp
        let ang_div : α := 8
        let lin_div : α := 6
        let ang_step := m.pi * 2 / ang_div
        let radius : α := 0.15
        let lin_step := 2 * radius / lin_div
        (forLoop radius lin_step (fun lin cloud_gp =>
          forLoop (2 * m.pi) ang_step (fun ang cloud_gp =>
            let x := m.sqrt (radius * radius - lin * lin) * m.cos ang + centroid.x
            let y := m.sqrt (radius * radius - lin * lin) * m.sin ang + centroid.y
            let z := lin + centroid.z
            some (cloud_gp.push x y z 1.0)) fuel 0 cloud_gp) fuel (-radius + lin_step / 2)
            cloud_gp).map
          (fun cloud_gp =>
            if cloud_gp.coord_x.length ≠ cloud_gp.label.length then none else some cloud_gp)

/-- The training data holding the given labelled points, in order. -/
def Data.ofPoints {α : Type} (l : List (gp.Vec3 α × α)) : Data α :=
  { coord_x := l.map (fun q => q.1.x), coord_y := l.map (fun q => q.1.y),
    coord_z := l.map (fun q => q.1.z), label := l.map (fun q => q.2) }

/-- A PCL centroid routine for the examples: the number of points and the origin. -/
def originCentroid (cloud : List (gp.Vec3 ℝ)) : Nat × gp.Vec3 ℝ := (cloud.length, ⟨0, 0, 0⟩)

end GaussianProcessNode
namespace gp

/-! ## Real-valued inputs for the Cholesky extension -/

/-- A covariance over the reals for the examples: the kernel `x1.x * x2.x + 1`, with
vanishing derivative overloads. -/
def linearCov : BaseCovFunc ℝ :=
  { get := fun a b => a.x * b.x + 1
    getDirac := fun a b _ => a.x * b.x + 1
    getDiff := fun _ _ _ => 0
    getDiffDirac := fun _ _ _ _ => 0
    getDiffAxes := fun _ _ _ _ => 0
    getDiff2 := fun _ _ _ _ _ => 0 }

/-- The sample set of the two points `(0,0,0)` and `(1,0,0)` over the reals. -/
def realPair : SampleSet ℝ :=
  { X := [⟨0, 0, 0⟩, ⟨1, 0, 0⟩], Y := [0, 0], beyond := fun _ => ⟨0, 0, 0⟩ }

end gp

namespace gp

/-! ## The assembled matrix and probes for the sample indices -/

/-- The content of `L` in `compute` after its two loop nests, before the inverse and the
factorisation are taken: the kernel matrix as the engine assembles it. -/
def assembled {α : Type} (cf : BaseCovFunc α) (s : SampleSet α) (L : Mat α) : Mat α :=
  computeDiffBlock cf s s.rows (computeValueBlock cf s s.rows L)

/-- A covariance all of whose overloads return the first coordinate of their second
argument: a cell computed with it shows which sample it was computed from. -/
def probeCov : BaseCovFunc ℚ :=
  { get := fun _ b => b.x
    getDirac := fun _ b _ => b.x
    getDiff := fun _ b _ => b.x
    getDiffDirac := fun _ b _ _ => b.x
    getDiffAxes := fun _ b _ _ => b.x
    getDiff2 := fun _ b _ _ _ => b.x }

/-- The point `(7, 0, 0)`, used as the value of a read past the end of the sample set. -/
def p7 : Vec3 ℚ := ⟨7, 0, 0⟩

end gp

namespace gp

/-! ## The optimiser (`Optimisation`, RProp) -/

/-- The members of `Optimisation`, copied by `create` from its descriptor. -/
structure Optimisation (α : Type) where
  delta0 : α
  deltaMin : α
  deltaMax : α
  etaMinus : α
  etaPlus : α
  epsStop : α
  maxIter : Nat

/-- The values set by `Optimisation::Desc::setToDefault()`. -/
def Optimisation.setToDefault : Optimisation ℚ :=
  { delta0 := 0.1
    deltaMin := 1e-6
    deltaMax := 50
    etaMinus := 0.5
    etaPlus := 1.2
    epsStop := 1e-4
    maxIter := 100 }

/-- The method `Optimisation::sign(x)`. -/
def Optimisation.sign {α : Type} [LinearOrderedField α] (x : α) : α :=
  if x > 0 then 1 else if x < 0 then -1 else 0

/-- What `find` uses of the engine `gp`, whose state is the vector of
log-hyper-parameters stored in `cf` together with a rest `σ`: the number
`cf->getParamDim()` of hyper-parameters, the effect of `cf->setLogHyper(params)` on the
rest of the state (the vector itself is stored), and the methods
`logLikelihoodGradient()` and `logLikelihood()`.  Both methods read the stored
log-hyper-parameters (first argument) and never assign them: they call `compute`,
`update_alpha` and `cf->grad` only.  They can raise (through `update_alpha`) and may
change the rest of the state.  Their values depend on the kernel as a function of its
hyper-parameters (`gp/Covs.h`, not among the sources), so they are taken as they are. -/
structure Likelihood (σ α : Type) where
  paramDim : Nat
  setLogHyper : (Nat → α) → σ → σ
  logLikelihoodGradient : (Nat → α) → σ → Except String (Nat → α) × σ
  logLikelihood : (Nat → α) → σ → Except String α × σ

/-- The three vectors the inner loop of `find` works on. -/
structure StepVectors (α : Type) where
  delta : Nat → α
  grad : Nat → α
  params : Nat → α

/-- Body of the loop `for (int j = 0; j < gradOld.size(); ++j)` of `find`; `gradOld` is
the component-wise product of the stored and the current gradient. -/
def findUpdate {α : Type} [LinearOrderedField α] (o : Optimisation α) (gradOld : Nat → α)
    (v : StepVectors α) (j : Nat) : StepVectors α :=
  let v1 : StepVectors α :=
    if gradOld j > 0 then
      { v with delta := Function.update v.delta j (min (v.delta j * o.etaPlus) o.deltaMax) }
    else if gradOld j < 0 then
      { v with
        delta := Function.update v.delta j (max (v.delta j * o.etaMinus) o.deltaMin)
        grad := Function.update v.grad j 0 }
    else v
  { v1 with
    params := Function.update v1.params j
      (v1.params j + -Optimisation.sign (v1.grad j) * v1.delta j) }

/-- The variables of `find` during its loop: the log-hyper-parameters stored in `cf`, the
rest of the engine state, the local vectors, `best` (`none` stands for `log(0) = −∞`),
and two records kept for the statements: the number of iterations entered and the
parameter vectors whose likelihood was evaluated, with the value, in order. -/
structure FindState (σ α : Type) where
  loghyper : Nat → α
  gp : σ
  delta : Nat → α
  gradOld : Nat → α
  params : Nat → α
  bestParams : Nat → α
  best : Option α
  iters : Nat
  evaluated : List ((Nat → α) × α)

/-- The test `lik > best`, where `best` starts as `log(0)`. -/
def exceedsBest {α : Type} [LinearOrderedField α] (lik : α) (best : Option α) : Bool :=
  match best with
  | none => true
  | some b => decide (lik > b)

/-- The loop `for (size_t i = 0; i < maxIter; ++i)` of `find`; the first argument is
`maxIter - i`.  The outcome is the raised message, if a method of the engine raised. -/
def findLoop {σ α : Type} [LinearOrderedField α] (sqrt : α → α) (o : Optimisation α)
    (m : Likelihood σ α) : Nat → FindState σ α → Except String Unit × FindState σ α
  | 0, st => (Except.ok (), st)
  | k + 1, st =>
    match m.logLikelihoodGradient st.loghyper st.gp with
    | (Except.error e, gp1) => (Except.error e, { st with gp := gp1, iters := st.iters + 1 })
    | (Except.ok g, gp1) =>
      let grad : Nat → α := fun j => -g j
      let gradOld : Nat → α := fun j => st.gradOld j * grad j
      let v := (List.range m.paramDim).foldl (findUpdate o gradOld)
        { delta := st.delta, grad := grad, params := st.params }
      let st1 : FindState σ α :=
        { st with
          gp := gp1, delta := v.delta, gradOld := v.grad, params := v.params
          iters := st.iters + 1 }
      if sqrt (∑ j in Finset.range m.paramDim, v.grad j * v.grad j) < o.epsStop then
        (Except.ok (), st1)
      else
        match m.logLikelihood v.params (m.setLogHyper v.params gp1) with
        | (Except.error e, gp2) => (Except.error e, { st1 with loghyper := v.params, gp := gp2 })
        | (Except.ok lik, gp2) =>
          let st2 : FindState σ α :=
            { st1 with
              loghyper := v.params, gp := gp2
              evaluated := st1.evaluated ++ [(v.params, lik)] }
          let st3 : FindState σ α :=
            if exceedsBest lik st2.best then { st2 with best := some lik, bestParams := v.params }
            else st2
          findLoop sqrt o m k st3

/-- The variables of `find` before its loop. -/
def findInit {σ α : Type} [LinearOrderedField α] (o : Optimisation α) (loghyper : Nat → α)
    (gp : σ) : FindState σ α :=
  { loghyper := loghyper
    gp := gp
    delta := fun _ => 1 * o.delta0
    gradOld := fun _ => 0
    params := loghyper
    bestParams := loghyper
    best := none
    iters := 0
    evaluated := [] }

/-- The method `Optimisation::find(gp)`, started on an engine whose covariance stores the
log-hyper-parameters `loghyper`: after the loop `cf->setLogHyper(bestParams)`. -/
def find {σ α : Type} [LinearOrderedField α] (sqrt : α → α) (o : Optimisation α)
    (m : Likelihood σ α) (loghyper : Nat → α) (gp : σ) :
    Except String Unit × FindState σ α :=
  match findLoop sqrt o m o.maxIter (findInit o loghyper gp) with
  | (Except.error e, st) => (Except.error e, st)
  | (Except.ok _, st) =>
    (Except.ok (), { st with loghyper := st.bestParams, gp := m.setLogHyper st.bestParams st.gp })

/-- A likelihood for the examples, on one hyper-parameter: `lik(p) = −(p − 1)²`, with
gradient `−2(p − 1)`; no engine state. -/
def parabola : Likelihood Unit ℚ :=
  { paramDim := 1
    setLogHyper := fun _ s => s
    logLikelihoodGradient := fun p s => (Except.ok (fun _ => -2 * (p 0 - 1)), s)
    logLikelihood := fun p s => (Except.ok (-((p 0 - 1) * (p 0 - 1))), s) }

end gp

namespace gp_atlas_rrt

/-- The points that `current` holds in `project` when every pass of the loop takes the
step `current -= step_mul*current_f.at(0)*normal`: `c_0 = in` and
`c_(k+1) = c_k − step_mul·f(c_k)·normal`, with `f` the value of the regressor and
`normal` the vector supplied by the caller.  These are the iterates `c_k` the
specification speaks of; the theorems compare the run of the loop with them. -/
def projectIterate {α : Type} [LinearOrderedRing α] (ev : Vector3d α → α) (normal : Vector3d α)
    (step_mul : α) (inp : Vector3d α) : Nat → Vector3d α
  | 0 => inp
  | k + 1 => fun i =>
      projectIterate ev normal step_mul inp k i
        - step_mul * ev (projectIterate ev normal step_mul inp k) * normal i

end gp_atlas_rrt

namespace gp

end gp

namespace GaussianProcessNode

/-- Rounding of a real number to the nearest `double` (binary64), ties to even: for
`x ≠ 0` with `2^e ≤ |x| < 2^(e+1)` the result is the multiple of `2^(e−52)` nearest to
`x`.  The exponent range (overflow, subnormal numbers) is not modelled; the values of the
node stay far inside it. -/
def roundDouble {α : Type} [LinearOrderedField α] [FloorRing α] (x : α) : α :=
  if x = 0 then 0
  else
    let ulp : α := (2 : α) ^ (Int.log 2 |x| - 52)
    let q : α := |x| / ulp
    let n : ℤ := ⌊q⌋
    let n2 : ℤ :=
      if q - n < 1 / 2 then n
      else if 1 / 2 < q - n then n + 1
      else if n % 2 = 0 then n else n + 1
    (if x < 0 then -1 else 1) * (n2 : α) * ulp

/-- A `for` loop over a `double` counter, `for (double x = x0; x < bound; x += step) body`,
with the state threaded through the body: after each pass the counter becomes the sum
`x + step` rounded to `double`.  The first argument bounds the number of iterations of the
model: the result is `none` when it is used up while the loop condition still holds. -/
def forLoopDouble {α σ : Type} [LinearOrderedField α] [FloorRing α] (bound step : α)
    (body : α → σ → Option σ) : Nat → α → σ → Option σ
  | 0, x, s => if x < bound then none else some s
  | fuel + 1, x, s =>
      if x < bound then
        (body x s).bind (fun s2 => forLoopDouble bound step body fuel (roundDouble (x + step)) s2)
      else some s

end GaussianProcessNode

namespace GaussianProcessNode

/-- The synthetic object cloud of `cb_start` for `cloud_dir` equal to "sphere" or
"half_sphere" (coordinates of the points pushed to `object_ptr`, in order; the colour is
not modelled).  The constants and the two loop counters are `double` values: every
literal, product, quotient and sum that feeds a counter or a loop bound is rounded to
`double`, `M_PI` being `π` rounded to `double`.  The coordinates of a point are computed
from the counters in exact arithmetic; their rounding is not modelled. -/
def syntheticObjectCloud {α : Type} [LinearOrderedField α] [FloorRing α] (m : MathLib α)
    (cloud_dir : String) (fuel : Nat) : Option (List (gp.Vec3 α)) :=
  let M_PI : α := roundDouble m.pi
  let ang_div : α := 24
  let lin_div : α := 20
  let radius : α := roundDouble 0.06
  let ang_step := roundDouble (roundDouble (M_PI * 2) / ang_div)
  let lin_step := roundDouble (roundDouble (2 * radius) / lin_div)
  let end_lin := if cloud_dir = "half_sphere" then roundDouble (radius / 2) else radius
  forLoopDouble end_lin lin_step (fun lin cloud =>
    forLoopDouble (roundDouble (2 * M_PI)) ang_step (fun ang cloud =>
      let x := m.sqrt (radius * radius - lin * lin) * m.cos ang
      let y := m.sqrt (radius * radius - lin * lin) * m.sin ang
      let z := lin + 1.0
      some (cloud ++ [⟨x, y, z⟩])) fuel 0 cloud) fuel
    (roundDouble (-radius + roundDouble (lin_step / 2))) []

end GaussianProcessNode

namespace gp

/-! ## Inputs for the mean at a training point -/

end gp

/-! # Theorems -/

namespace gp

/-! ## Thin-plate covariance -/

/-- What `ThinPlate::get` computes: the constant term is the length, not its cube. -/
theorem ThinPlate.get_eq {α : Type} [Field α] (sqrt : α → α) (k : ThinPlate α) (x1 x2 : Vec3 α) :
    k.get sqrt x1 x2
      = 2 * (x1.distance sqrt x2) ^ 3 - 3 * k.length_ * (x1.distance sqrt x2) ^ 2 + k.length_ :=
  rfl

/-- C2, evaluation at the failing input: for length `2` and `x1 = x2 = (0,0,0)` the
distance is `0`, `ThinPlate::get` returns `2`, and the closed form of the claim,
`2·d³ − 3·ℓ·d² + ℓ³`, is `8`. -/
theorem ThinPlate_get_self_length_two :
    Vec3.distance Rat.sqrt p0 p0 = 0 ∧
    (ThinPlate.ofLength (2 : ℚ)).get Rat.sqrt p0 p0 = 2 ∧
    2 * (Vec3.distance Rat.sqrt p0 p0) ^ 3 - 3 * 2 * (Vec3.distance Rat.sqrt p0 p0) ^ 2
      + (2 : ℚ) ^ 3 = 8 := by
  have hd : Vec3.distance Rat.sqrt p0 p0 = 0 := by
    simp [Vec3.distance, p0]
  refine ⟨hd, ?_, ?_⟩
  · rw [ThinPlate.get_eq, hd]
    norm_num [ThinPlate.ofLength]
  · rw [hd]; norm_num

/-! ## Loops that fill the matrices -/

/-- A cell of a matrix after one write. -/
theorem setCell_apply {α : Type} (M : Mat α) (r c : Nat) (v : α) (i j : Nat) :
    setCell M r c v i j = if i = r ∧ j = c then v else M i j := rfl

/-- A loop writing the cells `off .. off + m - 1` of row `i` from `g`. -/
theorem foldl_setCell_row {α : Type} (g : Nat → α) (i off m : Nat) (L : Mat α) (r c : Nat) :
    ((List.range m).foldl (fun L j => setCell L i (off + j) (g j)) L) r c
      = if r = i ∧ off ≤ c ∧ c < off + m then g (c - off) else L r c := by
  induction m with
  | zero =>
    have : ¬ (r = i ∧ off ≤ c ∧ c < off + 0) := by omega
    rw [if_neg this]; rfl
  | succ m ih =>
    rw [List.range_succ, List.foldl_append]
    simp only [List.foldl_cons, List.foldl_nil, setCell_apply, ih]
    by_cases h1 : r = i
    · by_cases h2 : c = off + m
      · subst h2; simp [h1]
      · by_cases h3 : off ≤ c ∧ c < off + m
        · have : off ≤ c ∧ c < off + (m + 1) := ⟨h3.1, by omega⟩
          simp [h1, h2, h3, this]
        · have : ¬ (off ≤ c ∧ c < off + (m + 1)) := by omega
          simp [h1, h2, h3, this]
    · simp [h1]

/-- Cells of `L` after the first loop nest of `compute`: the lower triangle of the first
`n` rows holds `cf->get(x(r), x(c), r == c)`, every other cell is kept. -/
theorem computeValueBlock_apply {α : Type} (cf : BaseCovFunc α) (s : SampleSet α) (n : Nat) (L : Mat α)
    (r c : Nat) :
    computeValueBlock cf s n L r c
      = if r < n ∧ c ≤ r then cf.getDirac (s.x r) (s.x c) (r == c) else L r c := by
  unfold computeValueBlock
  induction n with
  | zero => simp
  | succ n ih =>
    rw [List.range_succ, List.foldl_append]
    simp only [List.foldl_cons, List.foldl_nil]
    have h := foldl_setCell_row (fun j => cf.getDirac (s.x n) (s.x j) (n == j)) n 0 (n + 1)
      ((List.range n).foldl (fun L i =>
        (List.range (i + 1)).foldl (fun L j =>
          setCell L i j (cf.getDirac (s.x i) (s.x j) (i == j))) L) L) r c
    simp only [Nat.zero_add] at h
    rw [h, ih]
    by_cases h1 : r = n
    · subst h1
      by_cases h2 : c ≤ r
      · have : c < r + 1 := by omega
        simp [h2, this]
      · have : ¬ c < r + 1 := by omega
        simp [h2, this]
    · by_cases h2 : r < n
      · have : r < n + 1 := by omega
        simp [h1, h2, this]
      · have : ¬ r < n + 1 := by omega
        simp [h1, h2, this]

/-- Body of the loops over `j` of the second loop nest of `compute`, for row `n + i*3 + d`. -/
theorem diffRow_apply {α : Type} (cf : BaseCovFunc α) (s : SampleSet α) (n i d : Nat) (L : Mat α)
    (r c : Nat) :
    ((List.range (i * 3 + d + 1)).foldl (fun L j =>
        setCell L (n + i * 3 + d) (n + j) (cf.getDiff2 (s.x i) (s.x j) d (j % 3) (i == j)))
      ((List.range n).foldl (fun L j =>
        setCell L (n + i * 3 + d) j (cf.getDiffDirac (s.x i) (s.x j) d (i == j))) L)) r c
      = if r = n + i * 3 + d then
          (if c < n then cf.getDiffDirac (s.x i) (s.x c) d (i == c)
           else if c ≤ r then
             cf.getDiff2 (s.x i) (s.x (c - n)) d ((c - n) % 3) (i == (c - n))
           else L r c)
        else L r c := by
  have h1 := foldl_setCell_row (fun j => cf.getDiff2 (s.x i) (s.x j) d (j % 3) (i == j))
    (n + i * 3 + d) n (i * 3 + d + 1)
    ((List.range n).foldl (fun L j =>
        setCell L (n + i * 3 + d) j (cf.getDiffDirac (s.x i) (s.x j) d (i == j))) L) r c
  have h2 := foldl_setCell_row (fun j => cf.getDiffDirac (s.x i) (s.x j) d (i == j))
    (n + i * 3 + d) 0 n L r c
  simp only [Nat.zero_add, Nat.sub_zero] at h2
  rw [h1, h2]
  split_ifs <;> first | rfl | (exfalso; omega)

/-- The three rows written for sample `i` by the loop over the axes `d`. -/
theorem diffAxes_apply {α : Type} (cf : BaseCovFunc α) (s : SampleSet α) (n i : Nat) (L : Mat α)
    (r c : Nat) :
    ((List.range 3).foldl (fun L d =>
        let L1 := (List.range n).foldl (fun L j =>
          setCell L (n + i * 3 + d) j (cf.getDiffDirac (s.x i) (s.x j) d (i == j))) L
        (List.range (i * 3 + d + 1)).foldl (fun L j =>
          setCell L (n + i * 3 + d) (n + j) (cf.getDiff2 (s.x i) (s.x j) d (j % 3) (i == j))) L1) L) r c
      = if n + i * 3 ≤ r ∧ r < n + i * 3 + 3 then
          (if c < n then cf.getDiffDirac (s.x i) (s.x c) ((r - n) % 3) (i == c)
           else if c ≤ r then
             cf.getDiff2 (s.x i) (s.x (c - n)) ((r - n) % 3) ((c - n) % 3) (i == (c - n))
           else L r c)
        else L r c := by
  have h3 : List.range 3 = [0, 1, 2] := rfl
  rw [h3]
  simp only [List.foldl_cons, List.foldl_nil]
  rw [diffRow_apply, diffRow_apply, diffRow_apply]
  by_cases ha : r = n + i * 3 + 2
  · have e2 : (r - n) % 3 = 2 := by omega
    rw [e2]
    split_ifs <;> first | rfl | (exfalso; omega)
  · by_cases hb : r = n + i * 3 + 1
    · have e2 : (r - n) % 3 = 1 := by omega
      rw [e2]
      split_ifs <;> first | rfl | (exfalso; omega)
    · by_cases hc : r = n + i * 3 + 0
      · have e2 : (r - n) % 3 = 0 := by omega
        rw [e2]
        split_ifs <;> first | rfl | (exfalso; omega)
      · have e : ¬ (n + i * 3 ≤ r ∧ r < n + i * 3 + 3) := by omega
        rw [if_neg ha, if_neg hb, if_neg hc, if_neg e]

/-- Cells of `L` after the second loop nest of `compute`: row `r` with `n ≤ r < 4n` belongs
to the sample `(r - n) / 3` and the axis `(r - n) % 3`; its columns below `n` hold
`getDiff`, its columns `n .. r` hold `getDiff2` read at the sample index `c - n`. -/
theorem computeDiffBlock_apply {α : Type} (cf : BaseCovFunc α) (s : SampleSet α) (n : Nat) (L : Mat α)
    (r c : Nat) :
    computeDiffBlock cf s n L r c
      = if n ≤ r ∧ r < 4 * n then
          (if c < n then cf.getDiffDirac (s.x ((r - n) / 3)) (s.x c) ((r - n) % 3) ((r - n) / 3 == c)
           else if c ≤ r then
             cf.getDiff2 (s.x ((r - n) / 3)) (s.x (c - n)) ((r - n) % 3) ((c - n) % 3)
               ((r - n) / 3 == (c - n))
           else L r c)
        else L r c := by
  unfold computeDiffBlock
  have key : ∀ m : Nat, ((List.range m).foldl (fun L i =>
      (List.range 3).foldl (fun L d =>
        let L1 := (List.range n).foldl (fun L j =>
          setCell L (n + i * 3 + d) j (cf.getDiffDirac (s.x i) (s.x j) d (i == j))) L
        (List.range (i * 3 + d + 1)).foldl (fun L j =>
          setCell L (n + i * 3 + d) (n + j) (cf.getDiff2 (s.x i) (s.x j) d (j % 3) (i == j))) L1) L) L) r c
      = if n ≤ r ∧ r < n + 3 * m then
          (if c < n then cf.getDiffDirac (s.x ((r - n) / 3)) (s.x c) ((r - n) % 3) ((r - n) / 3 == c)
           else if c ≤ r then
             cf.getDiff2 (s.x ((r - n) / 3)) (s.x (c - n)) ((r - n) % 3) ((c - n) % 3)
               ((r - n) / 3 == (c - n))
           else L r c)
        else L r c := by
    intro m
    induction m with
    | zero =>
      have : ¬ (n ≤ r ∧ r < n + 3 * 0) := by omega
      rw [if_neg this]; rfl
    | succ m ih =>
      have hm : List.range (m + 1) = List.range m ++ [m] := List.range_succ m
      rw [hm, List.foldl_append]
      simp only [List.foldl_cons, List.foldl_nil]
      rw [diffAxes_apply, ih]
      by_cases ha : n + m * 3 ≤ r ∧ r < n + m * 3 + 3
      · have e1 : (r - n) / 3 = m := by omega
        have e3 : n ≤ r ∧ r < n + 3 * (m + 1) := by omega
        have e4 : ¬ (n ≤ r ∧ r < n + 3 * m) := by omega
        rw [if_pos ha, if_pos e3, if_neg e4, e1]
      · rw [if_neg ha]
        by_cases hd : n ≤ r ∧ r < n + 3 * m
        · have e3 : n ≤ r ∧ r < n + 3 * (m + 1) := by omega
          rw [if_pos hd, if_pos e3]
        · have e3 : ¬ (n ≤ r ∧ r < n + 3 * (m + 1)) := by omega
          rw [if_neg hd, if_neg e3]
  have hk := key n
  have e : n + 3 * n = 4 * n := by omega
  rw [e] at hk
  exact hk

/-! ## Forward substitution and the row-wise factorisation -/

/-- The entry computed by step `m` of the forward substitution. -/
theorem solveLower_succ_self {α : Type} [Field α] (L : Mat α) (b : Nat → α) (m : Nat) :
    solveLower L b (m + 1) m
      = (b m - ∑ j in Finset.range m, L m j * solveLower L b m j) / L m m := by
  simp [solveLower]

/-- Step `m` of the forward substitution keeps the other entries. -/
theorem solveLower_succ_of_ne {α : Type} [Field α] (L : Mat α) (b : Nat → α) (m i : Nat) (h : i ≠ m) :
    solveLower L b (m + 1) i = solveLower L b m i := by
  simp [solveLower, h]

/-- Entries from `m` on are zero. -/
theorem solveLower_of_ge {α : Type} [Field α] (L : Mat α) (b : Nat → α) (m i : Nat) (h : m ≤ i) :
    solveLower L b m i = 0 := by
  induction m with
  | zero => rfl
  | succ m ih =>
    rw [solveLower_succ_of_ne L b m i (by omega)]
    exact ih (by omega)

/-- An entry does not change once it is computed. -/
theorem solveLower_stable {α : Type} [Field α] (L : Mat α) (b : Nat → α) (m i : Nat) (h : i < m) :
    solveLower L b m i = solveLower L b (i + 1) i := by
  induction m with
  | zero => omega
  | succ m ih =>
    by_cases hi : i = m
    · subst hi; rfl
    · rw [solveLower_succ_of_ne L b m i hi]
      exact ih (by omega)

/-- Entry `i` of the forward substitution, in terms of the earlier entries. -/
theorem solveLower_entry {α : Type} [Field α] (L : Mat α) (b : Nat → α) (m i : Nat) (h : i < m) :
    solveLower L b m i
      = (b i - ∑ j in Finset.range i, L i j * solveLower L b m j) / L i i := by
  rw [solveLower_stable L b m i h, solveLower_succ_self]
  congr 2
  apply Finset.sum_congr rfl
  intro j hj
  have hj2 : j < i := Finset.mem_range.mp hj
  rw [solveLower_stable L b i j hj2, solveLower_stable L b m j (by omega)]

/-- Forward substitution solves the lower-triangular system when the diagonal has no zero. -/
theorem solveLower_spec {α : Type} [Field α] (L : Mat α) (b : Nat → α) (m : Nat)
    (hd : ∀ i, i < m → L i i ≠ 0) (i : Nat) (h : i < m) :
    ∑ j in Finset.range (i + 1), L i j * solveLower L b m j = b i := by
  rw [Finset.sum_range_succ, solveLower_entry L b m i h]
  have := hd i h
  field_simp

/-- Forward substitution reads only the lower triangle of the first `m` rows and the
first `m` entries of the right-hand side. -/
theorem solveLower_congr {α : Type} [Field α] (L L2 : Mat α) (b b2 : Nat → α) (m : Nat)
    (hL : ∀ i j, i < m → j ≤ i → L i j = L2 i j) (hb : ∀ i, i < m → b i = b2 i) (i : Nat) :
    solveLower L b m i = solveLower L2 b2 m i := by
  induction m generalizing i with
  | zero => rfl
  | succ m ih =>
    have ih2 := ih (fun i j hi hj => hL i j (by omega) hj) (fun i hi => hb i (by omega))
    by_cases hi : i = m
    · subst hi
      rw [solveLower_succ_self, solveLower_succ_self, hb i (by omega), hL i i (by omega) le_rfl]
      congr 2
      apply Finset.sum_congr rfl
      intro j hj
      have hj2 : j < i := Finset.mem_range.mp hj
      rw [hL i j (by omega) (by omega), ih2 j]
    · rw [solveLower_succ_of_ne L b m i hi, solveLower_succ_of_ne L2 b2 m i hi]
      exact ih2 i

/-- Rows from `m` on still hold the input. -/
theorem llt_of_ge {α : Type} [Field α] (sqrt : α → α) (A : Mat α) (m r c : Nat) (h : m ≤ r) :
    llt sqrt A m r c = A r c := by
  induction m with
  | zero => rfl
  | succ m ih =>
    have : r ≠ m := by omega
    simp only [llt, lltRow, if_neg this]
    exact ih (by omega)

/-- A row of the factor does not change once it is computed. -/
theorem llt_stable {α : Type} [Field α] (sqrt : α → α) (A : Mat α) (m r c : Nat) (h : r < m) :
    llt sqrt A m r c = llt sqrt A (r + 1) r c := by
  induction m with
  | zero => omega
  | succ m ih =>
    by_cases hr : r = m
    · subst hr; rfl
    · have : llt sqrt A (m + 1) r c = llt sqrt A m r c := by
        simp only [llt, lltRow, if_neg hr]
      rw [this]
      exact ih (by omega)

/-- Row `r` of the factor: the entries left of the diagonal, the diagonal. -/
theorem llt_row {α : Type} [Field α] (sqrt : α → α) (A : Mat α) (m r c : Nat) (h : r < m) (hc : c ≤ r) :
    llt sqrt A m r c
      = if c < r then solveLower (llt sqrt A r) (fun c => A r c) r c
        else sqrt (A r r - ∑ k in Finset.range r,
          solveLower (llt sqrt A r) (fun c => A r c) r k
            * solveLower (llt sqrt A r) (fun c => A r c) r k) := by
  rw [llt_stable sqrt A m r c h]
  simp only [llt, lltRow, if_true]
  by_cases h1 : c < r
  · simp [h1]
  · have : c = r := by omega
    simp [this]

/-! ## State lemmas of the engine -/

theorem compute_sampleset {α : Type} [Field α] (num : Numerics α) (g : GaussianProcess α) :
    (compute num g).sampleset = g.sampleset := by
  unfold compute
  split_ifs <;> rfl

/-- The covariance function is not touched by `compute`. -/
theorem compute_cf {α : Type} [Field α] (num : Numerics α) (g : GaussianProcess α) :
    (compute num g).cf = g.cf := by
  unfold compute
  split_ifs <;> rfl

/-- The flag `alpha_needs_update` after `compute`. -/
theorem compute_alpha_needs_update {α : Type} [Field α] (num : Numerics α) (g : GaussianProcess α) :
    (compute num g).alpha_needs_update = (g.loghyper_changed || g.alpha_needs_update) := by
  unfold compute
  cases h : g.loghyper_changed <;> simp

/-- The guard of `update_alpha`: with a stale `alpha` and a target vector whose length is
not `4n` it raises, after clearing the flag and resizing `alpha`. -/
theorem update_alpha_raises {α : Type} [Field α] (g : GaussianProcess α) (h1 : g.alpha_needs_update = true)
    (h2 : g.sampleset.y.length ≠ 4 * g.sampleset.rows) :
    update_alpha g = (Except.error msgSizeDismatch,
      { g with alpha_needs_update := false, alphaSize := 4 * g.sampleset.rows }) := by
  simp [update_alpha, h1, h2]

/-- Outside the guard `update_alpha` returns and leaves everything but `alpha`, its size
and the flag as it was. -/
theorem update_alpha_returns {α : Type} [Field α] (g : GaussianProcess α)
    (h : ¬ (g.alpha_needs_update = true ∧ g.sampleset.y.length ≠ 4 * g.sampleset.rows)) :
    ∃ g2, update_alpha g = (Except.ok (), g2) ∧ g2.L = g.L ∧ g2.sampleset = g.sampleset ∧
      g2.cf = g.cf ∧ g2.k_star = g.k_star ∧ g2.alpha_needs_update = false := by
  unfold update_alpha
  cases h1 : g.alpha_needs_update
  · exact ⟨g, by simp, rfl, rfl, rfl, rfl, h1⟩
  · have h2 : g.sampleset.y.length = 4 * g.sampleset.rows := by
      by_contra hc
      exact h ⟨h1, hc⟩
    simp [h2]

/-- Writes to columns `n + 3*j + d` leave the columns below `n` as they were. -/
theorem kStarRow0_diff_apply {α : Type} (cf : BaseCovFunc α) (s : SampleSet α) (n : Nat) (x_star : Vec3 α)
    (l : List Nat) (k : Mat α) (r c : Nat) (hc : c < n) :
    (l.foldl (fun k j =>
      (List.range 3).foldl (fun k d =>
        setCell k 0 (n + 3 * j + d) (cf.getDiff x_star (s.x j) d)) k) k) r c = k r c := by
  induction l generalizing k with
  | nil => rfl
  | cons j l ih =>
    rw [List.foldl_cons, ih]
    have h3 : List.range 3 = [0, 1, 2] := rfl
    rw [h3]
    simp only [List.foldl_cons, List.foldl_nil, setCell_apply]
    have e0 : ¬ (r = 0 ∧ c = n + 3 * j + 0) := by omega
    have e1 : ¬ (r = 0 ∧ c = n + 3 * j + 1) := by omega
    have e2 : ¬ (r = 0 ∧ c = n + 3 * j + 2) := by omega
    rw [if_neg e2, if_neg e1, if_neg e0]

/-- Row `0`, columns below `n`, after the first part of `update_k_star`. -/
theorem kStarRow0_apply {α : Type} (cf : BaseCovFunc α) (s : SampleSet α) (n : Nat) (x_star : Vec3 α)
    (k : Mat α) (c : Nat) (hc : c < n) :
    kStarRow0 cf s n x_star k 0 c = cf.get x_star (s.x c) := by
  unfold kStarRow0
  rw [kStarRow0_diff_apply cf s n x_star _ _ 0 c hc]
  have h := foldl_setCell_row (fun j => cf.get x_star (s.x j)) 0 0 n k 0 c
  rw [if_pos ⟨rfl, Nat.zero_le c, by omega⟩] at h
  simp only [Nat.zero_add, Nat.sub_zero] at h
  exact h

/-- A fold of writes into row `i` leaves every other row as it was. -/
theorem foldl_setCell_other_row {α : Type} (l : List Nat) (i : Nat) (col : Nat → Nat) (v : Nat → α)
    (k : Mat α) (r c : Nat) (hr : r ≠ i) :
    (l.foldl (fun k j => setCell k i (col j) (v j)) k) r c = k r c := by
  induction l generalizing k with
  | nil => rfl
  | cons j l ih =>
    rw [List.foldl_cons, ih, setCell_apply]
    have : ¬ (r = i ∧ c = col j) := fun h => hr h.1
    rw [if_neg this]

/-- The second part of `update_k_star` writes rows `1..3` only. -/
theorem kStarRows123_row0 {α : Type} (cf : BaseCovFunc α) (s : SampleSet α) (n ndt : Nat)
    (x_star : Vec3 α) (k : Mat α) (c : Nat) :
    kStarRows123 cf s n ndt x_star k 0 c = k 0 c := by
  unfold kStarRows123
  have key : ∀ (l : List Nat), (∀ i ∈ l, i ≠ 0) → ∀ k : Mat α,
      (l.foldl (fun k i =>
        let ka := (List.range n).foldl (fun k j =>
          setCell k i j (cf.getDiff x_star (s.x j) (i - 1))) k
        (List.range' n (ndt - n)).foldl (fun k j =>
          (List.range 3).foldl (fun k d =>
            setCell k i j (cf.getDiffAxes x_star (s.x j) (i - 1) d)) k) ka) k) 0 c = k 0 c := by
    intro l
    induction l with
    | nil => intro _ k; rfl
    | cons i l ih =>
      intro hl k
      rw [List.foldl_cons, ih (fun a ha => hl a (List.mem_cons_of_mem _ ha))]
      have hi : (0 : Nat) ≠ i := fun h => hl i (List.mem_cons_self _ _) h.symm
      have inner : ∀ (l2 : List Nat) (k2 : Mat α),
          (l2.foldl (fun k j =>
            (List.range 3).foldl (fun k d =>
              setCell k i j (cf.getDiffAxes x_star (s.x j) (i - 1) d)) k) k2) 0 c = k2 0 c := by
        intro l2
        induction l2 with
        | nil => intro k2; rfl
        | cons j l2 ih2 =>
          intro k2
          rw [List.foldl_cons, ih2]
          exact foldl_setCell_other_row (List.range 3) i (fun _ => j)
            (fun d => cf.getDiffAxes x_star (s.x j) (i - 1) d) k2 0 c hi
      rw [inner]
      exact foldl_setCell_other_row (List.range n) i (fun j => j)
        (fun j => cf.getDiff x_star (s.x j) (i - 1)) k 0 c hi
  apply key
  intro i hi
  simp [List.mem_range'] at hi
  omega

/-- Row `0` of `k_star` after `update_k_star`: column `c < n` holds `cf->get(x_star, x(c))`. -/
theorem update_k_star_row0 {α : Type} (g : GaussianProcess α) (x_star : Vec3 α) (c : Nat)
    (hc : c < g.sampleset.rows) :
    (update_k_star g x_star).k_star 0 c = g.cf.get x_star (g.sampleset.x c) := by
  simp only [update_k_star]
  rw [kStarRows123_row0, kStarRow0_apply _ _ _ _ _ _ hc]

/-! ## Error handling of `f`, `var` and `add_patterns` -/

/-- C8: on an empty sample set `f` raises "No training data available" for every query
point, and the state, in particular `L`, `alpha` and `k_star`, is exactly as before. -/
theorem f_empty_raises {α : Type} [Field α] (num : Numerics α) (g : GaussianProcess α)
    (xStar : Vec3 α) (h : g.sampleset.empty = true) :
    f num g xStar = (Except.error "No training data available", g) := by
  simp [f, h, msgNoTrainingData]

/-- C8, instance: a freshly created engine on the empty sample set, queried at `(1,0,0)`. -/
theorem f_empty_raises_witness :
    f ratNumerics (freshGP 0 (fun _ _ => 0) (sampleSetOf [] [])) p1
      = (Except.error "No training data available",
          freshGP 0 (fun _ _ => 0) (sampleSetOf [] [])) :=
  f_empty_raises ratNumerics (freshGP 0 (fun _ _ => 0) (sampleSetOf [] [])) p1 rfl

/-- C10: when the two sequences differ in length `add_patterns` fails on its assertion
and the state, in particular the sample set, is exactly as before. -/
theorem add_patterns_size_mismatch {α : Type} [Field α] (num : Numerics α)
    (g : GaussianProcess α) (newInputs : List (Vec3 α)) (newTargets : List α)
    (h : newInputs.length ≠ newTargets.length) :
    (add_patterns num g newInputs newTargets).1
        = Except.error "Assertion failed: newInputs.size() == newTargets.size()" ∧
    (add_patterns num g newInputs newTargets).2 = g ∧
    (add_patterns num g newInputs newTargets).2.sampleset = g.sampleset := by
  simp [add_patterns, h, msgAssertSizes]

/-- C10, instance: one input and no target. -/
theorem add_patterns_size_mismatch_witness :
    (add_patterns ratNumerics (freshGP 0 (fun _ _ => 0) (sampleSetOf [] [])) [p0] []).1
        = Except.error "Assertion failed: newInputs.size() == newTargets.size()" ∧
    (add_patterns ratNumerics (freshGP 0 (fun _ _ => 0) (sampleSetOf [] [])) [p0] []).2
        = freshGP 0 (fun _ _ => 0) (sampleSetOf [] []) ∧
    (add_patterns ratNumerics (freshGP 0 (fun _ _ => 0) (sampleSetOf [] [])) [p0] []).2.sampleset
        = (freshGP 0 (fun _ _ => 0) (sampleSetOf [] [])).sampleset :=
  add_patterns_size_mismatch ratNumerics (freshGP 0 (fun _ _ => 0) (sampleSetOf [] [])) [p0] []
    (by decide)

/-- C9, as the code has it: on an empty sample set `var` returns `0` and leaves the state;
on a non-empty set of `n` samples it first runs `compute` and `update_alpha`, so it raises
"Target and alpha vector have a size dismatch" when `alpha` is stale and the target vector
does not have `4n` entries; otherwise it returns `cf.get(x*, x*) − v·v`, where `v` is the
forward substitution of the first `n` entries `k` of row `0` of `k_star` (the values
`cf.get(x*, x_j)`) through the top-left `n × n` block `L_n` of `L`, and `L_n·v = k`
whenever the diagonal of `L_n` has no zero. -/
theorem var_spec {α : Type} [Field α] (num : Numerics α) (g : GaussianProcess α)
    (xStar : Vec3 α) :
    (g.sampleset.empty = true → var num g xStar = (Except.ok 0, g)) ∧
    (g.sampleset.empty = false →
      ((compute num g).alpha_needs_update = true ∧
          g.sampleset.y.length ≠ 4 * g.sampleset.rows →
        (var num g xStar).1 = Except.error "Target and alpha vector have a size dismatch") ∧
      (¬ ((compute num g).alpha_needs_update = true ∧
          g.sampleset.y.length ≠ 4 * g.sampleset.rows) →
        (var num g xStar).1
          = Except.ok (g.cf.get xStar xStar
              - ∑ j in Finset.range g.sampleset.rows,
                  solveLower (var num g xStar).2.L (fun j => (var num g xStar).2.k_star 0 j)
                    g.sampleset.rows j
                  * solveLower (var num g xStar).2.L (fun j => (var num g xStar).2.k_star 0 j)
                    g.sampleset.rows j) ∧
        (var num g xStar).2.L = (compute num g).L ∧
        (∀ j, j < g.sampleset.rows →
          (var num g xStar).2.k_star 0 j = g.cf.get xStar (g.sampleset.x j)) ∧
        ((∀ i, i < g.sampleset.rows → (var num g xStar).2.L i i ≠ 0) →
          ∀ i, i < g.sampleset.rows →
            ∑ j in Finset.range (i + 1), (var num g xStar).2.L i j
              * solveLower (var num g xStar).2.L (fun j => (var num g xStar).2.k_star 0 j)
                  g.sampleset.rows j
            = (var num g xStar).2.k_star 0 i))) := by
  refine ⟨fun h => by simp [var, h], fun h => ⟨fun hr => ?_, fun hr => ?_⟩⟩
  · have h2 : (compute num g).sampleset.y.length ≠ 4 * (compute num g).sampleset.rows := by
      rw [compute_sampleset]; exact hr.2
    simp [var, h, update_alpha_raises (compute num g) hr.1 h2, msgSizeDismatch]
  · have h2 : ¬ ((compute num g).alpha_needs_update = true ∧
        (compute num g).sampleset.y.length ≠ 4 * (compute num g).sampleset.rows) := by
      rw [compute_sampleset]; exact hr
    obtain ⟨g2, hg2, hL, hs, hcf, _, _⟩ := update_alpha_returns (compute num g) h2
    have hs2 : g2.sampleset = g.sampleset := by rw [hs, compute_sampleset]
    have hcf2 : g2.cf = g.cf := by rw [hcf, compute_cf]
    have hv : var num g xStar
        = (Except.ok ((update_k_star g2 xStar).cf.get xStar xStar
            - ∑ j in Finset.range (update_k_star g2 xStar).sampleset.rows,
                solveLower (update_k_star g2 xStar).L
                    (fun j => (update_k_star g2 xStar).k_star 0 j)
                    (update_k_star g2 xStar).sampleset.rows j
                * solveLower (update_k_star g2 xStar).L
                    (fun j => (update_k_star g2 xStar).k_star 0 j)
                    (update_k_star g2 xStar).sampleset.rows j),
          update_k_star g2 xStar) := by
      simp [var, h, hg2]
    have e1 : (update_k_star g2 xStar).sampleset = g.sampleset := hs2
    have e2 : (update_k_star g2 xStar).cf = g.cf := hcf2
    have e3 : (update_k_star g2 xStar).L = (compute num g).L := hL
    rw [hv]
    simp only [e1, e2, e3]
    refine ⟨trivial, trivial, ?_, ?_⟩
    · intro j hj
      rw [update_k_star_row0 g2 xStar j (by rw [hs2]; exact hj), hcf2, hs2]
    · intro hd i hi
      exact solveLower_spec _ _ _ hd i hi

/-! ## Evaluations at concrete inputs -/

theorem compute_L_of_changed {α : Type} [Field α] (num : Numerics α) (g : GaussianProcess α)
    (h : g.loghyper_changed = true) :
    (compute num g).L
      = lltBlock num.sqrt
          (computeDiffBlock g.cf g.sampleset g.sampleset.rows
            (computeValueBlock g.cf g.sampleset g.sampleset.rows g.L))
          (4 * g.sampleset.rows) := by
  simp [compute, h]

/-- First batch: `add_patterns` on an empty sample set goes through `compute`. -/
theorem add_patterns_first {α : Type} [Field α] (num : Numerics α) (g : GaussianProcess α)
    (newInputs : List (Vec3 α)) (newTargets : List α)
    (hlen : newInputs.length = newTargets.length) (h0 : g.sampleset.rows = 0) :
    add_patterns num g newInputs newTargets
      = (Except.ok (),
          { compute num { g with
              sampleset := g.sampleset.add newInputs newTargets newInputs
              loghyper_changed := true } with alpha_needs_update := true }) := by
  simp [add_patterns, hlen, h0]

/-- Later batches: the incremental branch of `add_patterns`. -/
theorem add_patterns_incremental {α : Type} [Field α] (num : Numerics α)
    (g : GaussianProcess α) (newInputs : List (Vec3 α)) (newTargets : List α)
    (hlen : newInputs.length = newTargets.length) (h0 : g.sampleset.rows ≠ 0) :
    add_patterns num g newInputs newTargets
      = (Except.ok (),
          { g with
            sampleset := g.sampleset.add newInputs newTargets newInputs
            L := (List.range' g.sampleset.rows
                ((g.sampleset.add newInputs newTargets newInputs).rows - g.sampleset.rows)).foldl
              (fun L j => addPatternsRow num.sqrt g.cf
                (g.sampleset.add newInputs newTargets newInputs) L j) g.L
            Lrows := if (g.sampleset.add newInputs newTargets newInputs).rows > g.Lrows
              then (g.sampleset.add newInputs newTargets newInputs).rows + g.initialLSize
              else g.Lrows
            alpha_needs_update := true }) := by
  simp [add_patterns, hlen, h0]

/-- Distance of the origin to itself. -/
theorem distance_p0_p0 : Vec3.distance Rat.sqrt p0 p0 = 0 := by
  simp [Vec3.distance, p0]

/-- Distance of `(1,0,0)` to itself. -/
theorem distance_p1_p1 : Vec3.distance Rat.sqrt p1 p1 = 0 := by
  simp [Vec3.distance, p1]

/-- Distance between the two sample points. -/
theorem distance_p0_p1 : Vec3.distance Rat.sqrt p0 p1 = 1 := by
  simp [Vec3.distance, p0, p1]

/-- Distance between the two sample points, arguments swapped. -/
theorem distance_p1_p0 : Vec3.distance Rat.sqrt p1 p0 = 1 := by
  simp [Vec3.distance, p0, p1]

/-- Values of the thin-plate `get` of length `1` on the two sample points. -/
theorem thinPlate_one_values :
    (ThinPlate.ofLength (1 : ℚ)).get Rat.sqrt p0 p0 = 1 ∧
    (ThinPlate.ofLength (1 : ℚ)).get Rat.sqrt p1 p1 = 1 ∧
    (ThinPlate.ofLength (1 : ℚ)).get Rat.sqrt p0 p1 = 0 ∧
    (ThinPlate.ofLength (1 : ℚ)).get Rat.sqrt p1 p0 = 0 := by
  simp only [ThinPlate.get_eq, distance_p0_p0, distance_p1_p1, distance_p0_p1, distance_p1_p0]
  norm_num [ThinPlate.ofLength]

/-- The rational square root of `4`. -/
theorem ratSqrt_four : Rat.sqrt 4 = 2 := by norm_num

/-- The rational square root of `1`. -/
theorem ratSqrt_one : Rat.sqrt 1 = 1 := by norm_num

/-- Batch path on the two points with noise `3`: cells `(0,0)`, `(1,1)` and `(4,0)` of `L`. -/
theorem batch_cells (mem : Mat ℚ) :
    (add_patterns ratNumerics (freshGP 3 mem (sampleSetOf [] [])) [p0, p1] [0, 0]).2.L 0 0 = 2 ∧
    (add_patterns ratNumerics (freshGP 3 mem (sampleSetOf [] [])) [p0, p1] [0, 0]).2.L 1 1 = 2 ∧
    (add_patterns ratNumerics (freshGP 3 mem (sampleSetOf [] [])) [p0, p1] [0, 0]).2.L 4 0 = 0 := by
  rw [add_patterns_first ratNumerics (freshGP 3 mem (sampleSetOf [] [])) [p0, p1] [0, 0] rfl rfl]
  simp only [compute_L_of_changed]
  obtain ⟨v00, v11, v01, v10⟩ := thinPlate_one_values
  have hx0 : ((freshGP 3 mem (sampleSetOf [] [])).sampleset.add [p0, p1] [0, 0] [p0, p1]).x 0 = p0 := rfl
  have hx1 : ((freshGP 3 mem (sampleSetOf [] [])).sampleset.add [p0, p1] [0, 0] [p0, p1]).x 1 = p1 := rfl
  have hn : ((freshGP 3 mem (sampleSetOf [] [])).sampleset.add [p0, p1] [0, 0] [p0, p1]).rows = 2 := rfl
  have hcf : (freshGP 3 mem (sampleSetOf [] [])).cf = thinPlateCov 3 := rfl
  simp only [hn, hcf]
  refine ⟨?_, ?_, ?_⟩
  · simp [lltBlock, llt_row, solveLower, computeDiffBlock_apply, computeValueBlock_apply, hx0,
      thinPlateCov, v00, ratNumerics]
    norm_num
  · simp [lltBlock, llt_row, solveLower, computeDiffBlock_apply, computeValueBlock_apply, hx0, hx1,
      thinPlateCov, v00, v11, v10, ratNumerics, llt, lltRow]
    norm_num
  · simp [lltBlock, llt_row, solveLower, computeDiffBlock_apply, computeValueBlock_apply, hx0, hx1,
      thinPlateCov, v00, v11, v10, ratNumerics, llt, lltRow]

/-- One-at-a-time path on the two points with noise `3`: cells `(0,0)`, `(1,1)`, `(4,0)`. -/
theorem incremental_cells (mem : Mat ℚ) :
    (add_patterns ratNumerics
      (add_patterns ratNumerics (freshGP 3 mem (sampleSetOf [] [])) [p0] [0]).2 [p1] [0]).2.L 0 0 = 2 ∧
    (add_patterns ratNumerics
      (add_patterns ratNumerics (freshGP 3 mem (sampleSetOf [] [])) [p0] [0]).2 [p1] [0]).2.L 1 1 = 1 ∧
    (add_patterns ratNumerics
      (add_patterns ratNumerics (freshGP 3 mem (sampleSetOf [] [])) [p0] [0]).2 [p1] [0]).2.L 4 0
        = mem 4 0 := by
  rw [add_patterns_first ratNumerics (freshGP 3 mem (sampleSetOf [] [])) [p0] [0] rfl rfl]
  rw [add_patterns_incremental ratNumerics _ [p1] [0] rfl
    (by rw [compute_sampleset]; exact Nat.succ_ne_zero _)]
  simp only [compute_L_of_changed, compute_sampleset, compute_cf]
  obtain ⟨v00, v11, v01, v10⟩ := thinPlate_one_values
  have hn1 : ((freshGP 3 mem (sampleSetOf [] [])).sampleset.add [p0] [0] [p0]).rows = 1 := rfl
  have hn2 : (((freshGP 3 mem (sampleSetOf [] [])).sampleset.add [p0] [0] [p0]).add
      [p1] [0] [p1]).rows = 2 := rfl
  have hx0 : ((freshGP 3 mem (sampleSetOf [] [])).sampleset.add [p0] [0] [p0]).x 0 = p0 := rfl
  have hy0 : (((freshGP 3 mem (sampleSetOf [] [])).sampleset.add [p0] [0] [p0]).add
      [p1] [0] [p1]).x 0 = p0 := rfl
  have hy1 : (((freshGP 3 mem (sampleSetOf [] [])).sampleset.add [p0] [0] [p0]).add
      [p1] [0] [p1]).x 1 = p1 := rfl
  have hcf : (freshGP 3 mem (sampleSetOf [] [])).cf = thinPlateCov 3 := rfl
  have hr : List.range' 1 (2 - 1) = [1] := rfl
  simp only [hn1, hn2, hcf, hr, List.foldl_cons, List.foldl_nil]
  refine ⟨?_, ?_, ?_⟩
  · simp [addPatternsRow, setCell, lltBlock, llt_row, solveLower, computeDiffBlock_apply,
      computeValueBlock_apply, hx0, thinPlateCov, v00, ratNumerics]
    norm_num
  · simp [addPatternsRow, setCell, lltBlock, llt_row, solveLower, computeDiffBlock_apply,
      computeValueBlock_apply, hx0, hy0, hy1, thinPlateCov, v00, v11, v01, ratNumerics]
  · simp [addPatternsRow, setCell, lltBlock, computeDiffBlock_apply, computeValueBlock_apply]
    rfl

/-- C1, evaluation at the failing input: thin-plate covariance of length `1` with noise `3`
on the diagonal, samples `(0,0,0)` and `(1,0,0)`, storage of `L` initially holding `mem`.
Adding the samples one at a time and adding them in one call produce the same sample set
and the same cell `L(0,0) = 2`, but `L(1,1)` is `1` on the incremental path (no noise
term) and `2` on the batch path, and the derivative row `4` is never written on the
incremental path (`L(4,0)` keeps its initial content) while the batch path factorises it. -/
theorem add_patterns_incremental_differs_from_batch (mem : Mat ℚ) :
    (add_patterns ratNumerics
      (add_patterns ratNumerics (freshGP 3 mem (sampleSetOf [] [])) [p0] [0]).2 [p1] [0]).2.sampleset
      = (add_patterns ratNumerics (freshGP 3 mem (sampleSetOf [] [])) [p0, p1] [0, 0]).2.sampleset ∧
    (add_patterns ratNumerics
      (add_patterns ratNumerics (freshGP 3 mem (sampleSetOf [] [])) [p0] [0]).2 [p1] [0]).2.L 0 0 = 2 ∧
    (add_patterns ratNumerics (freshGP 3 mem (sampleSetOf [] [])) [p0, p1] [0, 0]).2.L 0 0 = 2 ∧
    (add_patterns ratNumerics
      (add_patterns ratNumerics (freshGP 3 mem (sampleSetOf [] [])) [p0] [0]).2 [p1] [0]).2.L 1 1 = 1 ∧
    (add_patterns ratNumerics (freshGP 3 mem (sampleSetOf [] [])) [p0, p1] [0, 0]).2.L 1 1 = 2 ∧
    (add_patterns ratNumerics
      (add_patterns ratNumerics (freshGP 3 mem (sampleSetOf [] [])) [p0] [0]).2 [p1] [0]).2.L 4 0
        = mem 4 0 ∧
    (add_patterns ratNumerics (freshGP 3 mem (sampleSetOf [] [])) [p0, p1] [0, 0]).2.L 4 0 = 0 := by
  obtain ⟨i00, i11, i40⟩ := incremental_cells mem
  obtain ⟨b00, b11, b40⟩ := batch_cells mem
  refine ⟨?_, i00, b00, i11, b11, i40, b40⟩
  rw [add_patterns_first ratNumerics (freshGP 3 mem (sampleSetOf [] [])) [p0] [0] rfl rfl,
    add_patterns_first ratNumerics (freshGP 3 mem (sampleSetOf [] [])) [p0, p1] [0, 0] rfl rfl,
    add_patterns_incremental ratNumerics _ [p1] [0] rfl (by rw [compute_sampleset]; exact Nat.succ_ne_zero _)]
  simp only [compute_sampleset]
  rfl

/-- On a non-empty sample set with a stale `alpha` and a target vector whose length is
not `4n`, `f` raises the size mismatch of `update_alpha`. -/
theorem f_raises {α : Type} [Field α] (num : Numerics α) (g : GaussianProcess α)
    (xStar : Vec3 α) (h : g.sampleset.empty = false)
    (h1 : (compute num g).alpha_needs_update = true)
    (h2 : g.sampleset.y.length ≠ 4 * g.sampleset.rows) :
    (f num g xStar).1 = Except.error msgSizeDismatch := by
  have h3 : (compute num g).sampleset.y.length ≠ 4 * (compute num g).sampleset.rows := by
    rw [compute_sampleset]; exact h2
  simp [f, h, update_alpha_raises (compute num g) h1 h3]

/-- On a non-empty sample set with a stale `alpha` and a target vector whose length is
not `4n`, `var` raises the size mismatch of `update_alpha`. -/
theorem var_raises {α : Type} [Field α] (num : Numerics α) (g : GaussianProcess α)
    (xStar : Vec3 α) (h : g.sampleset.empty = false)
    (h1 : (compute num g).alpha_needs_update = true)
    (h2 : g.sampleset.y.length ≠ 4 * g.sampleset.rows) :
    (var num g xStar).1 = Except.error msgSizeDismatch := by
  have h3 : (compute num g).sampleset.y.length ≠ 4 * (compute num g).sampleset.rows := by
    rw [compute_sampleset]; exact h2
  simp [var, h, update_alpha_raises (compute num g) h1 h3]

/-- C9, counterexample: a freshly created engine on the non-empty sample set holding the
point `(0,0,0)` with the single label `5`; `var` at `(1,0,0)` does not return a value, it
raises "Target and alpha vector have a size dismatch". -/
theorem var_raises_on_one_label :
    (freshGP 0 (fun _ _ => 0) (sampleSetOf [p0] [5])).sampleset.empty = false ∧
    (var ratNumerics (freshGP 0 (fun _ _ => 0) (sampleSetOf [p0] [5])) p1).1
      = Except.error "Target and alpha vector have a size dismatch" ∧
    ∀ value : ℚ, (var ratNumerics (freshGP 0 (fun _ _ => 0) (sampleSetOf [p0] [5])) p1).1
      ≠ Except.ok value := by
  have h : (var ratNumerics (freshGP 0 (fun _ _ => 0) (sampleSetOf [p0] [5])) p1).1
      = Except.error "Target and alpha vector have a size dismatch" := by
    apply var_raises
    · rfl
    · rw [compute_alpha_needs_update]; rfl
    · exact (by decide : (1 : Nat) ≠ 4 * 1)
  refine ⟨rfl, h, ?_⟩
  intro value hv
  rw [h] at hv
  cases hv

/-- Cell `(0,0)` of `L` after `compute` on the four-target sample set with noise `3`. -/
theorem compute_fourTargets_L00 :
    (compute ratNumerics (freshGP 3 (fun _ _ => 0) fourTargets)).L 0 0 = 2 := by
  rw [compute_L_of_changed _ _ rfl]
  obtain ⟨v00, _, _, _⟩ := thinPlate_one_values
  have hx0 : (freshGP 3 (fun _ _ => 0) fourTargets).sampleset.x 0 = p0 := rfl
  have hn : (freshGP 3 (fun _ _ => 0) fourTargets).sampleset.rows = 1 := rfl
  have hcf : (freshGP 3 (fun _ _ => 0) fourTargets).cf = thinPlateCov 3 := rfl
  simp only [hn, hcf]
  simp [lltBlock, llt_row, solveLower, computeDiffBlock_apply, computeValueBlock_apply, hx0,
    thinPlateCov, v00, ratNumerics]
  norm_num

/-- C9, instance: on the empty sample set `var` returns `0`; on the sample set with one
point and four targets (noise `3`, so `L(0,0) = 2`) it returns `cf.get(x*,x*) − v·v`
with `L(0,0)·v(0) = k_star(0,0)`. -/
theorem var_spec_witness :
    var ratNumerics (freshGP 3 (fun _ _ => 0) (sampleSetOf [] [])) p1
      = (Except.ok 0, freshGP 3 (fun _ _ => 0) (sampleSetOf [] [])) ∧
    (var ratNumerics (freshGP 3 (fun _ _ => 0) fourTargets) p1).1
      = Except.ok ((freshGP 3 (fun _ _ => 0) fourTargets).cf.get p1 p1
          - ∑ j in Finset.range (freshGP 3 (fun _ _ => 0) fourTargets).sampleset.rows,
              solveLower (var ratNumerics (freshGP 3 (fun _ _ => 0) fourTargets) p1).2.L
                (fun j => (var ratNumerics (freshGP 3 (fun _ _ => 0) fourTargets) p1).2.k_star 0 j)
                (freshGP 3 (fun _ _ => 0) fourTargets).sampleset.rows j
              * solveLower (var ratNumerics (freshGP 3 (fun _ _ => 0) fourTargets) p1).2.L
                (fun j => (var ratNumerics (freshGP 3 (fun _ _ => 0) fourTargets) p1).2.k_star 0 j)
                (freshGP 3 (fun _ _ => 0) fourTargets).sampleset.rows j) ∧
    ∑ j in Finset.range (0 + 1),
        (var ratNumerics (freshGP 3 (fun _ _ => 0) fourTargets) p1).2.L 0 j
        * solveLower (var ratNumerics (freshGP 3 (fun _ _ => 0) fourTargets) p1).2.L
            (fun j => (var ratNumerics (freshGP 3 (fun _ _ => 0) fourTargets) p1).2.k_star 0 j)
            (freshGP 3 (fun _ _ => 0) fourTargets).sampleset.rows j
      = (var ratNumerics (freshGP 3 (fun _ _ => 0) fourTargets) p1).2.k_star 0 0 := by
  have hcond : ¬ ((compute ratNumerics (freshGP 3 (fun _ _ => 0) fourTargets)).alpha_needs_update
      = true ∧ (freshGP 3 (fun _ _ => 0) fourTargets).sampleset.y.length
        ≠ 4 * (freshGP 3 (fun _ _ => 0) fourTargets).sampleset.rows) := fun h => h.2 rfl
  obtain ⟨hval, hL, _, hsolve⟩ :=
    ((var_spec ratNumerics (freshGP 3 (fun _ _ => 0) fourTargets) p1).2 rfl).2 hcond
  refine ⟨(var_spec ratNumerics (freshGP 3 (fun _ _ => 0) (sampleSetOf [] [])) p1).1 rfl,
    hval, hsolve ?_ 0 Nat.one_pos⟩
  intro i hi
  have hi0 : i = 0 := Nat.lt_one_iff.mp hi
  rw [hi0, hL, compute_fourTargets_L00]
  norm_num

/-! ## Tangent basis -/

open Matrix

/-- For a unit vector, `N·Nᵀ` is idempotent. -/
theorem vecMulVec_self_mul_self {α : Type} [LinearOrderedField α] (N : Fin 3 → α) (hN : N ⬝ᵥ N = 1) :
    vecMulVec N N * vecMulVec N N = vecMulVec N N := by
  ext i j
  simp only [Matrix.mul_apply, vecMulVec_apply, Fin.sum_univ_three]
  simp only [Matrix.dotProduct, Fin.sum_univ_three] at hN
  linear_combination (N i * N j) * hN

/-- For a unit vector, `I − N·Nᵀ` is idempotent. -/
theorem projector_idem {α : Type} [LinearOrderedField α] (N : Fin 3 → α) (hN : N ⬝ᵥ N = 1) :
    (1 - vecMulVec N N) * (1 - vecMulVec N N) = (1 - vecMulVec N N : Matrix (Fin 3) (Fin 3) α) := by
  rw [Matrix.sub_mul, Matrix.mul_sub, Matrix.mul_sub, Matrix.one_mul, Matrix.mul_one,
    Matrix.one_mul, vecMulVec_self_mul_self N hN]
  abel

/-- The matrix `I − N·Nᵀ` is symmetric. -/
theorem projector_transpose {α : Type} [LinearOrderedField α] (N : Fin 3 → α) :
    (1 - vecMulVec N N : Matrix (Fin 3) (Fin 3) α).transpose = 1 - vecMulVec N N := by
  ext i j
  simp [Matrix.sub_apply, vecMulVec_apply, Matrix.one_apply, mul_comm, eq_comm]

/-- For a unit vector, `I − N·Nᵀ` has trace `2`. -/
theorem projector_trace {α : Type} [LinearOrderedField α] (N : Fin 3 → α) (hN : N ⬝ᵥ N = 1) :
    (1 - vecMulVec N N : Matrix (Fin 3) (Fin 3) α).trace = 2 := by
  simp only [Matrix.dotProduct, Fin.sum_univ_three] at hN
  simp only [Matrix.trace, Matrix.diag, Fin.sum_univ_three, Matrix.sub_apply, vecMulVec_apply,
    Matrix.one_apply_eq]
  linear_combination (-1 : α) * hN

/-- For a unit vector, `Nᵀ·(I − N·Nᵀ) = 0`. -/
theorem projector_vecMul {α : Type} [LinearOrderedField α] (N : Fin 3 → α) (hN : N ⬝ᵥ N = 1) :
    Matrix.vecMul N (1 - vecMulVec N N : Matrix (Fin 3) (Fin 3) α) = 0 := by
  simp only [Matrix.dotProduct, Fin.sum_univ_three] at hN
  ext j
  simp only [Matrix.vecMul, Matrix.dotProduct, Fin.sum_univ_three, Matrix.sub_apply,
    vecMulVec_apply, Pi.zero_apply, Matrix.one_apply]
  fin_cases j
  · simp
    linear_combination (-(N 0)) * hN
  · simp
    linear_combination (-(N 1)) * hN
  · simp
    linear_combination (-(N 2)) * hN

/-- Singular values of the projector: `1, 1, 0`. -/
theorem projector_singularValues {α : Type} [LinearOrderedField α] (U V : Matrix (Fin 3) (Fin 3) α) (S N : Fin 3 → α)
    (hN : N ⬝ᵥ N = 1) (hU : U.transpose * U = 1) (hV : V.transpose * V = 1)
    (hP : U * Matrix.diagonal S * V.transpose = 1 - vecMulVec N N)
    (h0 : ∀ i, 0 ≤ S i) (h10 : S 1 ≤ S 0) (h21 : S 2 ≤ S 1) :
    S 0 = 1 ∧ S 1 = 1 ∧ S 2 = 0 := by
  have hVV : V * V.transpose = 1 := Matrix.mul_eq_one_comm.mp hV
  -- Pᵀ P = V D² Vᵀ
  have hPtP : (1 - vecMulVec N N : Matrix (Fin 3) (Fin 3) α)
      = V * Matrix.diagonal (fun i => S i * S i) * V.transpose := by
    have h1 : (1 - vecMulVec N N : Matrix (Fin 3) (Fin 3) α)
        = (1 - vecMulVec N N : Matrix (Fin 3) (Fin 3) α).transpose * (1 - vecMulVec N N) := by
      rw [projector_transpose, projector_idem N hN]
    rw [h1, ← hP]
    simp only [Matrix.transpose_mul, Matrix.transpose_transpose, Matrix.diagonal_transpose]
    calc V * (Matrix.diagonal S * U.transpose) * (U * Matrix.diagonal S * V.transpose)
        = V * Matrix.diagonal S * (U.transpose * U) * Matrix.diagonal S * V.transpose := by
          simp only [Matrix.mul_assoc]
      _ = V * Matrix.diagonal (fun i => S i * S i) * V.transpose := by
          rw [hU, Matrix.mul_one, Matrix.mul_assoc V, Matrix.diagonal_mul_diagonal]
  -- D² = Vᵀ P V
  have hD : Matrix.diagonal (fun i => S i * S i)
      = V.transpose * (1 - vecMulVec N N : Matrix (Fin 3) (Fin 3) α) * V := by
    rw [hPtP]
    calc Matrix.diagonal (fun i => S i * S i)
        = (V.transpose * V) * Matrix.diagonal (fun i => S i * S i) * (V.transpose * V) := by
          rw [hV, Matrix.one_mul, Matrix.mul_one]
      _ = V.transpose * (V * Matrix.diagonal (fun i => S i * S i) * V.transpose) * V := by
          simp only [Matrix.mul_assoc]
  have hDD : Matrix.diagonal (fun i => S i * S i) * Matrix.diagonal (fun i => S i * S i)
      = Matrix.diagonal (fun i => S i * S i) := by
    conv_lhs => rw [hD]
    calc V.transpose * (1 - vecMulVec N N) * V * (V.transpose * (1 - vecMulVec N N) * V)
        = V.transpose * ((1 - vecMulVec N N) * (V * V.transpose) * (1 - vecMulVec N N)) * V := by
          simp only [Matrix.mul_assoc]
      _ = Matrix.diagonal (fun i => S i * S i) := by
          rw [hVV, Matrix.mul_one, projector_idem N hN, ← hD]
  rw [Matrix.diagonal_mul_diagonal] at hDD
  have hsq : ∀ i, (S i * S i) * (S i * S i) = S i * S i := fun i =>
    congrFun (Matrix.diagonal_injective hDD) i
  have htr : S 0 * S 0 + S 1 * S 1 + S 2 * S 2 = 2 := by
    have h1 : (Matrix.diagonal (fun i => S i * S i)).trace = 2 := by
      rw [hD, Matrix.trace_mul_comm, ← Matrix.mul_assoc, hVV, Matrix.one_mul,
        projector_trace N hN]
    simpa [Matrix.trace, Fin.sum_univ_three] using h1
  have h01 : ∀ i, S i = 0 ∨ S i = 1 := by
    intro i
    have h := hsq i
    have h' : S i * S i * (S i - 1) * (S i + 1) = 0 := by linear_combination h
    rcases mul_eq_zero.mp h' with h2 | h2
    · rcases mul_eq_zero.mp h2 with h3 | h3
      · left
        exact mul_self_eq_zero.mp h3
      · right
        linarith
    · exfalso
      have := h0 i
      linarith
  rcases h01 0 with a | a <;> rcases h01 1 with b | b <;> rcases h01 2 with c | c <;>
    rw [a, b, c] at htr <;> rw [a, b] at h10 <;> rw [b, c] at h21 <;>
    first
      | exact ⟨a, b, c⟩
      | (exfalso; linarith)

/-- The first two columns of `U` are orthogonal to `N`. -/
theorem svd_columns_orthogonal_to_normal {α : Type} [LinearOrderedField α]
    (U V : Matrix (Fin 3) (Fin 3) α) (S N : Fin 3 → α)
    (hN : N ⬝ᵥ N = 1) (hU : U.transpose * U = 1) (hV : V.transpose * V = 1)
    (hP : U * Matrix.diagonal S * V.transpose = 1 - vecMulVec N N)
    (h0 : ∀ i, 0 ≤ S i) (h10 : S 1 ≤ S 0) (h21 : S 2 ≤ S 1) :
    Matrix.vecMul N U 0 = 0 ∧ Matrix.vecMul N U 1 = 0 := by
  obtain ⟨s0, s1, _⟩ := projector_singularValues U V S N hN hU hV hP h0 h10 h21
  have hz : Matrix.vecMul N (U * Matrix.diagonal S * V.transpose) = 0 := by
    rw [hP]; exact projector_vecMul N hN
  have hw : Matrix.vecMul (Matrix.vecMul N U) (Matrix.diagonal S) = 0 := by
    have h1 : Matrix.vecMul (Matrix.vecMul N (U * Matrix.diagonal S * V.transpose)) V = 0 := by
      rw [hz, Matrix.zero_vecMul]
    rw [Matrix.vecMul_vecMul, Matrix.mul_assoc, hV, Matrix.mul_one, ← Matrix.vecMul_vecMul] at h1
    exact h1
  have e0 := congrFun hw 0
  have e1 := congrFun hw 1
  rw [Matrix.vecMul_diagonal, Pi.zero_apply] at e0 e1
  rw [s0, mul_one] at e0
  rw [s1, mul_one] at e1
  exact ⟨e0, e1⟩

/-- C3: for a unit vector `N` and a decomposition routine that returns a singular value
decomposition of `I − N·Nᵀ` (orthogonal `U`, `V`, non-negative singular values in
decreasing order), `computeTangentBasis` returns `Tx`, `Ty` with `‖Tx‖ = 1`, `‖Ty‖ = 1`,
`Tx·Ty = 0`, `Tx·N = 0` and `Ty·N = 0`. -/
theorem computeTangentBasis_orthonormal
    (svd : Matrix (Fin 3) (Fin 3) ℝ → JacobiSVD ℝ) (N : Fin 3 → ℝ)
    (hN : Real.sqrt (N ⬝ᵥ N) = 1)
    (hsvd : IsSVD (1 - Matrix.vecMulVec N N) (svd (1 - Matrix.vecMulVec N N))) :
    Real.sqrt ((computeTangentBasis svd N).1 ⬝ᵥ (computeTangentBasis svd N).1) = 1 ∧
    Real.sqrt ((computeTangentBasis svd N).2 ⬝ᵥ (computeTangentBasis svd N).2) = 1 ∧
    (computeTangentBasis svd N).1 ⬝ᵥ (computeTangentBasis svd N).2 = 0 ∧
    (computeTangentBasis svd N).1 ⬝ᵥ N = 0 ∧
    (computeTangentBasis svd N).2 ⬝ᵥ N = 0 := by
  have hN1 : N ⬝ᵥ N = 1 := by
    have h := (Real.sqrt_eq_one).mp hN
    exact h
  obtain ⟨hU, hV, hP, h0, h10, h21⟩ := hsvd
  obtain ⟨w0, w1⟩ := svd_columns_orthogonal_to_normal _ _ _ N hN1 hU hV hP h0 h10 h21
  have u00 := congrFun (congrFun hU 0) 0
  have u11 := congrFun (congrFun hU 1) 1
  have u01 := congrFun (congrFun hU 0) 1
  simp only [Matrix.mul_apply, Matrix.transpose_apply, Fin.sum_univ_three, Matrix.one_apply_eq,
    Matrix.one_apply_ne (show (0 : Fin 3) ≠ 1 by decide)] at u00 u11 u01
  simp only [Matrix.vecMul, Matrix.dotProduct, Fin.sum_univ_three] at w0 w1
  simp only [computeTangentBasis, Matrix.dotProduct, Fin.sum_univ_three]
  refine ⟨?_, ?_, ?_, ?_, ?_⟩
  · rw [u00, Real.sqrt_one]
  · rw [u11, Real.sqrt_one]
  · exact u01
  · linear_combination w0
  · linear_combination w1

/-- C3, instance: the axis-aligned normal `N = (0, 0, 1)`, for which `I − N·Nᵀ` is the
diagonal matrix `diag(1, 1, 0)`, decomposed with `U = V = I`. -/
theorem computeTangentBasis_orthonormal_witness :
    Real.sqrt ((computeTangentBasis axisSVD (![0, 0, 1] : Fin 3 → ℝ)).1
      ⬝ᵥ (computeTangentBasis axisSVD ![0, 0, 1]).1) = 1 ∧
    Real.sqrt ((computeTangentBasis axisSVD (![0, 0, 1] : Fin 3 → ℝ)).2
      ⬝ᵥ (computeTangentBasis axisSVD ![0, 0, 1]).2) = 1 ∧
    (computeTangentBasis axisSVD (![0, 0, 1] : Fin 3 → ℝ)).1
      ⬝ᵥ (computeTangentBasis axisSVD ![0, 0, 1]).2 = 0 ∧
    (computeTangentBasis axisSVD (![0, 0, 1] : Fin 3 → ℝ)).1 ⬝ᵥ ![0, 0, 1] = 0 ∧
    (computeTangentBasis axisSVD (![0, 0, 1] : Fin 3 → ℝ)).2 ⬝ᵥ ![0, 0, 1] = 0 :=
  computeTangentBasis_orthonormal axisSVD ![0, 0, 1]
    (by simp [Matrix.dotProduct, Fin.sum_univ_three])
    (by
      refine ⟨by simp [axisSVD], by simp [axisSVD], ?_, ?_, by simp [axisSVD], by simp [axisSVD]⟩
      · ext i j
        fin_cases i <;> fin_cases j <;>
          simp [axisSVD, Matrix.vecMulVec_apply, Matrix.diagonal, Matrix.one_apply]
      · intro i
        fin_cases i <;> simp [axisSVD])

end gp

namespace gp_atlas_rrt

/-! ## Surface projection -/

section Project
variable {μ α : Type} [LinearOrderedRing α]

/-- Bounds on the counters of the loop, started with `k = max_iter - iter` iterations left. -/
theorem projectLoop_bounds (ev : Vector3d α → α) (normal : Vector3d α)
    (f_tol improve_tol step_mul : α) (k iter evals : Nat) (current : Vector3d α) :
    let run := projectLoop ev normal f_tol improve_tol step_mul k iter evals current
    run.iter ≤ iter + k ∧ run.evals ≤ evals + 2 * k ∧
    (run.stop = Convergence.maximumIterations →
      run.iter = iter + k ∧ run.evals = evals + 2 * k ∧
      run.out = (projectStep ev normal step_mul)^[k] current) ∧
    (run.stop ≠ Convergence.maximumIterations → run.iter < iter + k) := by
  induction k generalizing iter evals current with
  | zero => simp [projectLoop]
  | succ k ih =>
    simp only [projectLoop]
    split_ifs with h1 h2
    · simp
      omega
    · simp
    · have := ih (iter + 1) (evals + 2) (projectStep ev normal step_mul current)
      simp only [Function.iterate_succ, Function.comp_apply]
      refine ⟨by omega, by omega, ?_, ?_⟩
      · intro h
        have := this.2.2.1 h
        refine ⟨by omega, by omega, this.2.2⟩
      · intro h
        have := this.2.2.2 h
        omega

/-- C5: if the regressor's value at `in` is below `f_tol` in absolute value and
`max_iter ≥ 1`, `project` returns through the function-value criterion with
`out = in`, after exactly one evaluation of the regressor and with the counter at `0`;
projecting the returned point again returns it unchanged. -/
theorem project_fixed_point (a : AtlasBase μ α) (reg : Regressor μ α)
    (inp out normal : Vector3d α) (f_tol improve_tol : α) (max_iter : Nat) (step_mul : α)
    (hreg : a.gp_reg = some reg) (hmax : 1 ≤ max_iter)
    (hf : |reg.evaluate a.gp_model inp| < f_tol) :
    a.project inp out normal f_tol improve_tol max_iter step_mul
      = (Except.ok { out := inp, stop := Convergence.functionTolerance, iter := 0, evals := 1 },
          inp) ∧
    (a.project (a.project inp out normal f_tol improve_tol max_iter step_mul).2
        (a.project inp out normal f_tol improve_tol max_iter step_mul).2
        normal f_tol improve_tol max_iter step_mul).2
      = (a.project inp out normal f_tol improve_tol max_iter step_mul).2 := by
  obtain ⟨k, rfl⟩ : ∃ k, max_iter = k + 1 := ⟨max_iter - 1, by omega⟩
  have h1 : ∀ o : Vector3d α, a.project inp o normal f_tol improve_tol (k + 1) step_mul
      = (Except.ok { out := inp, stop := Convergence.functionTolerance, iter := 0, evals := 1 },
          inp) := by
    intro o
    simp [AtlasBase.project, hreg, projectLoop, hf]
  rw [h1 out]
  exact ⟨rfl, by rw [h1 inp]⟩

/-- C5, instance: on the atlas whose regressor returns the first coordinate, the
point `(0, 5, 7)` with `f_tol = 1` is returned unchanged after one evaluation. -/
theorem project_fixed_point_witness :
    (lineAtlas.project ![0, 5, 7] ![9, 9, 9] ![1, 0, 0] 1 1 3 1
      = (Except.ok
          { out := ![0, 5, 7], stop := Convergence.functionTolerance, iter := 0, evals := 1 },
          ![0, 5, 7])) ∧
    (lineAtlas.project (lineAtlas.project ![0, 5, 7] ![9, 9, 9] ![1, 0, 0] 1 1 3 1).2
        (lineAtlas.project ![0, 5, 7] ![9, 9, 9] ![1, 0, 0] 1 1 3 1).2 ![1, 0, 0] 1 1 3 1).2
      = (lineAtlas.project ![0, 5, 7] ![9, 9, 9] ![1, 0, 0] 1 1 3 1).2 :=
  project_fixed_point lineAtlas { evaluate := fun _ p => p 0 } ![0, 5, 7] ![9, 9, 9] ![1, 0, 0]
    1 1 3 1 rfl (by decide) (by simp [lineAtlas])

/-- C7: `project` raises "Empty regressor pointer" exactly when the regressor
reference is null; whenever it raises, `out` keeps the value it had before the call. -/
theorem project_raises_iff_null (a : AtlasBase μ α)
    (inp out normal : Vector3d α) (f_tol improve_tol : α) (max_iter : Nat) (step_mul : α) :
    ((a.project inp out normal f_tol improve_tol max_iter step_mul).1
        = Except.error "Empty regressor pointer" ↔ a.gp_reg = none) ∧
    (∀ e, (a.project inp out normal f_tol improve_tol max_iter step_mul).1 = Except.error e →
      (a.project inp out normal f_tol improve_tol max_iter step_mul).2 = out) := by
  cases h : a.gp_reg with
  | none => simp [AtlasBase.project, h, msgEmptyRegressor]
  | some reg => simp [AtlasBase.project, h]

end Project

end gp_atlas_rrt

namespace gp_atlas_rrt

/-! ## Node lookup, connections, clearing -/

/-- C11: `getNode(id)` returns a copy of the chart stored at index `id` when
`id < countNodes()`, raises "Out of Range node id" exactly when `id ≥ countNodes()`,
and leaves the atlas as it was in both cases. -/
theorem getNode_spec {μ α : Type} (a : AtlasBase μ α) (id : Nat) :
    (∀ h : id < a.countNodes, (a.getNode id).1 = Except.ok (a.nodes.get ⟨id, h⟩)) ∧
    ((a.getNode id).1 = Except.error "Out of Range node id" ↔ a.countNodes ≤ id) ∧
    (a.getNode id).2 = a := by
  unfold AtlasBase.getNode AtlasBase.countNodes
  by_cases h : id < a.nodes.length
  · simp [h]
  · simp [h, msgOutOfRange]
    omega

/-- C11, instance: in the atlas with two charts, id `1` yields the second chart and
id `2` is out of range. -/
theorem getNode_spec_witness :
    (twoNodeAtlas.getNode 1).1 = Except.ok (chartAt 1) ∧
    (twoNodeAtlas.getNode 2).1 = Except.error "Out of Range node id" ∧
    (twoNodeAtlas.getNode 2).2 = twoNodeAtlas :=
  ⟨(getNode_spec twoNodeAtlas 1).1 (by decide),
    (getNode_spec twoNodeAtlas 2).2.1.mpr (by decide),
    (getNode_spec twoNodeAtlas 2).2.2⟩

/-- C12: `getConnections(id)` raises the out-of-range exception exactly when
`id ≥ countNodes()`; for a valid id without an entry in the connection map it returns
the empty list, for a valid id with an entry it returns the stored list; the atlas is
left as it was. -/
theorem getConnections_spec {μ α : Type} (a : AtlasBase μ α) (id : Nat) :
    ((a.getConnections id).1 = Except.error "Out of Range node id" ↔ a.countNodes ≤ id) ∧
    (id < a.countNodes → a.branches id = none → (a.getConnections id).1 = Except.ok []) ∧
    (∀ l, id < a.countNodes → a.branches id = some l →
      (a.getConnections id).1 = Except.ok l) ∧
    (a.getConnections id).2 = a := by
  unfold AtlasBase.getConnections AtlasBase.countNodes
  by_cases h : id < a.nodes.length
  · cases hb : a.branches id with
    | none => simp [h]
    | some l => simp [h]
  · simp [h, msgOutOfRange]
    omega

/-- C12, instance: in the atlas with two charts and the edge `0 → 1`, chart `0` has the
connections `[1]`, chart `1` has none, and id `2` is out of range. -/
theorem getConnections_spec_witness :
    (twoNodeAtlas.getConnections 0).1 = Except.ok [1] ∧
    (twoNodeAtlas.getConnections 1).1 = Except.ok [] ∧
    (twoNodeAtlas.getConnections 2).1 = Except.error "Out of Range node id" :=
  ⟨(getConnections_spec twoNodeAtlas 0).2.2.1 [1] (by decide) rfl,
    (getConnections_spec twoNodeAtlas 1).2.1 (by decide) rfl,
    (getConnections_spec twoNodeAtlas 2).1.mpr (by decide)⟩

/-- C13: after `clear()` the atlas has no node and both the model and the regressor
reference are null; `getNode` and `getConnections` raise for every id, `project` raises
"Empty regressor pointer" for every input, and once a regressor is supplied again with
`setGPRegressor` `project` returns normally. -/
theorem clear_spec {μ α : Type} [LinearOrderedRing α] (a : AtlasBase μ α) :
    a.clear.countNodes = 0 ∧ a.clear.gp_model = none ∧ a.clear.gp_reg = none ∧
    (∀ id, (a.clear.getNode id).1 = Except.error "Out of Range node id") ∧
    (∀ id, (a.clear.getConnections id).1 = Except.error "Out of Range node id") ∧
    (∀ (inp out normal : Vector3d α) (f_tol improve_tol : α) (max_iter : Nat) (step_mul : α),
      a.clear.project inp out normal f_tol improve_tol max_iter step_mul
        = (Except.error "Empty regressor pointer", out)) ∧
    (∀ (reg : Regressor μ α) (inp out normal : Vector3d α) (f_tol improve_tol : α)
        (max_iter : Nat) (step_mul : α),
      ∃ run, (a.clear.setGPRegressor (some reg)).project inp out normal f_tol improve_tol
        max_iter step_mul = (Except.ok run, run.out)) := by
  refine ⟨rfl, rfl, rfl, ?_, ?_, ?_, ?_⟩
  · intro id
    simp [AtlasBase.getNode, AtlasBase.clear, msgOutOfRange]
  · intro id
    simp [AtlasBase.getConnections, AtlasBase.clear, msgOutOfRange]
  · intros
    simp [AtlasBase.project, AtlasBase.clear, msgEmptyRegressor]
  · intro reg inp out normal f_tol improve_tol max_iter step_mul
    exact ⟨projectLoop (reg.evaluate none) normal f_tol improve_tol step_mul max_iter 0 0 inp,
      by simp [AtlasBase.project, AtlasBase.clear, AtlasBase.setGPRegressor]⟩

/-- The setter of the model reference keeps the atlas free of dangling edges. -/
theorem setGPModel_noDanglingEdges {μ α : Type} (a : AtlasBase μ α) (gpm : Option μ)
    (h : NoDanglingEdges a) : NoDanglingEdges (a.setGPModel gpm) := h

/-- The setter of the regressor reference keeps the atlas free of dangling edges. -/
theorem setGPRegressor_noDanglingEdges {μ α : Type} (a : AtlasBase μ α)
    (gpr : Option (Regressor μ α)) (h : NoDanglingEdges a) :
    NoDanglingEdges (a.setGPRegressor gpr) := h

/-- C14, evaluation at the failing input: the atlas with the charts `0`, `1` and the edge
`0 → 1` has no dangling edge, and neither have the atlases obtained from it by
`setGPModel` and `setGPRegressor`; after `clear()` no chart is left but the connection
map still holds the edge `0 → 1`, so the cleared atlas has dangling edges. -/
theorem clear_leaves_dangling_edges :
    NoDanglingEdges twoNodeAtlas ∧
    NoDanglingEdges (twoNodeAtlas.setGPModel none) ∧
    NoDanglingEdges (twoNodeAtlas.setGPRegressor none) ∧
    twoNodeAtlas.clear.countNodes = 0 ∧
    twoNodeAtlas.clear.branches 0 = some [1] ∧
    ¬ NoDanglingEdges twoNodeAtlas.clear := by
  have h0 : NoDanglingEdges twoNodeAtlas := by
    intro k l hkl
    by_cases hk : k = 0
    · subst hk
      have hl : l = [1] := by
        simpa [twoNodeAtlas] using hkl.symm
      subst hl
      refine ⟨by decide, ?_⟩
      intro v hv
      have : v = 1 := by simpa using hv
      subst this
      decide
    · simp [twoNodeAtlas, hk] at hkl
  refine ⟨h0, setGPModel_noDanglingEdges _ _ h0, setGPRegressor_noDanglingEdges _ _ h0,
    rfl, rfl, ?_⟩
  intro h
  have := (h 0 [1] rfl).1
  exact absurd this (by decide)

/-! ## Charts -/

/-- C15: after construction with gradient `g`, and after every `setGradient(g)`,
`getGradient()` is `g` and `(N, Tx, Ty)` is the result of the tangent-basis routine on
that `g`; `setRadius` and `resetSamples` leave `G`, `N`, `Tx`, `Ty`, the id, the centre
and the variance as they were, so a frame that is the result of the routine on the
current gradient stays so. -/
theorem chart_frame_current {α : Type} (tb : TangentBasis α) (c : Vector3d α) (i : Nat)
    (g : Vector3d α) (r v : α) (ch : Chart α) :
    ((Chart.create tb c i g r v).getGradient = g ∧
      ((Chart.create tb c i g r v).N, (Chart.create tb c i g r v).Tx,
        (Chart.create tb c i g r v).Ty) = tb g) ∧
    ((ch.setGradient tb g).getGradient = g ∧
      ((ch.setGradient tb g).N, (ch.setGradient tb g).Tx, (ch.setGradient tb g).Ty) = tb g) ∧
    ((ch.setRadius r).G = ch.G ∧ (ch.setRadius r).N = ch.N ∧ (ch.setRadius r).Tx = ch.Tx ∧
      (ch.setRadius r).Ty = ch.Ty ∧ (ch.setRadius r).id = ch.id ∧ (ch.setRadius r).C = ch.C ∧
      (ch.setRadius r).V = ch.V) ∧
    (ch.resetSamples.G = ch.G ∧ ch.resetSamples.N = ch.N ∧ ch.resetSamples.Tx = ch.Tx ∧
      ch.resetSamples.Ty = ch.Ty ∧ ch.resetSamples.id = ch.id ∧ ch.resetSamples.C = ch.C ∧
      ch.resetSamples.V = ch.V) ∧
    ((ch.N, ch.Tx, ch.Ty) = tb ch.G →
      ((ch.setRadius r).N, (ch.setRadius r).Tx, (ch.setRadius r).Ty) = tb (ch.setRadius r).G ∧
      (ch.resetSamples.N, ch.resetSamples.Tx, ch.resetSamples.Ty) = tb ch.resetSamples.G) := by
  refine ⟨⟨rfl, rfl⟩, ⟨rfl, rfl⟩, ⟨rfl, rfl, rfl, rfl, rfl, rfl, rfl⟩,
    ⟨rfl, rfl, rfl, rfl, rfl, rfl, rfl⟩, fun h => ⟨h, h⟩⟩

/-- C15, instance: the chart `0` of the examples, whose frame is current, after
`setRadius(5)` and after `resetSamples()`. -/
theorem chart_frame_current_witness :
    (((chartAt 0).setRadius 5).N, ((chartAt 0).setRadius 5).Tx, ((chartAt 0).setRadius 5).Ty)
      = axisBasis ((chartAt 0).setRadius 5).G ∧
    ((chartAt 0).resetSamples.N, (chartAt 0).resetSamples.Tx, (chartAt 0).resetSamples.Ty)
      = axisBasis (chartAt 0).resetSamples.G :=
  (chart_frame_current axisBasis ![0, 0, 0] 0 ![0, 0, 1] 5 0 (chartAt 0)).2.2.2.2 rfl

end gp_atlas_rrt

namespace gp

/-! ## Symmetry of the thin-plate covariance -/

/-- The Euclidean distance does not depend on the order of its arguments. -/
theorem Vec3.distance_comm {α : Type} [Field α] (sqrt : α → α) (a b : Vec3 α) :
    a.distance sqrt b = b.distance sqrt a := by
  unfold Vec3.distance
  congr 1
  ring

/-- C17: for every pair of points and every length, `ThinPlate(ℓ).get(x1, x2)` equals
`ThinPlate(ℓ).get(x2, x1)`. -/
theorem ThinPlate_get_symmetric {α : Type} [Field α] (sqrt : α → α) (length : α)
    (x1 x2 : Vec3 α) :
    (ThinPlate.ofLength length).get sqrt x1 x2 = (ThinPlate.ofLength length).get sqrt x2 x1 := by
  rw [ThinPlate.get_eq, ThinPlate.get_eq, Vec3.distance_comm sqrt x1 x2]

/-! ## The flag `alpha_needs_update` -/

/-- After `update_alpha` has raised, the flag is cleared although `alpha` was not
recomputed: the state is not valid. -/
theorem update_alpha_raises_invalid {α : Type} [Field α] (g : GaussianProcess α)
    (h1 : g.alpha_needs_update = true)
    (h2 : g.sampleset.y.length ≠ 4 * g.sampleset.rows) :
    (update_alpha g).2.alpha_needs_update = false ∧ ¬ AlphaValid (update_alpha g).2 := by
  rw [update_alpha_raises g h1 h2]
  exact ⟨rfl, fun h => h2 h.2.1⟩

/-- The state `f` leaves behind when `update_alpha` raises. -/
theorem f_raises_state {α : Type} [Field α] (num : Numerics α) (g : GaussianProcess α)
    (xStar : Vec3 α) (h : g.sampleset.empty = false)
    (h1 : (compute num g).alpha_needs_update = true)
    (h2 : g.sampleset.y.length ≠ 4 * g.sampleset.rows) :
    f num g xStar = (Except.error msgSizeDismatch,
      { compute num g with
        alpha_needs_update := false, alphaSize := 4 * (compute num g).sampleset.rows }) := by
  have h3 : (compute num g).sampleset.y.length ≠ 4 * (compute num g).sampleset.rows := by
    rw [compute_sampleset]; exact h2
  simp [f, h, update_alpha_raises (compute num g) h1 h3]

/-- With the hyper-parameter flag cleared `compute` does nothing. -/
theorem compute_of_unchanged {α : Type} [Field α] (num : Numerics α) (g : GaussianProcess α)
    (h : g.loghyper_changed = false) : compute num g = g := by
  simp [compute, h]

/-- With the flag `alpha_needs_update` cleared `update_alpha` returns at once. -/
theorem update_alpha_of_fresh {α : Type} [Field α] (g : GaussianProcess α)
    (h : g.alpha_needs_update = false) : update_alpha g = (Except.ok (), g) := by
  simp [update_alpha, h]

/-- With both flags cleared `f` returns the products of the rows of `k_star` with the
cached `alpha`, whatever `alpha` holds. -/
theorem f_of_cleared_flags {α : Type} [Field α] (num : Numerics α) (g : GaussianProcess α)
    (xStar : Vec3 α) (he : g.sampleset.empty = false) (hc : g.loghyper_changed = false)
    (ha : g.alpha_needs_update = false) :
    f num g xStar
      = (Except.ok (fun i => ∑ j in Finset.range (update_k_star g xStar).k_starCols,
            (update_k_star g xStar).k_star i.val j * (update_k_star g xStar).alpha j),
          update_k_star g xStar) := by
  simp [f, he, compute_of_unchanged num g hc, update_alpha_of_fresh g ha]

/-- After `compute` the hyper-parameter flag is cleared. -/
theorem compute_loghyper_changed {α : Type} [Field α] (num : Numerics α)
    (g : GaussianProcess α) : (compute num g).loghyper_changed = false := by
  unfold compute
  cases h : g.loghyper_changed <;> simp [h]

/-- C16, evaluation at the failing input: a freshly created engine on the sample set
holding the point `(0,0,0)` with the single label `5`.  The call `f((1,0,0))` raises
"Target and alpha vector have a size dismatch"; in the state it leaves behind
`alpha_needs_update` is `false`, `alpha` has been resized to `4` entries while there is
`1` target, so `alpha` is not a solution of `L·Lᵀ·alpha = y`; and a second call of `f`
in that state no longer raises. -/
theorem alpha_flag_cleared_by_raise (mem : Mat ℚ) :
    (f ratNumerics (freshGP 0 mem (sampleSetOf [p0] [5])) p1).1
      = Except.error "Target and alpha vector have a size dismatch" ∧
    (f ratNumerics (freshGP 0 mem (sampleSetOf [p0] [5])) p1).2.alpha_needs_update = false ∧
    (f ratNumerics (freshGP 0 mem (sampleSetOf [p0] [5])) p1).2.alphaSize = 4 ∧
    (f ratNumerics (freshGP 0 mem (sampleSetOf [p0] [5])) p1).2.sampleset.y.length = 1 ∧
    ¬ AlphaValid (f ratNumerics (freshGP 0 mem (sampleSetOf [p0] [5])) p1).2 ∧
    ∃ value, (f ratNumerics
      (f ratNumerics (freshGP 0 mem (sampleSetOf [p0] [5])) p1).2 p1).1 = Except.ok value := by
  have hs : f ratNumerics (freshGP 0 mem (sampleSetOf [p0] [5])) p1
      = (Except.error msgSizeDismatch,
        { compute ratNumerics (freshGP 0 mem (sampleSetOf [p0] [5])) with
          alpha_needs_update := false
          alphaSize := 4 * (compute ratNumerics
            (freshGP 0 mem (sampleSetOf [p0] [5]))).sampleset.rows }) := by
    apply f_raises_state
    · rfl
    · rw [compute_alpha_needs_update]; rfl
    · exact (by decide : (1 : Nat) ≠ 4 * 1)
  rw [hs]
  refine ⟨rfl, rfl, ?_, ?_, ?_, ?_⟩
  · simp only [compute_sampleset]; rfl
  · simp only [compute_sampleset]; rfl
  · intro h
    have h2 := h.2.1
    simp only [compute_sampleset] at h2
    exact absurd h2 (by decide : ¬ ((1 : Nat) = 4 * 1))
  · refine ⟨_, congrArg Prod.fst (f_of_cleared_flags ratNumerics _ p1 ?_ ?_ rfl)⟩
    · show (compute ratNumerics (freshGP 0 mem (sampleSetOf [p0] [5]))).sampleset.empty = false
      rw [compute_sampleset]; rfl
    · exact compute_loghyper_changed ratNumerics _

end gp

namespace gp

/-! ## Batched evaluation -/

/-- With a stale `alpha` and `4n` targets `update_alpha` recomputes `alpha` by the two
triangular solves. -/
theorem update_alpha_recomputes {α : Type} [Field α] (g : GaussianProcess α)
    (h1 : g.alpha_needs_update = true)
    (h2 : g.sampleset.y.length = 4 * g.sampleset.rows) :
    update_alpha g = (Except.ok (),
      { g with
        alpha_needs_update := false
        alphaSize := 4 * g.sampleset.rows
        alpha := solveUpperT g.L (solveLower g.L (targetVec g.sampleset) (4 * g.sampleset.rows))
          (4 * g.sampleset.rows) (4 * g.sampleset.rows) }) := by
  simp [update_alpha, h1, h2]

/-- The factor of the augmented matrix of `trainedGP`: first column. -/
theorem trainedGP_L_col0 :
    (compute ratNumerics trainedGP).L 0 0 = 2 ∧ (compute ratNumerics trainedGP).L 1 0 = 0 ∧
    (compute ratNumerics trainedGP).L 2 0 = 0 ∧ (compute ratNumerics trainedGP).L 3 0 = 0 := by
  rw [compute_L_of_changed _ _ rfl]
  obtain ⟨v00, _, _, _⟩ := thinPlate_one_values
  have hx0 : trainedGP.sampleset.x 0 = p0 := rfl
  have hn : trainedGP.sampleset.rows = 1 := rfl
  have hcf : trainedGP.cf = unitDiffCov 3 := rfl
  simp only [hn, hcf]
  refine ⟨?_, ?_, ?_, ?_⟩
  · simp [lltBlock, llt_row, solveLower, computeDiffBlock_apply, computeValueBlock_apply, hx0,
      unitDiffCov, v00, ratNumerics]
    norm_num
  · simp [lltBlock, llt_row, solveLower, computeDiffBlock_apply, computeValueBlock_apply,
      unitDiffCov, ratNumerics]
  · simp [lltBlock, llt_row, solveLower, computeDiffBlock_apply, computeValueBlock_apply,
      unitDiffCov, ratNumerics]
  · simp [lltBlock, llt_row, solveLower, computeDiffBlock_apply, computeValueBlock_apply,
      unitDiffCov, ratNumerics]

end gp

namespace gp

/-- Row `0` of `k_star`, derivative part: the column `n + 3*j + d` holds
`cf->getDiff(x_star, x(j), d)`. -/
theorem kStarRow0_diff_cell {α : Type} (cf : BaseCovFunc α) (s : SampleSet α) (n : Nat)
    (x_star : Vec3 α) (k : Mat α) (c : Nat) (h1 : n ≤ c) (h2 : c < 4 * n) :
    kStarRow0 cf s n x_star k 0 c = cf.getDiff x_star (s.x ((c - n) / 3)) ((c - n) % 3) := by
  unfold kStarRow0
  have key : ∀ (m : Nat) (k1 : Mat α),
      ((List.range m).foldl (fun k j =>
        (List.range 3).foldl (fun k d =>
          setCell k 0 (n + 3 * j + d) (cf.getDiff x_star (s.x j) d)) k) k1) 0 c
      = if n ≤ c ∧ c < n + 3 * m then
          cf.getDiff x_star (s.x ((c - n) / 3)) ((c - n) % 3)
        else k1 0 c := by
    intro m k1
    induction m with
    | zero =>
      have : ¬ (n ≤ c ∧ c < n + 3 * 0) := by omega
      rw [if_neg this]; rfl
    | succ m ih =>
      have hm : List.range (m + 1) = List.range m ++ [m] := List.range_succ m
      rw [hm, List.foldl_append]
      simp only [List.foldl_cons, List.foldl_nil]
      rw [foldl_setCell_row (fun d => cf.getDiff x_star (s.x m) d) 0 (n + 3 * m) 3, ih]
      by_cases ha : n + 3 * m ≤ c ∧ c < n + 3 * m + 3
      · have e1 : (c - n) / 3 = m := by omega
        have e2 : (c - n) % 3 = c - (n + 3 * m) := by omega
        have e3 : n ≤ c ∧ c < n + 3 * (m + 1) := by omega
        rw [if_pos ⟨rfl, ha⟩, if_pos e3, e1, e2]
      · have hb : ¬ ((0 : Nat) = 0 ∧ n + 3 * m ≤ c ∧ c < n + 3 * m + 3) := fun h => ha h.2
        rw [if_neg hb]
        by_cases hd : n ≤ c ∧ c < n + 3 * m
        · have e3 : n ≤ c ∧ c < n + 3 * (m + 1) := by omega
          rw [if_pos hd, if_pos e3]
        · have e3 : ¬ (n ≤ c ∧ c < n + 3 * (m + 1)) := by omega
          rw [if_neg hd, if_neg e3]
  rw [key n, if_pos ⟨h1, by omega⟩]

/-- Row `0` of `k_star` after `update_k_star`, derivative part. -/
theorem update_k_star_row0_diff {α : Type} (g : GaussianProcess α) (x_star : Vec3 α) (c : Nat)
    (h1 : g.sampleset.rows ≤ c) (h2 : c < 4 * g.sampleset.rows) :
    (update_k_star g x_star).k_star 0 c
      = g.cf.getDiff x_star (g.sampleset.x ((c - g.sampleset.rows) / 3))
          ((c - g.sampleset.rows) % 3) := by
  simp only [update_k_star]
  rw [kStarRows123_row0, kStarRow0_diff_cell _ _ _ _ _ _ h1 h2]

/-- The value channel of `f` when `alpha` is recomputed: the product of row `0` of
`k_star` with the solution of the two triangular solves. -/
theorem f_value_channel {α : Type} [Field α] (num : Numerics α) (g : GaussianProcess α)
    (xStar : Vec3 α) (he : g.sampleset.empty = false)
    (h1 : (compute num g).alpha_needs_update = true)
    (h2 : g.sampleset.y.length = 4 * g.sampleset.rows) :
    ∃ value : Fin 4 → α, (f num g xStar).1 = Except.ok value ∧
      value 0 = ∑ j in Finset.range (4 * g.sampleset.rows),
        (update_k_star (compute num g) xStar).k_star 0 j
          * solveUpperT (compute num g).L
              (solveLower (compute num g).L (targetVec g.sampleset) (4 * g.sampleset.rows))
              (4 * g.sampleset.rows) (4 * g.sampleset.rows) j := by
  have h3 : (compute num g).sampleset.y.length = 4 * (compute num g).sampleset.rows := by
    rw [compute_sampleset]; exact h2
  refine ⟨_, by simp [f, he, update_alpha_recomputes (compute num g) h1 h3]; rfl, ?_⟩
  simp [update_k_star, compute_sampleset]

/-- The value of `var` when `update_alpha` does not raise. -/
theorem var_value {α : Type} [Field α] (num : Numerics α) (g : GaussianProcess α)
    (xStar : Vec3 α) (he : g.sampleset.empty = false)
    (hr : ¬ ((compute num g).alpha_needs_update = true ∧
      g.sampleset.y.length ≠ 4 * g.sampleset.rows)) :
    (var num g xStar).1
      = Except.ok (g.cf.get xStar xStar
          - ∑ j in Finset.range g.sampleset.rows,
              solveLower (compute num g).L (fun j => g.cf.get xStar (g.sampleset.x j))
                g.sampleset.rows j
              * solveLower (compute num g).L (fun j => g.cf.get xStar (g.sampleset.x j))
                g.sampleset.rows j) := by
  have h2 : ¬ ((compute num g).alpha_needs_update = true ∧
      (compute num g).sampleset.y.length ≠ 4 * (compute num g).sampleset.rows) := by
    rw [compute_sampleset]; exact hr
  obtain ⟨g2, hg2, hL, hs, hcf, _, _⟩ := update_alpha_returns (compute num g) h2
  have hs2 : g2.sampleset = g.sampleset := by rw [hs, compute_sampleset]
  have hcf2 : g2.cf = g.cf := by rw [hcf, compute_cf]
  have hv : (var num g xStar).1
      = Except.ok ((update_k_star g2 xStar).cf.get xStar xStar
          - ∑ j in Finset.range (update_k_star g2 xStar).sampleset.rows,
              solveLower (update_k_star g2 xStar).L
                  (fun j => (update_k_star g2 xStar).k_star 0 j)
                  (update_k_star g2 xStar).sampleset.rows j
              * solveLower (update_k_star g2 xStar).L
                  (fun j => (update_k_star g2 xStar).k_star 0 j)
                  (update_k_star g2 xStar).sampleset.rows j) := by
    simp [var, he, hg2]
  have e1 : (update_k_star g2 xStar).sampleset = g.sampleset := hs2
  have e2 : (update_k_star g2 xStar).cf = g.cf := hcf2
  have e3 : (update_k_star g2 xStar).L = (compute num g).L := hL
  rw [hv, e1, e2, e3]
  have hk : ∀ j, solveLower (compute num g).L (fun j => (update_k_star g2 xStar).k_star 0 j)
      g.sampleset.rows j
      = solveLower (compute num g).L (fun j => g.cf.get xStar (g.sampleset.x j))
        g.sampleset.rows j := by
    intro j
    apply solveLower_congr
    · intros; rfl
    · intro i hi
      rw [update_k_star_row0 g2 xStar i (by rw [hs2]; exact hi), hcf2, hs2]
  simp only [hk]

/-- The posterior mean and variance of `trainedGP` at its training point. -/
theorem trainedGP_posterior :
    (∃ value : Fin 4 → ℚ, (f ratNumerics trainedGP p0).1 = Except.ok value ∧ value 0 = 5 / 4) ∧
    (var ratNumerics trainedGP p0).1 = Except.ok (3 / 4) := by
  obtain ⟨l00, l10, l20, l30⟩ := trainedGP_L_col0
  obtain ⟨v00, _, _, _⟩ := thinPlate_one_values
  have hn : trainedGP.sampleset.rows = 1 := rfl
  have hx0 : trainedGP.sampleset.x 0 = p0 := rfl
  have hcf : trainedGP.cf = unitDiffCov 3 := rfl
  constructor
  · obtain ⟨value, hv, h0⟩ := f_value_channel ratNumerics trainedGP p0 rfl
      (by rw [compute_alpha_needs_update]; rfl) rfl
    refine ⟨value, hv, ?_⟩
    rw [h0, hn]
    have hk0 : (update_k_star (compute ratNumerics trainedGP) p0).k_star 0 0 = 1 := by
      rw [update_k_star_row0 _ _ _ (by rw [compute_sampleset, hn]; decide), compute_cf,
        compute_sampleset, hx0, hcf]
      exact v00
    have hkd : ∀ c, 1 ≤ c → c < 4 →
        (update_k_star (compute ratNumerics trainedGP) p0).k_star 0 c = 0 := by
      intro c hc1 hc4
      rw [update_k_star_row0_diff _ _ _ (by rw [compute_sampleset, hn]; exact hc1)
        (by rw [compute_sampleset, hn]; exact hc4), compute_cf, hcf]
      rfl
    have hy0 : targetVec trainedGP.sampleset 0 = 5 := rfl
    simp only [Finset.sum_range_succ, Finset.sum_range_zero, hk0, hkd 1 (by decide) (by decide),
      hkd 2 (by decide) (by decide), hkd 3 (by decide) (by decide), zero_mul, add_zero, zero_add,
      one_mul]
    have e : solveUpperT (compute ratNumerics trainedGP).L
        (solveLower (compute ratNumerics trainedGP).L (targetVec trainedGP.sampleset) (4 * 1))
        (4 * 1) (3 + 1) 0
        = (solveLower (compute ratNumerics trainedGP).L (targetVec trainedGP.sampleset) (4 * 1) 0
            - ∑ j in Finset.Ico (0 + 1) (4 * 1), (compute ratNumerics trainedGP).L j 0
                * solveUpperT (compute ratNumerics trainedGP).L
                    (solveLower (compute ratNumerics trainedGP).L (targetVec trainedGP.sampleset)
                      (4 * 1)) (4 * 1) 3 j)
          / (compute ratNumerics trainedGP).L 0 0 := by
      simp [solveUpperT]
    rw [show (4 * 1 : Nat) = 3 + 1 from rfl] at e ⊢
    rw [e, solveLower_entry _ _ _ 0 (by decide)]
    have hI : Finset.Ico (0 + 1) (3 + 1) = {1, 2, 3} := by decide
    rw [hI]
    simp [l00, l10, l20, l30, hy0]
    norm_num
  · rw [var_value ratNumerics trainedGP p0 rfl (fun h => h.2 rfl), hn]
    simp only [Finset.sum_range_succ, Finset.sum_range_zero, zero_add]
    rw [solveLower_entry _ _ _ 0 (by decide), hx0, hcf]
    simp [l00, unitDiffCov, v00]
    norm_num

/-- C18, evaluation at the failing input: the engine `trainedGP` (one training point
`(0,0,0)` with label `5`, augmented kernel matrix `diag(4,1,1,1)`) has posterior mean
value `5/4` and posterior variance `3/4` at the query point `(0,0,0)`, but the batched
`evaluate` returns `fx = [0]` and `vars = [0]`; for every engine and every list of query
points it returns zeros only. -/
theorem evaluate_returns_zeros :
    (∃ value : Fin 4 → ℚ, (f ratNumerics trainedGP p0).1 = Except.ok value ∧ value 0 = 5 / 4) ∧
    (var ratNumerics trainedGP p0).1 = Except.ok (3 / 4) ∧
    evaluate trainedGP [p0] = ([0], [0]) ∧
    ∀ (g : GaussianProcess ℚ) (x : List (Vec3 ℚ)),
      evaluate g x = (List.replicate x.length 0, List.replicate x.length 0) :=
  ⟨trainedGP_posterior.1, trainedGP_posterior.2, rfl, fun _ _ => rfl⟩

end gp

namespace GaussianProcessNode

/-! ## Loops over a floating counter -/

/-- Length of a concatenation of lists of equal length. -/
theorem length_join_map_const {β : Type} (f : Nat → List β) (c N : Nat)
    (h : ∀ k, k < N → (f k).length = c) :
    (((List.range N).map f).flatten).length = N * c := by
  induction N with
  | zero => simp
  | succ N ih =>
    rw [List.range_succ, List.map_append, List.flatten_append, List.length_append,
      ih (fun k hk => h k (by omega))]
    simp [h N (by omega)]
    ring

/-- A loop whose body appends `G x` to the list represented by the state runs exactly
`N` times when the counter stays below the bound for `N` steps and not for `N + 1`, and
appends the lists `G (x + k·step)` in order; any iteration bound of at least `N` suffices. -/
theorem forLoop_append {α σ β : Type} [LinearOrderedField α] (bound step : α)
    (body : α → σ → Option σ) (rep : List β → σ) (G : α → List β)
    (hbody : ∀ x l, body x (rep l) = some (rep (l ++ G x))) (N : Nat) :
    ∀ (x : α) (l : List β) (fuel : Nat), N ≤ fuel →
      (∀ k : Nat, k < N → x + k * step < bound) → ¬ (x + N * step < bound) →
      forLoop bound step body fuel x (rep l)
        = some (rep (l ++ ((List.range N).map (fun k : Nat => G (x + k * step))).flatten)) := by
  induction N with
  | zero =>
    intro x l fuel _ _ hge
    have hx : ¬ (x < bound) := by simpa using hge
    cases fuel <;> simp [forLoop, hx]
  | succ N ih =>
    intro x l fuel hfuel hlt hge
    obtain ⟨fuel2, rfl⟩ : ∃ f2, fuel = f2 + 1 := ⟨fuel - 1, by omega⟩
    have hx : x < bound := by simpa using hlt 0 (by omega)
    have h1 : ∀ k : Nat, k < N → x + step + k * step < bound := by
      intro k hk
      have := hlt (k + 1) (by omega)
      have e : x + ((k + 1 : Nat) : α) * step = x + step + k * step := by push_cast; ring
      rwa [e] at this
    have h2 : ¬ (x + step + N * step < bound) := by
      have e : x + ((N + 1 : Nat) : α) * step = x + step + N * step := by push_cast; ring
      rwa [e] at hge
    simp only [forLoop, if_pos hx, hbody, Option.some_bind]
    rw [ih (x + step) (l ++ G x) fuel2 (by omega) h1 h2]
    congr 2
    rw [List.range_succ_eq_map, List.map_cons, List.flatten_cons, List.map_map, List.append_assoc]
    congr 2
    · simp
    · congr 1
      apply List.map_congr_left
      intro k _
      simp only [Function.comp_apply]
      congr 1
      push_cast
      ring

end GaussianProcessNode

namespace GaussianProcessNode

/-! ## Points on a sphere -/

/-- A point whose offsets from the centre `c` are `S·cos a`, `S·sin a` and `lin`, with
`S = sqrt(r² − lin²)` and `lin² ≤ r²`, lies at distance `r` from `c`. -/
theorem distance_of_sphere_point (r lin a : ℝ) (p c : gp.Vec3 ℝ) (hr : 0 ≤ r)
    (hlin : lin * lin ≤ r * r)
    (hx : p.x - c.x = Real.sqrt (r * r - lin * lin) * Real.cos a)
    (hy : p.y - c.y = Real.sqrt (r * r - lin * lin) * Real.sin a)
    (hz : p.z - c.z = lin) :
    gp.Vec3.distance Real.sqrt p c = r := by
  unfold gp.Vec3.distance
  rw [hx, hy, hz]
  have hS : Real.sqrt (r * r - lin * lin) * Real.sqrt (r * r - lin * lin) = r * r - lin * lin :=
    Real.mul_self_sqrt (by linarith)
  have hcs : Real.cos a * Real.cos a + Real.sin a * Real.sin a = 1 := by
    have := Real.cos_sq_add_sin_sq a
    nlinarith [this]
  have e : Real.sqrt (r * r - lin * lin) * Real.cos a * (Real.sqrt (r * r - lin * lin) * Real.cos a)
      + Real.sqrt (r * r - lin * lin) * Real.sin a * (Real.sqrt (r * r - lin * lin) * Real.sin a)
      + lin * lin = r * r := by
    have : Real.sqrt (r * r - lin * lin) * Real.cos a
          * (Real.sqrt (r * r - lin * lin) * Real.cos a)
        + Real.sqrt (r * r - lin * lin) * Real.sin a
          * (Real.sqrt (r * r - lin * lin) * Real.sin a)
        = (Real.sqrt (r * r - lin * lin) * Real.sqrt (r * r - lin * lin))
          * (Real.cos a * Real.cos a + Real.sin a * Real.sin a) := by ring
    rw [this, hS, hcs]
    ring
  rw [e, Real.sqrt_mul_self hr]

/-- The angle counter `k·(2π/8)` stays below `2π` for `k < 8` and reaches it for `k = 8`. -/
theorem angle_steps_8 :
    (∀ k : Nat, k < 8 → (0 : ℝ) + k * (Real.pi * 2 / 8) < 2 * Real.pi) ∧
    ¬ ((0 : ℝ) + (8 : Nat) * (Real.pi * 2 / 8) < 2 * Real.pi) := by
  constructor
  · intro k hk
    have hk2 : (k : ℝ) ≤ 7 := by exact_mod_cast Nat.lt_succ_iff.mp hk
    nlinarith [mul_nonneg (sub_nonneg.mpr hk2) Real.pi_pos.le, Real.pi_pos]
  · push_cast
    intro h
    linarith [Real.pi_pos]

/-- The height counter of the outer sphere: `6` values, all within `±0.125`. -/
theorem height_steps_6 :
    (∀ k : Nat, k < 6 → -(0.15 : ℝ) + 2 * 0.15 / 6 / 2 + k * (2 * 0.15 / 6) < 0.15) ∧
    ¬ (-(0.15 : ℝ) + 2 * 0.15 / 6 / 2 + (6 : Nat) * (2 * 0.15 / 6) < 0.15) ∧
    (∀ k : Nat, k < 6 →
      (-(0.15 : ℝ) + 2 * 0.15 / 6 / 2 + k * (2 * 0.15 / 6))
        * (-(0.15 : ℝ) + 2 * 0.15 / 6 / 2 + k * (2 * 0.15 / 6)) ≤ 0.15 * 0.15) := by
  refine ⟨?_, ?_, ?_⟩
  · intro k hk
    have hk2 : (k : ℝ) ≤ 5 := by exact_mod_cast Nat.lt_succ_iff.mp hk
    norm_num
    linarith
  · norm_num
  · intro k hk
    have hk2 : (k : ℝ) ≤ 5 := by exact_mod_cast Nat.lt_succ_iff.mp hk
    have hk0 : (0 : ℝ) ≤ k := Nat.cast_nonneg k
    have h1 : (0 : ℝ) ≤ 0.15 - (-(0.15 : ℝ) + 2 * 0.15 / 6 / 2 + k * (2 * 0.15 / 6)) := by
      norm_num; linarith
    have h2 : (0 : ℝ) ≤ 0.15 + (-(0.15 : ℝ) + 2 * 0.15 / 6 / 2 + k * (2 * 0.15 / 6)) := by
      norm_num; linarith
    nlinarith [mul_nonneg h1 h2]

end GaussianProcessNode

namespace GaussianProcessNode

/-! ## The synthetic object cloud of `cb_start` -/

end GaussianProcessNode

namespace GaussianProcessNode

/-- Number of points of a grid of `A` rows of `B` points. -/
theorem grid_length {β : Type} (f : Nat → Nat → β) (A B : Nat) :
    (((List.range A).map (fun j : Nat =>
      ((List.range B).map (fun k : Nat => [f j k])).flatten)).flatten).length = A * B := by
  apply length_join_map_const
  intro j _
  have := length_join_map_const (fun k : Nat => [f j k]) 1 B (fun _ _ => rfl)
  simpa using this

/-- Every point of a grid is one of its entries. -/
theorem grid_mem {β : Type} (f : Nat → Nat → β) (A B : Nat) (p : β)
    (h : p ∈ ((List.range A).map (fun j : Nat =>
      ((List.range B).map (fun k : Nat => [f j k])).flatten)).flatten) :
    ∃ j k, j < A ∧ k < B ∧ p = f j k := by
  simp only [List.mem_flatten, List.mem_map, List.mem_range] at h
  obtain ⟨l, ⟨j, hj, rfl⟩, hp⟩ := h
  simp only [List.mem_flatten, List.mem_map, List.mem_range] at hp
  obtain ⟨l2, ⟨k, hk, rfl⟩, hp2⟩ := hp
  exact ⟨j, k, hj, hk, by simpa using hp2⟩

end GaussianProcessNode

namespace GaussianProcessNode

/-! ## The training data of `computeGP` -/

/-- Pushing a labelled point appends it. -/
theorem Data.push_ofPoints {α : Type} (l : List (gp.Vec3 α × α)) (x y z lab : α) :
    (Data.ofPoints l).push x y z lab = Data.ofPoints (l ++ [((⟨x, y, z⟩ : gp.Vec3 α), lab)]) := by
  simp [Data.push, Data.ofPoints]

/-- The loop over the object points appends them with the given label. -/
theorem foldl_push_ofPoints {α : Type} (object : List (gp.Vec3 α)) (lab : α)
    (l : List (gp.Vec3 α × α)) :
    object.foldl (fun d pt => d.push pt.x pt.y pt.z lab) (Data.ofPoints l)
      = Data.ofPoints (l ++ object.map (fun pt => (pt, lab))) := by
  induction object generalizing l with
  | nil => simp
  | cons pt object ih =>
    rw [List.foldl_cons, Data.push_ofPoints, ih]
    simp

/-- The training data built by `computeGP` on a non-empty cloud whose centroid the PCL
routine delivers: the centroid with label `-1`, the object points with label `0`, then
`6` rings of `8` points with label `1`; any iteration bound of at least `8` suffices. -/
theorem computeGP_eq (compute3DCentroid : List (gp.Vec3 ℝ) → Nat × gp.Vec3 ℝ)
    (object : List (gp.Vec3 ℝ)) (fuel : Nat) (hne : object ≠ [])
    (hc : (compute3DCentroid object).1 ≠ 0) (hfuel : 8 ≤ fuel) :
    computeGP { sqrt := Real.sqrt, cos := Real.cos, sin := Real.sin, pi := Real.pi }
        compute3DCentroid (some object) fuel
      = some (some (Data.ofPoints
          (([((compute3DCentroid object).2, (-1.0 : ℝ))]
              ++ object.map (fun pt => (pt, (0 : ℝ))))
            ++ ((List.range 6).map (fun j : Nat =>
              ((List.range 8).map (fun k : Nat =>
                [((⟨Real.sqrt (0.15 * 0.15
                      - (-(0.15 : ℝ) + 2 * 0.15 / 6 / 2 + j * (2 * 0.15 / 6))
                        * (-(0.15 : ℝ) + 2 * 0.15 / 6 / 2 + j * (2 * 0.15 / 6)))
                    * Real.cos (0 + k * (Real.pi * 2 / 8)) + (compute3DCentroid object).2.x,
                  Real.sqrt (0.15 * 0.15
                      - (-(0.15 : ℝ) + 2 * 0.15 / 6 / 2 + j * (2 * 0.15 / 6))
                        * (-(0.15 : ℝ) + 2 * 0.15 / 6 / 2 + j * (2 * 0.15 / 6)))
                    * Real.sin (0 + k * (Real.pi * 2 / 8)) + (compute3DCentroid object).2.y,
                  (-(0.15 : ℝ) + 2 * 0.15 / 6 / 2 + j * (2 * 0.15 / 6))
                    + (compute3DCentroid object).2.z⟩ : gp.Vec3 ℝ),
                  (1.0 : ℝ))])).flatten)).flatten))) := by
  have hemp : object.isEmpty = false := by
    cases object with
    | nil => exact absurd rfl hne
    | cons a l => rfl
  unfold computeGP
  simp only [hemp, if_neg hc, Bool.false_eq_true, if_false]
  have h0 : ({ coord_x := [], coord_y := [], coord_z := [], label := [] } : Data ℝ)
      = Data.ofPoints [] := rfl
  rw [h0, Data.push_ofPoints, foldl_push_ofPoints]
  have inner : ∀ (lin : ℝ) (l : List (gp.Vec3 ℝ × ℝ)),
      forLoop (2 * Real.pi) (Real.pi * 2 / 8) (fun ang cloud_gp =>
          some (cloud_gp.push
            (Real.sqrt (0.15 * 0.15 - lin * lin) * Real.cos ang + (compute3DCentroid object).2.x)
            (Real.sqrt (0.15 * 0.15 - lin * lin) * Real.sin ang + (compute3DCentroid object).2.y)
            (lin + (compute3DCentroid object).2.z) 1.0))
        fuel 0 (Data.ofPoints l)
      = some (Data.ofPoints (l ++ ((List.range 8).map (fun k : Nat =>
          [((⟨Real.sqrt (0.15 * 0.15 - lin * lin) * Real.cos (0 + k * (Real.pi * 2 / 8))
                + (compute3DCentroid object).2.x,
              Real.sqrt (0.15 * 0.15 - lin * lin) * Real.sin (0 + k * (Real.pi * 2 / 8))
                + (compute3DCentroid object).2.y,
              lin + (compute3DCentroid object).2.z⟩ : gp.Vec3 ℝ), (1.0 : ℝ))])).flatten)) := by
    intro lin l
    exact forLoop_append (2 * Real.pi) (Real.pi * 2 / 8)
      (fun ang cloud_gp =>
          some (cloud_gp.push
            (Real.sqrt (0.15 * 0.15 - lin * lin) * Real.cos ang + (compute3DCentroid object).2.x)
            (Real.sqrt (0.15 * 0.15 - lin * lin) * Real.sin ang + (compute3DCentroid object).2.y)
            (lin + (compute3DCentroid object).2.z) 1.0)) Data.ofPoints
      (fun ang => [((⟨Real.sqrt (0.15 * 0.15 - lin * lin) * Real.cos ang
                + (compute3DCentroid object).2.x,
              Real.sqrt (0.15 * 0.15 - lin * lin) * Real.sin ang
                + (compute3DCentroid object).2.y,
              lin + (compute3DCentroid object).2.z⟩ : gp.Vec3 ℝ), (1.0 : ℝ))])
      (fun _ _ => congrArg some (Data.push_ofPoints _ _ _ _ _)) 8 0 l fuel hfuel angle_steps_8.1 angle_steps_8.2
  have outer := forLoop_append (0.15 : ℝ) (2 * 0.15 / 6)
    (fun lin cloud_gp =>
      forLoop (2 * Real.pi) (Real.pi * 2 / 8) (fun ang cloud_gp =>
          some (cloud_gp.push
            (Real.sqrt (0.15 * 0.15 - lin * lin) * Real.cos ang + (compute3DCentroid object).2.x)
            (Real.sqrt (0.15 * 0.15 - lin * lin) * Real.sin ang + (compute3DCentroid object).2.y)
            (lin + (compute3DCentroid object).2.z) 1.0))
        fuel 0 cloud_gp)
    Data.ofPoints
    (fun lin => ((List.range 8).map (fun k : Nat =>
          [((⟨Real.sqrt (0.15 * 0.15 - lin * lin) * Real.cos (0 + k * (Real.pi * 2 / 8))
                + (compute3DCentroid object).2.x,
              Real.sqrt (0.15 * 0.15 - lin * lin) * Real.sin (0 + k * (Real.pi * 2 / 8))
                + (compute3DCentroid object).2.y,
              lin + (compute3DCentroid object).2.z⟩ : gp.Vec3 ℝ), (1.0 : ℝ))])).flatten)
    (fun lin l => inner lin l) 6 (-(0.15 : ℝ) + 2 * 0.15 / 6 / 2)
    ([] ++ [((⟨(compute3DCentroid object).2.x, (compute3DCentroid object).2.y,
        (compute3DCentroid object).2.z⟩ : gp.Vec3 ℝ), (-1.0 : ℝ))]
      ++ object.map (fun pt => (pt, (0 : ℝ)))) fuel (by omega)
    height_steps_6.1 height_steps_6.2.1
  have hlen : ∀ l : List (gp.Vec3 ℝ × ℝ),
      ¬ ((Data.ofPoints l).coord_x.length ≠ (Data.ofPoints l).label.length) := by
    intro l
    simp [Data.ofPoints]
  rw [outer, Option.map_some', if_neg (hlen _)]
  rfl

/-- Layout of training data made of a centre labelled `-1`, object points labelled `0` and
further points all labelled `1`. -/
theorem ofPoints_layout (c : gp.Vec3 ℝ) (object : List (gp.Vec3 ℝ)) (G : List (gp.Vec3 ℝ × ℝ))
    (hG : ∀ q, q ∈ G → q.2 = 1) :
    (Data.ofPoints (([(c, (-1.0 : ℝ))] ++ object.map (fun pt => (pt, (0 : ℝ)))) ++ G)).coord_x
        = ((c :: object) ++ G.map Prod.fst).map (fun p => p.x) ∧
    (Data.ofPoints (([(c, (-1.0 : ℝ))] ++ object.map (fun pt => (pt, (0 : ℝ)))) ++ G)).coord_y
        = ((c :: object) ++ G.map Prod.fst).map (fun p => p.y) ∧
    (Data.ofPoints (([(c, (-1.0 : ℝ))] ++ object.map (fun pt => (pt, (0 : ℝ)))) ++ G)).coord_z
        = ((c :: object) ++ G.map Prod.fst).map (fun p => p.z) ∧
    (Data.ofPoints (([(c, (-1.0 : ℝ))] ++ object.map (fun pt => (pt, (0 : ℝ)))) ++ G)).label
        = (-1 : ℝ) :: (List.replicate object.length 0 ++ List.replicate G.length 1) := by
  have hlab : G.map (fun q => q.2) = List.replicate G.length (1 : ℝ) := by
    rw [List.eq_replicate_iff]
    refine ⟨List.length_map _ _, ?_⟩
    intro b hb
    obtain ⟨q, hq, rfl⟩ := List.mem_map.mp hb
    exact hG q hq
  have h0 : object.map (fun _ => (0 : ℝ)) = List.replicate object.length 0 := by
    rw [List.eq_replicate_iff]
    refine ⟨List.length_map _ _, ?_⟩
    intro b hb
    obtain ⟨q, _, rfl⟩ := List.mem_map.mp hb
    rfl
  have hm : (-1.0 : ℝ) = -1 := by norm_num
  refine ⟨?_, ?_, ?_, ?_⟩
  · simp [Data.ofPoints, List.map_map, Function.comp_def]
  · simp [Data.ofPoints, List.map_map, Function.comp_def]
  · simp [Data.ofPoints, List.map_map, Function.comp_def]
  · simp only [Data.ofPoints, List.map_append, List.map_map, Function.comp_def, List.map_cons,
      List.map_nil, hlab, h0, hm]
    rfl

/-- C20: for every non-empty object cloud of `m` points whose centroid `c` the PCL routine
delivers (a non-zero count), `computeGP` returns (the loops terminate: any iteration bound
of at least `8` suffices) training data that is, in order, `c` with label `-1`, the `m`
object points each with label `0`, then exactly `48` points each with label `1` and each
at Euclidean distance `0.15` from `c`; the coordinate and label sequences all have length
`m + 49` (exact real arithmetic). -/
theorem computeGP_training_data (compute3DCentroid : List (gp.Vec3 ℝ) → Nat × gp.Vec3 ℝ)
    (object : List (gp.Vec3 ℝ)) (fuel : Nat) (hne : object ≠ [])
    (hc : (compute3DCentroid object).1 ≠ 0) (hfuel : 8 ≤ fuel) :
    ∃ (d : Data ℝ) (sphere : List (gp.Vec3 ℝ)),
      computeGP { sqrt := Real.sqrt, cos := Real.cos, sin := Real.sin, pi := Real.pi }
        compute3DCentroid (some object) fuel = some (some d) ∧
      d.coord_x = (((compute3DCentroid object).2 :: object) ++ sphere).map (fun p => p.x) ∧
      d.coord_y = (((compute3DCentroid object).2 :: object) ++ sphere).map (fun p => p.y) ∧
      d.coord_z = (((compute3DCentroid object).2 :: object) ++ sphere).map (fun p => p.z) ∧
      d.label = (-1 : ℝ) :: (List.replicate object.length 0 ++ List.replicate 48 1) ∧
      sphere.length = 48 ∧
      (∀ p, p ∈ sphere →
        gp.Vec3.distance Real.sqrt p (compute3DCentroid object).2 = 0.15) ∧
      d.coord_x.length = object.length + 49 ∧ d.coord_y.length = object.length + 49 ∧
      d.coord_z.length = object.length + 49 ∧ d.label.length = object.length + 49 := by
  have hlen := grid_length (fun j k : Nat =>
      (((⟨Real.sqrt (0.15 * 0.15
              - (-(0.15 : ℝ) + 2 * 0.15 / 6 / 2 + j * (2 * 0.15 / 6))
                * (-(0.15 : ℝ) + 2 * 0.15 / 6 / 2 + j * (2 * 0.15 / 6)))
            * Real.cos (0 + k * (Real.pi * 2 / 8)) + (compute3DCentroid object).2.x,
          Real.sqrt (0.15 * 0.15
              - (-(0.15 : ℝ) + 2 * 0.15 / 6 / 2 + j * (2 * 0.15 / 6))
                * (-(0.15 : ℝ) + 2 * 0.15 / 6 / 2 + j * (2 * 0.15 / 6)))
            * Real.sin (0 + k * (Real.pi * 2 / 8)) + (compute3DCentroid object).2.y,
          (-(0.15 : ℝ) + 2 * 0.15 / 6 / 2 + j * (2 * 0.15 / 6))
            + (compute3DCentroid object).2.z⟩ : gp.Vec3 ℝ), (1.0 : ℝ)) : gp.Vec3 ℝ × ℝ)) 6 8
  have hmem := grid_mem (fun j k : Nat =>
      (((⟨Real.sqrt (0.15 * 0.15
              - (-(0.15 : ℝ) + 2 * 0.15 / 6 / 2 + j * (2 * 0.15 / 6))
                * (-(0.15 : ℝ) + 2 * 0.15 / 6 / 2 + j * (2 * 0.15 / 6)))
            * Real.cos (0 + k * (Real.pi * 2 / 8)) + (compute3DCentroid object).2.x,
          Real.sqrt (0.15 * 0.15
              - (-(0.15 : ℝ) + 2 * 0.15 / 6 / 2 + j * (2 * 0.15 / 6))
                * (-(0.15 : ℝ) + 2 * 0.15 / 6 / 2 + j * (2 * 0.15 / 6)))
            * Real.sin (0 + k * (Real.pi * 2 / 8)) + (compute3DCentroid object).2.y,
          (-(0.15 : ℝ) + 2 * 0.15 / 6 / 2 + j * (2 * 0.15 / 6))
            + (compute3DCentroid object).2.z⟩ : gp.Vec3 ℝ), (1.0 : ℝ)) : gp.Vec3 ℝ × ℝ)) 6 8
  have heq := computeGP_eq compute3DCentroid object fuel hne hc hfuel
  revert hlen hmem heq
  generalize ((List.range 6).map (fun j : Nat =>
      ((List.range 8).map (fun k : Nat =>
        [((⟨Real.sqrt (0.15 * 0.15
              - (-(0.15 : ℝ) + 2 * 0.15 / 6 / 2 + j * (2 * 0.15 / 6))
                * (-(0.15 : ℝ) + 2 * 0.15 / 6 / 2 + j * (2 * 0.15 / 6)))
            * Real.cos (0 + k * (Real.pi * 2 / 8)) + (compute3DCentroid object).2.x,
          Real.sqrt (0.15 * 0.15
              - (-(0.15 : ℝ) + 2 * 0.15 / 6 / 2 + j * (2 * 0.15 / 6))
                * (-(0.15 : ℝ) + 2 * 0.15 / 6 / 2 + j * (2 * 0.15 / 6)))
            * Real.sin (0 + k * (Real.pi * 2 / 8)) + (compute3DCentroid object).2.y,
          (-(0.15 : ℝ) + 2 * 0.15 / 6 / 2 + j * (2 * 0.15 / 6))
            + (compute3DCentroid object).2.z⟩ : gp.Vec3 ℝ),
          (1.0 : ℝ))])).flatten)).flatten = G
  intro hlen hmem heq
  have hG : ∀ q, q ∈ G → q.2 = 1 := by
    intro q hq
    obtain ⟨j, k, _, _, rfl⟩ := hmem q hq
    norm_num
  have hlay := ofPoints_layout (compute3DCentroid object).2 object G hG
  have h48 : G.length = 48 := by rw [hlen]
  rw [h48] at hlay
  refine ⟨_, G.map Prod.fst, heq, hlay.1, hlay.2.1, hlay.2.2.1, hlay.2.2.2, ?_, ?_, ?_, ?_, ?_, ?_⟩
  · rw [List.length_map, h48]
  · intro p hp
    obtain ⟨q, hq, rfl⟩ := List.mem_map.mp hp
    obtain ⟨j, k, hj, _, rfl⟩ := hmem q hq
    apply distance_of_sphere_point 0.15
      (-(0.15 : ℝ) + 2 * 0.15 / 6 / 2 + j * (2 * 0.15 / 6)) (0 + k * (Real.pi * 2 / 8))
    · norm_num
    · exact height_steps_6.2.2 j hj
    · simp
    · simp
    · simp
  · rw [hlay.1]; simp [h48]
  · rw [hlay.2.1]; simp [h48]
  · rw [hlay.2.2.1]; simp [h48]
  · rw [hlay.2.2.2]; simp

/-- C20, instance: a cloud of one point, the centroid routine delivering the origin, and
the iteration bound `8`. -/
theorem computeGP_training_data_witness :
    ∃ (d : Data ℝ) (sphere : List (gp.Vec3 ℝ)),
      computeGP { sqrt := Real.sqrt, cos := Real.cos, sin := Real.sin, pi := Real.pi }
        originCentroid (some [⟨0, 0, 0⟩]) 8 = some (some d) ∧
      d.coord_x = (((originCentroid [⟨0, 0, 0⟩]).2 :: [⟨0, 0, 0⟩]) ++ sphere).map (fun p => p.x) ∧
      d.coord_y = (((originCentroid [⟨0, 0, 0⟩]).2 :: [⟨0, 0, 0⟩]) ++ sphere).map (fun p => p.y) ∧
      d.coord_z = (((originCentroid [⟨0, 0, 0⟩]).2 :: [⟨0, 0, 0⟩]) ++ sphere).map (fun p => p.z) ∧
      d.label = (-1 : ℝ) :: (List.replicate [(⟨0, 0, 0⟩ : gp.Vec3 ℝ)].length 0
        ++ List.replicate 48 1) ∧
      sphere.length = 48 ∧
      (∀ p, p ∈ sphere →
        gp.Vec3.distance Real.sqrt p (originCentroid [⟨0, 0, 0⟩]).2 = 0.15) ∧
      d.coord_x.length = [(⟨0, 0, 0⟩ : gp.Vec3 ℝ)].length + 49 ∧
      d.coord_y.length = [(⟨0, 0, 0⟩ : gp.Vec3 ℝ)].length + 49 ∧
      d.coord_z.length = [(⟨0, 0, 0⟩ : gp.Vec3 ℝ)].length + 49 ∧
      d.label.length = [(⟨0, 0, 0⟩ : gp.Vec3 ℝ)].length + 49 :=
  computeGP_training_data originCentroid [⟨0, 0, 0⟩] 8 (by simp)
    (by simp [originCentroid]) (by decide)

end GaussianProcessNode

namespace gp

/-! ## One step of the incremental Cholesky extension -/

/-- Cell-wise content of the factor after the loop body of the incremental branch. -/
theorem addPatternsRow_apply {α : Type} [Field α] (sqrt : α → α) (cf : BaseCovFunc α)
    (s : SampleSet α) (L : Mat α) (j r c : Nat) :
    addPatternsRow sqrt cf s L j r c
      = if r = j then
          (if c < j then solveLower L (fun i => cf.get (s.x i) (s.x j)) j c
           else if c = j then
             sqrt (cf.get (s.x j) (s.x j)
               - ∑ i in Finset.range j, solveLower L (fun i => cf.get (s.x i) (s.x j)) j i
                   * solveLower L (fun i => cf.get (s.x i) (s.x j)) j i)
           else L r c)
        else L r c := by
  unfold addPatternsRow
  simp only [setCell_apply]
  by_cases hr : r = j
  · by_cases hc : c = j
    · subst hr; subst hc; simp
    · by_cases hlt : c < j
      · simp [hr, hc, hlt]
      · simp [hr, hc, hlt]
  · simp [hr]

/-- A sum against row `b` of the lower triangle only runs up to the diagonal. -/
theorem sum_lowerView_mul {α : Type} [Field α] (L : Mat α) (w : Nat → α) (b j : Nat)
    (hb : b < j) :
    ∑ c in Finset.range j, lowerView L b c * w c
      = ∑ c in Finset.range (b + 1), L b c * w c := by
  have hsub : Finset.range (b + 1) ⊆ Finset.range j := by
    intro c hc
    simp only [Finset.mem_range] at hc ⊢
    omega
  rw [← Finset.sum_subset hsub]
  · apply Finset.sum_congr rfl
    intro c hc
    simp only [Finset.mem_range] at hc
    have : c ≤ b := by omega
    simp [lowerView, this]
  · intro c _ hc
    simp only [Finset.mem_range] at hc
    have : ¬ c ≤ b := by omega
    simp [lowerView, this]

/-- C21: one step of the incremental branch of `add_patterns` is a correct Cholesky
extension.  `L` is read through its lower triangle, as the engine does
(`triangularView<Lower>`); the cells above the diagonal are never written.  If the
diagonal of the top-left `j × j` block is positive, the block is a factor of the kernel
matrix of the samples `0..j-1`, and `κ − ‖L_j⁻¹k‖² > 0` with `k_i = cf.get(x_i, x_j)` and
`κ = cf.get(x_j, x_j)`, then after the step row `j` holds `L_j⁻¹k` followed by the positive
root of `κ − ‖L_j⁻¹k‖²`, every other row of `L` is unchanged, and the
`(j+1) × (j+1)` block is a factor of the kernel matrix of the samples `0..j`: its product
with its transpose has the entry `cf.get(x_a, x_b)` for `a ≤ b` and is symmetric, so it
is the kernel matrix `(cf.get(x_a, x_b))` whenever the kernel is symmetric on the new
sample. -/
theorem addPatternsRow_cholesky_extension (cf : BaseCovFunc ℝ) (s : SampleSet ℝ) (L : Mat ℝ)
    (j : Nat)
    (hdiag : ∀ i, i < j → 0 < L i i)
    (hK : ∀ a b, a < j → b < j →
      ∑ c in Finset.range j, lowerView L a c * lowerView L b c = cf.get (s.x a) (s.x b))
    (hpos : 0 < cf.get (s.x j) (s.x j)
      - ∑ i in Finset.range j, solveLower L (fun i => cf.get (s.x i) (s.x j)) j i
          * solveLower L (fun i => cf.get (s.x i) (s.x j)) j i) :
    (∀ a b, a ≤ j → b ≤ j →
      ∑ c in Finset.range (j + 1),
          lowerView (addPatternsRow Real.sqrt cf s L j) a c
            * lowerView (addPatternsRow Real.sqrt cf s L j) b c
        = cf.get (s.x (min a b)) (s.x (max a b))) ∧
    ((∀ i, i < j → cf.get (s.x j) (s.x i) = cf.get (s.x i) (s.x j)) →
      ∀ a b, a ≤ j → b ≤ j →
        ∑ c in Finset.range (j + 1),
            lowerView (addPatternsRow Real.sqrt cf s L j) a c
              * lowerView (addPatternsRow Real.sqrt cf s L j) b c
          = cf.get (s.x a) (s.x b)) ∧
    (∀ r c, r ≠ j → addPatternsRow Real.sqrt cf s L j r c = L r c) ∧
    (∀ i, i < j →
      ∑ c in Finset.range (i + 1), L i c * addPatternsRow Real.sqrt cf s L j j c
        = cf.get (s.x i) (s.x j)) ∧
    addPatternsRow Real.sqrt cf s L j j j
        * addPatternsRow Real.sqrt cf s L j j j
      = cf.get (s.x j) (s.x j)
        - ∑ c in Finset.range j, addPatternsRow Real.sqrt cf s L j j c
            * addPatternsRow Real.sqrt cf s L j j c ∧
    (∀ i, i ≤ j → 0 < addPatternsRow Real.sqrt cf s L j i i) := by
  have hne : ∀ i, i < j → L i i ≠ 0 := fun i hi => ne_of_gt (hdiag i hi)
  -- the written cells
  have hrow : ∀ c, c < j → addPatternsRow Real.sqrt cf s L j j c
      = solveLower L (fun i => cf.get (s.x i) (s.x j)) j c := by
    intro c hc
    rw [addPatternsRow_apply]
    simp [hc]
  have hjj : addPatternsRow Real.sqrt cf s L j j j
      = Real.sqrt (cf.get (s.x j) (s.x j)
          - ∑ i in Finset.range j, solveLower L (fun i => cf.get (s.x i) (s.x j)) j i
              * solveLower L (fun i => cf.get (s.x i) (s.x j)) j i) := by
    rw [addPatternsRow_apply]
    simp
  have hother : ∀ r c, r ≠ j → addPatternsRow Real.sqrt cf s L j r c = L r c := by
    intro r c hr
    rw [addPatternsRow_apply]
    simp [hr]
  -- row `j` solves the triangular system
  have hsolve : ∀ i, i < j →
      ∑ c in Finset.range (i + 1), L i c * addPatternsRow Real.sqrt cf s L j j c
        = cf.get (s.x i) (s.x j) := by
    intro i hi
    have h := solveLower_spec L (fun i => cf.get (s.x i) (s.x j)) j hne i hi
    simp only [] at h
    rw [← h]
    apply Finset.sum_congr rfl
    intro c hc
    simp only [Finset.mem_range] at hc
    rw [hrow c (by omega)]
  have hsq : addPatternsRow Real.sqrt cf s L j j j * addPatternsRow Real.sqrt cf s L j j j
      = cf.get (s.x j) (s.x j)
        - ∑ c in Finset.range j, addPatternsRow Real.sqrt cf s L j j c
            * addPatternsRow Real.sqrt cf s L j j c := by
    rw [hjj, Real.mul_self_sqrt (le_of_lt hpos)]
    congr 1
    apply Finset.sum_congr rfl
    intro c hc
    simp only [Finset.mem_range] at hc
    rw [hrow c hc]
  -- rows of the lower triangle of the new block
  have hlvOld : ∀ a c, a < j → lowerView (addPatternsRow Real.sqrt cf s L j) a c
      = lowerView L a c := by
    intro a c ha
    simp only [lowerView]
    rw [hother a c (by omega)]
  have hlvOldTop : ∀ a, a < j → lowerView (addPatternsRow Real.sqrt cf s L j) a j = 0 := by
    intro a ha
    have : ¬ j ≤ a := by omega
    simp [lowerView, this]
  have hlvNew : ∀ c, c ≤ j → lowerView (addPatternsRow Real.sqrt cf s L j) j c
      = addPatternsRow Real.sqrt cf s L j j c := by
    intro c hc
    simp [lowerView, hc]
  -- the four kinds of entries of the product
  have hOO : ∀ a b, a < j → b < j →
      ∑ c in Finset.range (j + 1),
          lowerView (addPatternsRow Real.sqrt cf s L j) a c
            * lowerView (addPatternsRow Real.sqrt cf s L j) b c
        = cf.get (s.x a) (s.x b) := by
    intro a b ha hb
    rw [Finset.sum_range_succ, hlvOldTop a ha, zero_mul, add_zero, ← hK a b ha hb]
    apply Finset.sum_congr rfl
    intro c _
    rw [hlvOld a c ha, hlvOld b c hb]
  have hNO : ∀ b, b < j →
      ∑ c in Finset.range (j + 1),
          lowerView (addPatternsRow Real.sqrt cf s L j) j c
            * lowerView (addPatternsRow Real.sqrt cf s L j) b c
        = cf.get (s.x b) (s.x j) := by
    intro b hb
    rw [Finset.sum_range_succ, hlvOldTop b hb, mul_zero, add_zero, ← hsolve b hb,
      ← sum_lowerView_mul L _ b j hb]
    apply Finset.sum_congr rfl
    intro c hc
    simp only [Finset.mem_range] at hc
    rw [hlvOld b c hb, hlvNew c (by omega), mul_comm]
  have hNN : ∑ c in Finset.range (j + 1),
          lowerView (addPatternsRow Real.sqrt cf s L j) j c
            * lowerView (addPatternsRow Real.sqrt cf s L j) j c
        = cf.get (s.x j) (s.x j) := by
    rw [Finset.sum_range_succ, hlvNew j le_rfl, hsq]
    have : ∑ c in Finset.range j, lowerView (addPatternsRow Real.sqrt cf s L j) j c
          * lowerView (addPatternsRow Real.sqrt cf s L j) j c
        = ∑ c in Finset.range j, addPatternsRow Real.sqrt cf s L j j c
          * addPatternsRow Real.sqrt cf s L j j c := by
      apply Finset.sum_congr rfl
      intro c hc
      simp only [Finset.mem_range] at hc
      rw [hlvNew c (by omega)]
    rw [this]
    ring
  have hcomm : ∀ a b,
      ∑ c in Finset.range (j + 1),
          lowerView (addPatternsRow Real.sqrt cf s L j) a c
            * lowerView (addPatternsRow Real.sqrt cf s L j) b c
        = ∑ c in Finset.range (j + 1),
          lowerView (addPatternsRow Real.sqrt cf s L j) b c
            * lowerView (addPatternsRow Real.sqrt cf s L j) a c := by
    intro a b
    apply Finset.sum_congr rfl
    intro c _
    rw [mul_comm]
  have hmain : ∀ a b, a ≤ j → b ≤ j →
      ∑ c in Finset.range (j + 1),
          lowerView (addPatternsRow Real.sqrt cf s L j) a c
            * lowerView (addPatternsRow Real.sqrt cf s L j) b c
        = cf.get (s.x (min a b)) (s.x (max a b)) := by
    intro a b ha hb
    rcases Nat.lt_or_ge a j with haj | haj
    · rcases Nat.lt_or_ge b j with hbj | hbj
      · rcases Nat.le_total a b with hab | hab
        · rw [min_eq_left hab, max_eq_right hab]
          exact hOO a b haj hbj
        · rw [min_eq_right hab, max_eq_left hab, hcomm]
          exact hOO b a hbj haj
      · have hbe : b = j := by omega
        subst hbe
        rw [min_eq_left ha, max_eq_right ha, hcomm]
        exact hNO a haj
    · have hae : a = j := by omega
      subst hae
      rcases Nat.lt_or_ge b a with hbj | hbj
      · rw [min_eq_right hb, max_eq_left hb]
        exact hNO b hbj
      · have hbe : b = a := by omega
        subst hbe
        rw [min_self, max_self]
        exact hNN
  refine ⟨hmain, ?_, hother, hsolve, hsq, ?_⟩
  · intro hsym a b ha hb
    rw [hmain a b ha hb]
    rcases Nat.le_total a b with hab | hab
    · rw [min_eq_left hab, max_eq_right hab]
    · rw [min_eq_right hab, max_eq_left hab]
      rcases Nat.lt_or_ge a j with haj | haj
      · rw [← hOO b a (by omega) haj, hcomm]
        exact hOO a b haj (by omega)
      · have hae : a = j := by omega
        subst hae
        rcases Nat.lt_or_ge b a with hbj | hbj
        · exact (hsym b hbj).symm
        · have hbe : b = a := by omega
          subst hbe
          rfl
  · intro i hi
    rcases Nat.lt_or_ge i j with hij | hij
    · rw [hother i i (by omega)]
      exact hdiag i hij
    · have hie : i = j := by omega
      subst hie
      rw [hjj]
      exact Real.sqrt_pos.mpr hpos

/-- C21, instance: the kernel `x1.x * x2.x + 1` on the points `(0,0,0)` and `(1,0,0)`, the
factor block `L_1 = (1)` and the step for `j = 1`: the new `2 × 2` block is a factor of
the kernel matrix and row `0` is unchanged. -/
theorem addPatternsRow_cholesky_extension_witness :
    (∀ a b, a ≤ 1 → b ≤ 1 →
      ∑ c in Finset.range (1 + 1),
          lowerView (addPatternsRow Real.sqrt linearCov realPair (fun _ _ => 1) 1) a c
            * lowerView (addPatternsRow Real.sqrt linearCov realPair (fun _ _ => 1) 1) b c
        = linearCov.get (realPair.x a) (realPair.x b)) ∧
    (∀ r c, r ≠ 1 →
      addPatternsRow Real.sqrt linearCov realPair (fun _ _ => 1) 1 r c = (1 : ℝ)) :=
  have h := addPatternsRow_cholesky_extension linearCov realPair (fun _ _ => 1) 1
    (by intro i _; norm_num)
    (by
      intro a b ha hb
      have ha0 : a = 0 := by omega
      have hb0 : b = 0 := by omega
      subst ha0; subst hb0
      simp [lowerView, linearCov, realPair, SampleSet.x])
    (by
      simp [solveLower, linearCov, realPair, SampleSet.x])
  ⟨h.2.1 (by
      intro i hi
      have hi0 : i = 0 := by omega
      subst hi0
      simp [linearCov, realPair, SampleSet.x]), h.2.2.1⟩

end gp

namespace gp

/-! ## The cells of the assembled kernel matrix -/

/-- The factor that `compute` stores is the factorisation of the assembled matrix. -/
theorem compute_L_assembled {α : Type} [Field α] (num : Numerics α) (g : GaussianProcess α)
    (h : g.loghyper_changed = true) :
    (compute num g).L
      = lltBlock num.sqrt (assembled g.cf g.sampleset g.L) (4 * g.sampleset.rows) :=
  compute_L_of_changed num g h

/-- Value block of the assembled matrix: `get(x_i, x_j, i == j)` for `j ≤ i < n`. -/
theorem assembled_value_cell {α : Type} (cf : BaseCovFunc α) (s : SampleSet α) (L : Mat α)
    (i j : Nat) (hi : i < s.rows) (hj : j ≤ i) :
    assembled cf s L i j = cf.getDirac (s.x i) (s.x j) (i == j) := by
  unfold assembled
  rw [computeDiffBlock_apply, computeValueBlock_apply]
  have h1 : ¬ (s.rows ≤ i ∧ i < 4 * s.rows) := by omega
  rw [if_neg h1, if_pos ⟨hi, hj⟩]

/-- First-derivative block of the assembled matrix: row `n + 3i + d`, column `j < n` holds
`getDiff(x_i, x_j, d, i == j)`. -/
theorem assembled_diff_cell {α : Type} (cf : BaseCovFunc α) (s : SampleSet α) (L : Mat α)
    (i d j : Nat) (hi : i < s.rows) (hd : d < 3) (hj : j < s.rows) :
    assembled cf s L (s.rows + 3 * i + d) j = cf.getDiffDirac (s.x i) (s.x j) d (i == j) := by
  unfold assembled
  rw [computeDiffBlock_apply]
  have h1 : s.rows ≤ s.rows + 3 * i + d ∧ s.rows + 3 * i + d < 4 * s.rows := by omega
  have e1 : (s.rows + 3 * i + d - s.rows) / 3 = i := by omega
  have e2 : (s.rows + 3 * i + d - s.rows) % 3 = d := by omega
  rw [if_pos h1, if_pos hj, e1, e2]

/-- Second-derivative block of the assembled matrix: row `n + 3i + d`, column `n + 3k + e`
with `3k + e ≤ 3i + d` holds `getDiff2(x_i, x(3k + e), d, e, i == 3k + e)`: the second
sample is read at the column offset `3k + e`, not at `k`. -/
theorem assembled_diff2_cell {α : Type} (cf : BaseCovFunc α) (s : SampleSet α) (L : Mat α)
    (i d k e : Nat) (hi : i < s.rows) (hd : d < 3) (he : e < 3)
    (hle : 3 * k + e ≤ 3 * i + d) :
    assembled cf s L (s.rows + 3 * i + d) (s.rows + 3 * k + e)
      = cf.getDiff2 (s.x i) (s.x (3 * k + e)) d e (i == 3 * k + e) := by
  unfold assembled
  rw [computeDiffBlock_apply]
  have h1 : s.rows ≤ s.rows + 3 * i + d ∧ s.rows + 3 * i + d < 4 * s.rows := by omega
  have h2 : ¬ (s.rows + 3 * k + e < s.rows) := by omega
  have h3 : s.rows + 3 * k + e ≤ s.rows + 3 * i + d := by omega
  have e1 : (s.rows + 3 * i + d - s.rows) / 3 = i := by omega
  have e2 : (s.rows + 3 * i + d - s.rows) % 3 = d := by omega
  have e3 : s.rows + 3 * k + e - s.rows = 3 * k + e := by omega
  have e4 : (3 * k + e) % 3 = e := by omega
  rw [if_pos h1, if_neg h2, if_pos h3, e1, e2, e3, e4]

/-- C22, evaluation at the failing input: two samples `a`, `b` (so `n = 2`), row
`n + 3·1 + 0 = 5` (sample `1`, axis `0`) and column `n + 3·0 + 1 = 3` (sample `0`,
axis `1`).  For every covariance the assembled matrix holds there
`getDiff2(x_1, x_1, 0, 1, true)`, computed from the sample `1` at the column offset, not
from the sample `0` the column belongs to; with the probe covariance on the points
`(0,0,0)`, `(1,0,0)` the cell is `1` while `getDiff2(x_1, x_0, 0, 1)` is `0`.  The value
cell `(1, 0)` and the first-derivative cell `(5, 0)` are computed from the samples they
belong to. -/
theorem assembled_diff2_reads_column_offset :
    (∀ (cf : BaseCovFunc ℚ) (a b : Vec3 ℚ) (ys : List ℚ) (beyond : Nat → Vec3 ℚ) (L : Mat ℚ),
      assembled cf { X := [a, b], Y := ys, beyond := beyond } L 5 3
        = cf.getDiff2 b b 0 1 true) ∧
    assembled probeCov (sampleSetOf [p0, p1] [0, 0]) (fun _ _ => 0) 5 3 = 1 ∧
    probeCov.getDiff2 ((sampleSetOf [p0, p1] [0, 0]).x 1) ((sampleSetOf [p0, p1] [0, 0]).x 0)
      0 1 true = 0 ∧
    probeCov.getDiff2 ((sampleSetOf [p0, p1] [0, 0]).x 1) ((sampleSetOf [p0, p1] [0, 0]).x 0)
      0 1 false = 0 ∧
    (∀ (cf : BaseCovFunc ℚ) (a b : Vec3 ℚ) (ys : List ℚ) (beyond : Nat → Vec3 ℚ) (L : Mat ℚ),
      assembled cf { X := [a, b], Y := ys, beyond := beyond } L 1 0
        = cf.getDirac b a false) ∧
    (∀ (cf : BaseCovFunc ℚ) (a b : Vec3 ℚ) (ys : List ℚ) (beyond : Nat → Vec3 ℚ) (L : Mat ℚ),
      assembled cf { X := [a, b], Y := ys, beyond := beyond } L 5 0
        = cf.getDiffDirac b a 0 false) := by
  have key : ∀ (cf : BaseCovFunc ℚ) (a b : Vec3 ℚ) (ys : List ℚ) (beyond : Nat → Vec3 ℚ)
      (L : Mat ℚ),
      assembled cf { X := [a, b], Y := ys, beyond := beyond } L 5 3
        = cf.getDiff2 b b 0 1 true := by
    intro cf a b ys beyond L
    exact assembled_diff2_cell cf { X := [a, b], Y := ys, beyond := beyond } L 1 0 0 1
      (by simp [SampleSet.rows]) (by decide) (by decide) (by decide)
  refine ⟨key, ?_, rfl, rfl, ?_, ?_⟩
  · rw [sampleSetOf, key]
    rfl
  · intro cf a b ys beyond L
    exact assembled_value_cell cf { X := [a, b], Y := ys, beyond := beyond } L 1 0
      (by simp [SampleSet.rows]) (by decide)
  · intro cf a b ys beyond L
    exact assembled_diff_cell cf { X := [a, b], Y := ys, beyond := beyond } L 1 0 0
      (by simp [SampleSet.rows]) (by decide) (by simp [SampleSet.rows])

end gp

namespace gp

/-! ## Frame of `compute` and bookkeeping of `add_patterns` -/

/-- C24: when the hyper-parameter flag of the covariance is `false`, `compute` returns
without modifying the state, in particular `L`, `InvKppY`, `alpha` and
`alpha_needs_update`; when the flag is `true`, `compute` clears it and leaves
`alpha_needs_update` set. -/
theorem compute_frame {α : Type} [Field α] (num : Numerics α) (g : GaussianProcess α) :
    (g.loghyper_changed = false →
      compute num g = g ∧ (compute num g).L = g.L ∧ (compute num g).InvKppY = g.InvKppY ∧
      (compute num g).alpha = g.alpha ∧
      (compute num g).alpha_needs_update = g.alpha_needs_update) ∧
    (g.loghyper_changed = true →
      (compute num g).loghyper_changed = false ∧
      (compute num g).alpha_needs_update = true) := by
  constructor
  · intro h
    have e : compute num g = g := by simp [compute, h]
    rw [e]
    exact ⟨rfl, rfl, rfl, rfl, rfl⟩
  · intro h
    simp [compute, h]

/-- C24, instance: a fresh engine (flag set) and the engine obtained from it by `compute`
(flag cleared). -/
theorem compute_frame_witness :
    (compute ratNumerics (compute ratNumerics (freshGP 3 (fun _ _ => 0) fourTargets))
        = compute ratNumerics (freshGP 3 (fun _ _ => 0) fourTargets)) ∧
    (compute ratNumerics (freshGP 3 (fun _ _ => 0) fourTargets)).loghyper_changed = false ∧
    (compute ratNumerics (freshGP 3 (fun _ _ => 0) fourTargets)).alpha_needs_update = true :=
  ⟨((compute_frame ratNumerics
      (compute ratNumerics (freshGP 3 (fun _ _ => 0) fourTargets))).1
      (compute_loghyper_changed ratNumerics _)).1,
    ((compute_frame ratNumerics (freshGP 3 (fun _ _ => 0) fourTargets)).2 rfl).1,
    ((compute_frame ratNumerics (freshGP 3 (fun _ _ => 0) fourTargets)).2 rfl).2⟩

/-- The allocated dimension of `L` after `compute`. -/
theorem compute_Lrows {α : Type} [Field α] (num : Numerics α) (g : GaussianProcess α)
    (h : g.loghyper_changed = true) :
    (compute num g).Lrows
      = if 4 * g.sampleset.rows > g.Lrows then 4 * g.sampleset.rows + g.initialLSize
        else g.Lrows := by
  simp [compute, h]

/-- The loop of the incremental branch writes the rows of the new samples only. -/
theorem foldl_addPatternsRow_other_rows {α : Type} [Field α] (sqrt : α → α)
    (cf : BaseCovFunc α) (s : SampleSet α) (m : Nat) :
    ∀ (n : Nat) (L : Mat α) (r c : Nat), ¬ (n ≤ r ∧ r < n + m) →
      ((List.range' n m).foldl (fun L j => addPatternsRow sqrt cf s L j) L) r c = L r c := by
  induction m with
  | zero =>
    intro n L r c _
    rfl
  | succ m ih =>
    intro n L r c hr
    rw [List.range'_succ, List.foldl_cons, ih (n + 1) _ r c (by omega), addPatternsRow_apply]
    have : r ≠ n := by omega
    simp [this]

/-- Number of samples after `add`. -/
theorem SampleSet.rows_add {α : Type} (s : SampleSet α) (newInputs : List (Vec3 α))
    (newTargets : List α) (newNormals : List (Vec3 α)) :
    (s.add newInputs newTargets newNormals).rows = s.rows + newInputs.length := by
  simp [SampleSet.add, SampleSet.rows]

/-- The sample count after a length-matched `add_patterns` call. -/
theorem add_patterns_rows {α : Type} [Field α] (num : Numerics α) (g : GaussianProcess α)
    (newInputs : List (Vec3 α)) (newTargets : List α)
    (hlen : newInputs.length = newTargets.length) :
    (add_patterns num g newInputs newTargets).2.sampleset.rows
      = g.sampleset.rows + newInputs.length := by
  by_cases h0 : g.sampleset.rows = 0
  · rw [add_patterns_first num g newInputs newTargets hlen h0]
    show (compute num _).sampleset.rows = _
    rw [compute_sampleset]
    exact SampleSet.rows_add g.sampleset newInputs newTargets newInputs
  · rw [add_patterns_incremental num g newInputs newTargets hlen h0]
    exact SampleSet.rows_add g.sampleset newInputs newTargets newInputs

/-- C25: for every state and every length-matched `(newInputs, newTargets)`,
`add_patterns` returns, the sample count has grown by exactly `|newInputs|` and
`alpha_needs_update` is `true`.  If the sample set was empty before the call, the state
is the one `compute` leaves when started with the new samples and the hyper-parameter
flag set: the full path has run (the flag is cleared again and `L` is the factorisation
of the assembled matrix).  Otherwise `compute` is not called: the flag, `InvKppY` and
`alpha` are as before, `L` is the result of the row loop over the new samples, and only
the rows `n..nnew-1` of `L` are written. -/
theorem add_patterns_spec {α : Type} [Field α] (num : Numerics α) (g : GaussianProcess α)
    (newInputs : List (Vec3 α)) (newTargets : List α)
    (hlen : newInputs.length = newTargets.length) :
    (add_patterns num g newInputs newTargets).1 = Except.ok () ∧
    (add_patterns num g newInputs newTargets).2.sampleset.rows
      = g.sampleset.rows + newInputs.length ∧
    (add_patterns num g newInputs newTargets).2.alpha_needs_update = true ∧
    (g.sampleset.rows = 0 →
      (add_patterns num g newInputs newTargets).2
        = { compute num { g with
              sampleset := g.sampleset.add newInputs newTargets newInputs
              loghyper_changed := true } with alpha_needs_update := true } ∧
      (add_patterns num g newInputs newTargets).2.loghyper_changed = false ∧
      (add_patterns num g newInputs newTargets).2.L
        = lltBlock num.sqrt
            (assembled g.cf (g.sampleset.add newInputs newTargets newInputs) g.L)
            (4 * (g.sampleset.add newInputs newTargets newInputs).rows)) ∧
    (g.sampleset.rows ≠ 0 →
      (add_patterns num g newInputs newTargets).2.loghyper_changed = g.loghyper_changed ∧
      (add_patterns num g newInputs newTargets).2.InvKppY = g.InvKppY ∧
      (add_patterns num g newInputs newTargets).2.alpha = g.alpha ∧
      (add_patterns num g newInputs newTargets).2.L
        = (List.range' g.sampleset.rows newInputs.length).foldl
            (fun L j => addPatternsRow num.sqrt g.cf
              (g.sampleset.add newInputs newTargets newInputs) L j) g.L ∧
      (∀ r c, ¬ (g.sampleset.rows ≤ r ∧ r < g.sampleset.rows + newInputs.length) →
        (add_patterns num g newInputs newTargets).2.L r c = g.L r c)) := by
  by_cases h0 : g.sampleset.rows = 0
  · rw [add_patterns_first num g newInputs newTargets hlen h0]
    refine ⟨rfl, ?_, rfl, fun _ => ⟨rfl, ?_, ?_⟩, fun h => absurd h0 h⟩
    · show (compute num _).sampleset.rows = _
      rw [compute_sampleset]
      exact SampleSet.rows_add g.sampleset newInputs newTargets newInputs
    · exact compute_loghyper_changed num _
    · exact compute_L_assembled num _ rfl
  · rw [add_patterns_incremental num g newInputs newTargets hlen h0]
    have hm : (g.sampleset.add newInputs newTargets newInputs).rows - g.sampleset.rows
        = newInputs.length := by
      rw [SampleSet.rows_add]
      omega
    refine ⟨rfl, SampleSet.rows_add g.sampleset newInputs newTargets newInputs, rfl,
      fun h => absurd h h0,
      fun _ => ⟨rfl, rfl, rfl, ?_, ?_⟩⟩
    · dsimp only
      rw [hm]
    · intro r c hr
      dsimp only
      rw [hm]
      exact foldl_addPatternsRow_other_rows num.sqrt g.cf _ newInputs.length
        g.sampleset.rows g.L r c hr

/-- C25, instance: the first sample added to an empty engine, then a second one. -/
theorem add_patterns_spec_witness :
    (add_patterns ratNumerics (freshGP 3 (fun _ _ => 0) (sampleSetOf [] [])) [p0] [0]).1 = Except.ok () ∧
    (add_patterns ratNumerics (freshGP 3 (fun _ _ => 0) (sampleSetOf [] [])) [p0] [0]).2.sampleset.rows
      = 1 ∧
    (add_patterns ratNumerics (freshGP 3 (fun _ _ => 0) (sampleSetOf [] [])) [p0] [0]).2.loghyper_changed
      = false ∧
    (add_patterns ratNumerics
      (add_patterns ratNumerics (freshGP 3 (fun _ _ => 0) (sampleSetOf [] [])) [p0] [0]).2
      [p1] [0]).2.sampleset.rows = 2 ∧
    (add_patterns ratNumerics
      (add_patterns ratNumerics (freshGP 3 (fun _ _ => 0) (sampleSetOf [] [])) [p0] [0]).2
      [p1] [0]).2.alpha_needs_update = true :=
  have h1 := add_patterns_spec ratNumerics (freshGP 3 (fun _ _ => 0) (sampleSetOf [] [])) [p0] [0] rfl
  have h2 := add_patterns_spec ratNumerics
    (add_patterns ratNumerics (freshGP 3 (fun _ _ => 0) (sampleSetOf [] [])) [p0] [0]).2 [p1] [0] rfl
  ⟨h1.1, h1.2.1, (h1.2.2.2.1 rfl).2.1, by rw [h2.2.1, h1.2.1]; rfl, h2.2.2.1⟩

/-! ## The allocation of `L` -/

/-- The allocated dimension of `L` after a first batch. -/
theorem add_patterns_Lrows_first {α : Type} [Field α] (num : Numerics α)
    (g : GaussianProcess α) (newInputs : List (Vec3 α)) (newTargets : List α)
    (hlen : newInputs.length = newTargets.length) (h0 : g.sampleset.rows = 0) :
    (add_patterns num g newInputs newTargets).2.Lrows
      = (if 4 * newInputs.length > g.Lrows then 4 * newInputs.length + g.initialLSize
         else g.Lrows) ∧
    (add_patterns num g newInputs newTargets).2.initialLSize = g.initialLSize := by
  rw [add_patterns_first num g newInputs newTargets hlen h0]
  constructor
  · show (compute num _).Lrows = _
    rw [compute_Lrows num _ rfl]
    have e : (g.sampleset.add newInputs newTargets newInputs).rows = newInputs.length := by
      rw [SampleSet.rows_add, h0, Nat.zero_add]
    simp only [e]
  · simp [compute]

/-- The allocated dimension of `L` after the incremental branch: the test compares the
number of samples, not four times that number, with the allocated rows. -/
theorem add_patterns_Lrows_incremental {α : Type} [Field α] (num : Numerics α)
    (g : GaussianProcess α) (newInputs : List (Vec3 α)) (newTargets : List α)
    (hlen : newInputs.length = newTargets.length) (h0 : g.sampleset.rows ≠ 0) :
    (add_patterns num g newInputs newTargets).2.Lrows
      = (if g.sampleset.rows + newInputs.length > g.Lrows
         then g.sampleset.rows + newInputs.length + g.initialLSize else g.Lrows) ∧
    (add_patterns num g newInputs newTargets).2.initialLSize = g.initialLSize := by
  rw [add_patterns_incremental num g newInputs newTargets hlen h0]
  refine ⟨?_, rfl⟩
  dsimp only
  rw [SampleSet.rows_add]

/-- C26, evaluation at the failing input: an engine created with `initialLSize = 0` on
the empty sample set, one sample added by a first `add_patterns` call and one more by a
second call.  After the first call there is `1` sample and `L` has `4` allocated rows;
after the second (incremental) call there are `2` samples and `L` still has `4`
allocated rows, fewer than `4·2 = 8`.  For every `initialLSize` there is an incremental
batch that, after a first batch of one sample, leaves fewer than `4n` allocated rows. -/
theorem add_patterns_incremental_underallocates :
    (∀ (cf : BaseCovFunc ℚ) (noise : ℚ) (mem kmem : Mat ℚ) (a b : Vec3 ℚ) (ya yb : ℚ),
      (add_patterns ratNumerics
        (GaussianProcess.create cf noise 0 mem kmem (sampleSetOf [] [])) [a] [ya]).2.sampleset.rows
        = 1 ∧
      (add_patterns ratNumerics
        (GaussianProcess.create cf noise 0 mem kmem (sampleSetOf [] [])) [a] [ya]).2.Lrows = 4 ∧
      (add_patterns ratNumerics
        (add_patterns ratNumerics
          (GaussianProcess.create cf noise 0 mem kmem (sampleSetOf [] [])) [a] [ya]).2
        [b] [yb]).2.sampleset.rows = 2 ∧
      (add_patterns ratNumerics
        (add_patterns ratNumerics
          (GaussianProcess.create cf noise 0 mem kmem (sampleSetOf [] [])) [a] [ya]).2
        [b] [yb]).2.Lrows = 4 ∧
      ¬ (4 * (add_patterns ratNumerics
          (add_patterns ratNumerics
            (GaussianProcess.create cf noise 0 mem kmem (sampleSetOf [] [])) [a] [ya]).2
          [b] [yb]).2.sampleset.rows
        ≤ (add_patterns ratNumerics
          (add_patterns ratNumerics
            (GaussianProcess.create cf noise 0 mem kmem (sampleSetOf [] [])) [a] [ya]).2
          [b] [yb]).2.Lrows)) ∧
    (∀ (initialLSize : Nat) (cf : BaseCovFunc ℚ) (noise : ℚ) (mem kmem : Mat ℚ) (a b : Vec3 ℚ)
        (ya yb : ℚ),
      ∃ m : Nat,
        (add_patterns ratNumerics
          (add_patterns ratNumerics
            (GaussianProcess.create cf noise initialLSize mem kmem (sampleSetOf [] []))
            [a] [ya]).2
          (List.replicate m b) (List.replicate m yb)).2.Lrows
        < 4 * (add_patterns ratNumerics
          (add_patterns ratNumerics
            (GaussianProcess.create cf noise initialLSize mem kmem (sampleSetOf [] []))
            [a] [ya]).2
          (List.replicate m b) (List.replicate m yb)).2.sampleset.rows) := by
  have hfirst : ∀ (initialLSize : Nat) (cf : BaseCovFunc ℚ) (noise : ℚ) (mem kmem : Mat ℚ)
      (a : Vec3 ℚ) (ya : ℚ),
      (add_patterns ratNumerics
        (GaussianProcess.create cf noise initialLSize mem kmem (sampleSetOf [] []))
        [a] [ya]).2.sampleset.rows = 1 ∧
      (add_patterns ratNumerics
        (GaussianProcess.create cf noise initialLSize mem kmem (sampleSetOf [] []))
        [a] [ya]).2.Lrows = (if 4 > initialLSize then 4 + initialLSize else initialLSize) ∧
      (add_patterns ratNumerics
        (GaussianProcess.create cf noise initialLSize mem kmem (sampleSetOf [] []))
        [a] [ya]).2.initialLSize = initialLSize := by
    intro initialLSize cf noise mem kmem a ya
    have h1 := add_patterns_rows ratNumerics
      (GaussianProcess.create cf noise initialLSize mem kmem (sampleSetOf [] [])) [a] [ya] rfl
    have h2 := add_patterns_Lrows_first ratNumerics
      (GaussianProcess.create cf noise initialLSize mem kmem (sampleSetOf [] [])) [a] [ya]
      rfl rfl
    exact ⟨h1, h2.1, h2.2⟩
  have hsecond : ∀ (initialLSize : Nat) (cf : BaseCovFunc ℚ) (noise : ℚ) (mem kmem : Mat ℚ)
      (a b : Vec3 ℚ) (ya yb : ℚ) (m : Nat),
      (add_patterns ratNumerics
        (add_patterns ratNumerics
          (GaussianProcess.create cf noise initialLSize mem kmem (sampleSetOf [] []))
          [a] [ya]).2
        (List.replicate m b) (List.replicate m yb)).2.sampleset.rows = 1 + m ∧
      (add_patterns ratNumerics
        (add_patterns ratNumerics
          (GaussianProcess.create cf noise initialLSize mem kmem (sampleSetOf [] []))
          [a] [ya]).2
        (List.replicate m b) (List.replicate m yb)).2.Lrows
        = (if 1 + m > (if 4 > initialLSize then 4 + initialLSize else initialLSize)
           then 1 + m + initialLSize
           else (if 4 > initialLSize then 4 + initialLSize else initialLSize)) := by
    intro initialLSize cf noise mem kmem a b ya yb m
    obtain ⟨e1, e2, e3⟩ := hfirst initialLSize cf noise mem kmem a ya
    have hl : (List.replicate m b).length = (List.replicate m yb).length := by simp
    have h1 := add_patterns_rows ratNumerics
      (add_patterns ratNumerics
        (GaussianProcess.create cf noise initialLSize mem kmem (sampleSetOf [] []))
        [a] [ya]).2 (List.replicate m b) (List.replicate m yb) hl
    have h2 := add_patterns_Lrows_incremental ratNumerics
      (add_patterns ratNumerics
        (GaussianProcess.create cf noise initialLSize mem kmem (sampleSetOf [] []))
        [a] [ya]).2 (List.replicate m b) (List.replicate m yb) hl (by rw [e1]; decide)
    refine ⟨?_, ?_⟩
    · rw [h1, e1, List.length_replicate]
    · rw [h2.1, e1, e2, e3, List.length_replicate]
  constructor
  · intro cf noise mem kmem a b ya yb
    obtain ⟨e1, e2, _⟩ := hfirst 0 cf noise mem kmem a ya
    obtain ⟨e3, e4⟩ := hsecond 0 cf noise mem kmem a b ya yb 1
    have e5 : List.replicate 1 b = [b] := rfl
    have e6 : List.replicate 1 yb = [yb] := rfl
    rw [e5, e6] at e3 e4
    refine ⟨e1, e2, e3, e4, ?_⟩
    rw [e3, e4]
    decide
  · intro initialLSize cf noise mem kmem a b ya yb
    obtain ⟨e3, e4⟩ := hsecond initialLSize cf noise mem kmem a b ya yb
      ((if 4 > initialLSize then 4 + initialLSize else initialLSize) - 1)
    refine ⟨(if 4 > initialLSize then 4 + initialLSize else initialLSize) - 1, ?_⟩
    rw [e3, e4]
    by_cases hk : 4 > initialLSize
    · simp only [hk, if_true]
      split_ifs <;> omega
    · simp only [hk, if_false]
      split_ifs <;> omega

end gp

namespace gp

/-! ## The solves of `update_alpha` -/

/-- A step of the back substitution keeps the entries solved before. -/
theorem solveUpperT_succ_of_gt {α : Type} [Field α] (L : Mat α) (b : Nat → α) (n m i : Nat)
    (h : n - 1 - m < i) : solveUpperT L b n (m + 1) i = solveUpperT L b n m i := by
  have hne : i ≠ n - 1 - m := by omega
  simp only [solveUpperT, if_neg hne]

/-- The back substitution solves `Lᵀ a = b` on the rows it has reached: after `m ≤ n`
steps, row `i` with `n - m ≤ i < n` of the transposed system holds. -/
theorem solveUpperT_spec {α : Type} [Field α] (L : Mat α) (b : Nat → α) (n : Nat)
    (hd : ∀ i, i < n → L i i ≠ 0) (m : Nat) (hm : m ≤ n) (i : Nat) (h1 : n - m ≤ i)
    (h2 : i < n) :
    ∑ j in Finset.Ico i n, L j i * solveUpperT L b n m j = b i := by
  induction m generalizing i with
  | zero => omega
  | succ m ih =>
    by_cases hi : i = n - 1 - m
    · have hsum : ∑ j in Finset.Ico (i + 1) n, L j i * solveUpperT L b n (m + 1) j
          = ∑ j in Finset.Ico (i + 1) n, L j i * solveUpperT L b n m j := by
        apply Finset.sum_congr rfl
        intro j hj
        simp only [Finset.mem_Ico] at hj
        rw [solveUpperT_succ_of_gt L b n m j (by omega)]
      have hval : solveUpperT L b n (m + 1) i
          = (b i - ∑ j in Finset.Ico (i + 1) n, L j i * solveUpperT L b n m j) / L i i := by
        simp only [solveUpperT, if_pos hi]
      rw [Finset.sum_eq_sum_Ico_succ_bot h2, hsum, hval]
      field_simp [hd i h2]
    · have hsum : ∑ j in Finset.Ico i n, L j i * solveUpperT L b n (m + 1) j
          = ∑ j in Finset.Ico i n, L j i * solveUpperT L b n m j := by
        apply Finset.sum_congr rfl
        intro j hj
        simp only [Finset.mem_Ico] at hj
        rw [solveUpperT_succ_of_gt L b n m j (by omega)]
      rw [hsum]
      exact ih (by omega) i (by omega) h2

/-- A sum against column `k` of the lower triangle only runs from the diagonal on. -/
theorem sum_lowerView_col {α : Type} [Field α] (L : Mat α) (w : Nat → α) (k n : Nat) :
    ∑ j in Finset.range n, lowerView L j k * w j
      = ∑ j in Finset.Ico k n, L j k * w j := by
  have hsub : Finset.Ico k n ⊆ Finset.range n := by
    intro c hc
    simp only [Finset.mem_Ico, Finset.mem_range] at hc ⊢
    omega
  rw [← Finset.sum_subset hsub]
  · apply Finset.sum_congr rfl
    intro c hc
    simp only [Finset.mem_Ico] at hc
    simp [lowerView, hc.1]
  · intro c hc1 hc
    simp only [Finset.mem_Ico, Finset.mem_range] at hc hc1
    have : ¬ k ≤ c := by omega
    simp [lowerView, this]

/-- The two triangular solves of `update_alpha` solve `L·Lᵀ·a = y` on the top-left
`n × n` block when the diagonal of the block has no zero. -/
theorem solve_LLt {α : Type} [Field α] (L : Mat α) (y : Nat → α) (n : Nat)
    (hd : ∀ i, i < n → L i i ≠ 0) (i : Nat) (hi : i < n) :
    ∑ j in Finset.range n,
        (∑ k in Finset.range n, lowerView L i k * lowerView L j k)
          * solveUpperT L (solveLower L y n) n n j
      = y i := by
  have e1 : ∑ j in Finset.range n,
        (∑ k in Finset.range n, lowerView L i k * lowerView L j k)
          * solveUpperT L (solveLower L y n) n n j
      = ∑ k in Finset.range n, lowerView L i k
          * ∑ j in Finset.range n, lowerView L j k * solveUpperT L (solveLower L y n) n n j := by
    simp only [Finset.sum_mul, Finset.mul_sum]
    rw [Finset.sum_comm]
    apply Finset.sum_congr rfl
    intro k _
    apply Finset.sum_congr rfl
    intro j _
    ring
  have e2 : ∀ k, k ∈ Finset.range n →
      lowerView L i k
          * ∑ j in Finset.range n, lowerView L j k * solveUpperT L (solveLower L y n) n n j
        = lowerView L i k * solveLower L y n k := by
    intro k hk
    simp only [Finset.mem_range] at hk
    rw [sum_lowerView_col, solveUpperT_spec L (solveLower L y n) n hd n le_rfl k (by omega) hk]
  rw [e1, Finset.sum_congr rfl e2, sum_lowerView_mul L (solveLower L y n) i n hi]
  exact solveLower_spec L y n hd i hi

end gp

namespace gp

/-! ## The sample indices read by `update_k_star` and `compute` -/

/-- A loop writing the cells `(i, j)`, `j ∈ l`, of row `i` from `v`. -/
theorem foldl_setCell_mem {α : Type} (l : List Nat) (i : Nat) (v : Nat → α) :
    ∀ (k : Mat α) (r c : Nat),
      (l.foldl (fun k j => setCell k i j (v j)) k) r c
        = if r = i ∧ c ∈ l then v c else k r c := by
  induction l with
  | nil =>
    intro k r c
    simp
  | cons j l ih =>
    intro k r c
    rw [List.foldl_cons, ih, setCell_apply]
    by_cases hr : r = i
    · by_cases hl : c ∈ l
      · simp [hr, hl]
      · by_cases hj : c = j
        · simp [hr, hj]
        · simp [hr, hl, hj]
    · simp [hr]

/-- The three writes of the loop over `d` to the same cell leave the value for `d = 2`. -/
theorem foldl_range3_setCell {α : Type} (i j : Nat) (w : Nat → α) (k : Mat α) :
    (List.range 3).foldl (fun k d => setCell k i j (w d)) k = setCell k i j (w 2) := by
  have h3 : List.range 3 = [0, 1, 2] := rfl
  rw [h3]
  funext r c
  simp only [List.foldl_cons, List.foldl_nil, setCell_apply]
  split_ifs <;> rfl

/-- One pass of the loop over the rows `1..3` of `update_k_star`, for row `i`. -/
theorem kStarRow_apply {α : Type} (cf : BaseCovFunc α) (s : SampleSet α) (n m i : Nat)
    (x_star : Vec3 α) (k : Mat α) (r c : Nat) :
    ((List.range' n m).foldl (fun k j =>
        (List.range 3).foldl (fun k d =>
          setCell k i j (cf.getDiffAxes x_star (s.x j) (i - 1) d)) k)
      ((List.range n).foldl (fun k j =>
        setCell k i j (cf.getDiff x_star (s.x j) (i - 1))) k)) r c
      = if r = i then
          (if c < n then cf.getDiff x_star (s.x c) (i - 1)
           else if c < n + m then cf.getDiffAxes x_star (s.x c) (i - 1) 2
           else k r c)
        else k r c := by
  have e : (fun (k : Mat α) (j : Nat) =>
        (List.range 3).foldl (fun k d =>
          setCell k i j (cf.getDiffAxes x_star (s.x j) (i - 1) d)) k)
      = fun k j => setCell k i j (cf.getDiffAxes x_star (s.x j) (i - 1) 2) := by
    funext k j
    exact foldl_range3_setCell i j (fun d => cf.getDiffAxes x_star (s.x j) (i - 1) d) k
  rw [e, foldl_setCell_mem (List.range' n m) i
      (fun j => cf.getDiffAxes x_star (s.x j) (i - 1) 2),
    foldl_setCell_mem (List.range n) i (fun j => cf.getDiff x_star (s.x j) (i - 1))]
  simp only [List.mem_range, List.mem_range'_1]
  by_cases hr : r = i
  · by_cases hc : c < n
    · have : ¬ (n ≤ c ∧ c < n + m) := by omega
      simp [hr, hc, this]
    · by_cases hc2 : c < n + m
      · have : n ≤ c ∧ c < n + m := by omega
        simp [hr, hc, this]
      · have : ¬ (n ≤ c ∧ c < n + m) := by omega
        simp [hr, hc, hc2, this]
  · simp [hr]

/-- Rows `1..3` of `k_star` after `update_k_star`: column `c < n` holds
`getDiff(x_star, x(c), r - 1)`, and column `c` with `n ≤ c < 4n` holds
`getDiff(x_star, x(c), r - 1, 2)`, computed from `x(c)` with `c ≥ n`. -/
theorem kStarRows123_apply {α : Type} (cf : BaseCovFunc α) (s : SampleSet α) (n : Nat)
    (x_star : Vec3 α) (k : Mat α) (r c : Nat) :
    kStarRows123 cf s n (4 * n) x_star k r c
      = if 1 ≤ r ∧ r < 4 then
          (if c < n then cf.getDiff x_star (s.x c) (r - 1)
           else if c < 4 * n then cf.getDiffAxes x_star (s.x c) (r - 1) 2
           else k r c)
        else k r c := by
  unfold kStarRows123
  have h3 : List.range' 1 3 = [1, 2, 3] := rfl
  have hn : n + (4 * n - n) = 4 * n := by omega
  rw [h3]
  simp only [List.foldl_cons, List.foldl_nil]
  rw [kStarRow_apply, kStarRow_apply, kStarRow_apply, hn]
  by_cases h1 : r = 1
  · subst h1; simp
  · by_cases h2 : r = 2
    · subst h2; simp
    · by_cases h3 : r = 3
      · subst h3; simp
      · have : ¬ (1 ≤ r ∧ r < 4) := by omega
        simp [h1, h2, h3, this]

/-- Cells of rows `1..3` of `k_star` after `update_k_star` in the derivative columns. -/
theorem update_k_star_rows123 {α : Type} (g : GaussianProcess α) (x_star : Vec3 α) (r c : Nat)
    (hr1 : 1 ≤ r) (hr2 : r < 4) (hc1 : g.sampleset.rows ≤ c) (hc2 : c < 4 * g.sampleset.rows) :
    (update_k_star g x_star).k_star r c
      = g.cf.getDiffAxes x_star (g.sampleset.x c) (r - 1) 2 := by
  simp only [update_k_star]
  rw [kStarRows123_apply]
  have h1 : 1 ≤ r ∧ r < 4 := ⟨hr1, hr2⟩
  have h2 : ¬ c < g.sampleset.rows := by omega
  rw [if_pos h1, if_neg h2, if_pos hc2]

/-- C28, evaluation at the failing input: a sample set with the single sample `a`
(`n = 1`) whose reads past the end yield `beyond k`, and any query point.  While
assembling the kernel matrix `compute` passes the column offsets `1` and `2` to
`sampleset->x(·)`: the cells `(2, 2)` and `(3, 3)` are computed from `x(1)` and `x(2)`.
`update_k_star` passes the column numbers `1`, `2`, `3` to `sampleset->x(·)`: in rows
`1..3` the columns `1..3`, which belong to the sample `0`, are computed from `x(1)`,
`x(2)`, `x(3)`.  With the probe covariance the cells take the value of the read past the
end. -/
theorem sample_index_past_the_end :
    (∀ (cf : BaseCovFunc ℚ) (a : Vec3 ℚ) (ys : List ℚ) (beyond : Nat → Vec3 ℚ) (L : Mat ℚ),
      ({ X := [a], Y := ys, beyond := beyond } : SampleSet ℚ).rows = 1 ∧
      ({ X := [a], Y := ys, beyond := beyond } : SampleSet ℚ).x 1 = beyond 1 ∧
      assembled cf { X := [a], Y := ys, beyond := beyond } L 2 2
        = cf.getDiff2 a (beyond 1) 1 1 false ∧
      assembled cf { X := [a], Y := ys, beyond := beyond } L 3 3
        = cf.getDiff2 a (beyond 2) 2 2 false) ∧
    (∀ (cf : BaseCovFunc ℚ) (noise : ℚ) (mem kmem : Mat ℚ) (a x_star : Vec3 ℚ) (ys : List ℚ)
        (beyond : Nat → Vec3 ℚ) (r c : Fin 3),
      (update_k_star
        (GaussianProcess.create cf noise 8 mem kmem { X := [a], Y := ys, beyond := beyond })
        x_star).k_star (r.val + 1) (c.val + 1)
        = cf.getDiffAxes x_star (beyond (c.val + 1)) r.val 2) ∧
    assembled probeCov { X := [p0], Y := [5, 0, 0, 1], beyond := fun _ => p7 }
      (fun _ _ => 0) 2 2 = 7 ∧
    assembled probeCov { X := [p0], Y := [5, 0, 0, 1], beyond := fun _ => p0 }
      (fun _ _ => 0) 2 2 = 0 ∧
    (update_k_star
      (GaussianProcess.create probeCov 0 8 (fun _ _ => 0) (fun _ _ => 0)
        { X := [p0], Y := [5, 0, 0, 1], beyond := fun _ => p7 }) p1).k_star 1 1 = 7 ∧
    (update_k_star
      (GaussianProcess.create probeCov 0 8 (fun _ _ => 0) (fun _ _ => 0)
        { X := [p0], Y := [5, 0, 0, 1], beyond := fun _ => p0 }) p1).k_star 1 1 = 0 := by
  have hA : ∀ (cf : BaseCovFunc ℚ) (a : Vec3 ℚ) (ys : List ℚ) (beyond : Nat → Vec3 ℚ)
      (L : Mat ℚ),
      assembled cf { X := [a], Y := ys, beyond := beyond } L 2 2
          = cf.getDiff2 a (beyond 1) 1 1 false ∧
      assembled cf { X := [a], Y := ys, beyond := beyond } L 3 3
          = cf.getDiff2 a (beyond 2) 2 2 false := by
    intro cf a ys beyond L
    exact ⟨assembled_diff2_cell cf { X := [a], Y := ys, beyond := beyond } L 0 1 0 1
        (by simp [SampleSet.rows]) (by decide) (by decide) (by decide),
      assembled_diff2_cell cf { X := [a], Y := ys, beyond := beyond } L 0 2 0 2
        (by simp [SampleSet.rows]) (by decide) (by decide) (by decide)⟩
  have hK : ∀ (cf : BaseCovFunc ℚ) (noise : ℚ) (mem kmem : Mat ℚ) (a x_star : Vec3 ℚ)
      (ys : List ℚ) (beyond : Nat → Vec3 ℚ) (r c : Fin 3),
      (update_k_star
        (GaussianProcess.create cf noise 8 mem kmem { X := [a], Y := ys, beyond := beyond })
        x_star).k_star (r.val + 1) (c.val + 1)
        = cf.getDiffAxes x_star (beyond (c.val + 1)) r.val 2 := by
    intro cf noise mem kmem a x_star ys beyond r c
    have hr := r.isLt
    have hc := c.isLt
    rw [update_k_star_rows123 _ x_star (r.val + 1) (c.val + 1) (by omega) (by omega)
      (by simp [GaussianProcess.create, SampleSet.rows])
      (by simp [GaussianProcess.create, SampleSet.rows]; omega)]
    simp [GaussianProcess.create, SampleSet.x]
  refine ⟨fun cf a ys beyond L => ⟨rfl, rfl, hA cf a ys beyond L⟩, hK, ?_, ?_, ?_, ?_⟩
  · rw [(hA _ _ _ _ _).1]; rfl
  · rw [(hA _ _ _ _ _).1]; rfl
  · exact (hK probeCov 0 (fun _ _ => 0) (fun _ _ => 0) p0 p1 [5, 0, 0, 1] (fun _ => p7) 0 0)
  · exact (hK probeCov 0 (fun _ _ => 0) (fun _ _ => 0) p0 p1 [5, 0, 0, 1] (fun _ => p0) 0 0)

end gp

namespace gp_atlas_rrt

/-! ## The iterates of the projection -/

section ProjectSteps
variable {μ α : Type} [LinearOrderedRing α]

/-- The point returned by the loop is an iterate of the step; when the stall criterion
fired it is the stepped point, otherwise the counter is the number of steps taken. -/
theorem projectLoop_steps (ev : Vector3d α → α) (normal : Vector3d α)
    (f_tol improve_tol step_mul : α) (k iter evals : Nat) (current : Vector3d α) :
    ∃ m : Nat, m ≤ k ∧
      (projectLoop ev normal f_tol improve_tol step_mul k iter evals current).out
        = (projectStep ev normal step_mul)^[m] current ∧
      ((projectLoop ev normal f_tol improve_tol step_mul k iter evals current).stop
          = Convergence.improvementTolerance →
        ∃ m2 : Nat, m = m2 + 1 ∧
          (projectLoop ev normal f_tol improve_tol step_mul k iter evals current).iter
            = iter + m2 ∧
          ¬ |ev ((projectStep ev normal step_mul)^[m2] current)| < f_tol ∧
          |ev (projectStep ev normal step_mul ((projectStep ev normal step_mul)^[m2] current))
            - ev ((projectStep ev normal step_mul)^[m2] current)| < improve_tol) ∧
      ((projectLoop ev normal f_tol improve_tol step_mul k iter evals current).stop
          ≠ Convergence.improvementTolerance →
        (projectLoop ev normal f_tol improve_tol step_mul k iter evals current).iter
          = iter + m) := by
  induction k generalizing iter evals current with
  | zero =>
    refine ⟨0, le_rfl, rfl, ?_, ?_⟩
    · intro h
      simp [projectLoop] at h
    · intro _
      rfl
  | succ k ih =>
    by_cases h1 : |ev current| < f_tol
    · refine ⟨0, Nat.zero_le _, ?_, ?_, ?_⟩
      · simp [projectLoop, h1]
      · intro h
        simp [projectLoop, h1] at h
      · intro _
        simp [projectLoop, h1]
    · by_cases h2 : |ev (projectStep ev normal step_mul current) - ev current| < improve_tol
      · refine ⟨1, by omega, ?_, ?_, ?_⟩
        · simp [projectLoop, h1, h2]
        · intro _
          refine ⟨0, rfl, ?_, ?_, ?_⟩
          · simp [projectLoop, h1, h2]
          · simpa using h1
          · simpa using h2
        · intro h
          simp [projectLoop, h1, h2] at h
      · obtain ⟨m, hm, hout, hst, hns⟩ :=
          ih (iter + 1) (evals + 2) (projectStep ev normal step_mul current)
        have e : projectLoop ev normal f_tol improve_tol step_mul (k + 1) iter evals current
            = projectLoop ev normal f_tol improve_tol step_mul k (iter + 1) (evals + 2)
                (projectStep ev normal step_mul current) := by
          simp [projectLoop, h1, h2]
        rw [e]
        refine ⟨m + 1, by omega, ?_, ?_, ?_⟩
        · rw [hout, Function.iterate_succ_apply]
        · intro h
          obtain ⟨m2, hm2, hit, hf, hi⟩ := hst h
          refine ⟨m2 + 1, by omega, by omega, ?_, ?_⟩
          · rw [Function.iterate_succ_apply]
            exact hf
          · rw [Function.iterate_succ_apply]
            exact hi
        · intro h
          rw [hns h]
          omega

end ProjectSteps

end gp_atlas_rrt

namespace gp

/-! ## The inner loop of `find` -/

section FindUpdate
variable {α : Type} [LinearOrderedField α]

/-- Step size `j` after the body of the inner loop for index `j`. -/
theorem findUpdate_delta (o : Optimisation α) (gradOld : Nat → α) (v : StepVectors α)
    (j i : Nat) :
    (findUpdate o gradOld v j).delta i
      = if i = j then
          (if gradOld j > 0 then min (v.delta j * o.etaPlus) o.deltaMax
           else if gradOld j < 0 then max (v.delta j * o.etaMinus) o.deltaMin
           else v.delta j)
        else v.delta i := by
  unfold findUpdate
  by_cases hi : i = j
  · subst hi
    by_cases h1 : gradOld i > 0
    · simp [h1]
    · by_cases h2 : gradOld i < 0
      · simp [h1, h2]
      · simp [h1, h2]
  · by_cases h1 : gradOld j > 0
    · simp [h1, hi, Function.update_noteq]
    · by_cases h2 : gradOld j < 0
      · simp [h1, h2, hi, Function.update_noteq]
      · simp [h1, h2, hi]

/-- Gradient component `j` after the body of the inner loop for index `j`. -/
theorem findUpdate_grad (o : Optimisation α) (gradOld : Nat → α) (v : StepVectors α)
    (j i : Nat) :
    (findUpdate o gradOld v j).grad i
      = if i = j then
          (if gradOld j > 0 then v.grad j else if gradOld j < 0 then 0 else v.grad j)
        else v.grad i := by
  unfold findUpdate
  by_cases hi : i = j
  · subst hi
    by_cases h1 : gradOld i > 0
    · simp [h1]
    · by_cases h2 : gradOld i < 0
      · simp [h1, h2]
      · simp [h1, h2]
  · by_cases h1 : gradOld j > 0
    · simp [h1, hi]
    · by_cases h2 : gradOld j < 0
      · simp [h1, h2, hi, Function.update_noteq]
      · simp [h1, h2, hi]

/-- Parameter `j` after the body of the inner loop for index `j`. -/
theorem findUpdate_params (o : Optimisation α) (gradOld : Nat → α) (v : StepVectors α)
    (j i : Nat) :
    (findUpdate o gradOld v j).params i
      = if i = j then
          v.params j + -Optimisation.sign ((findUpdate o gradOld v j).grad j)
            * (findUpdate o gradOld v j).delta j
        else v.params i := by
  rw [findUpdate_grad, findUpdate_delta]
  unfold findUpdate
  by_cases hi : i = j
  · subst hi
    by_cases h1 : gradOld i > 0
    · simp [h1]
    · by_cases h2 : gradOld i < 0
      · simp [h1, h2]
      · simp [h1, h2]
  · by_cases h1 : gradOld j > 0
    · simp [h1, hi, Function.update_noteq]
    · by_cases h2 : gradOld j < 0
      · simp [h1, h2, hi, Function.update_noteq]
      · simp [h1, h2, hi, Function.update_noteq]

/-- The vectors after the inner loop over `d` indices, component by component. -/
theorem foldl_findUpdate (o : Optimisation α) (gradOld : Nat → α) (v : StepVectors α)
    (d i : Nat) :
    ((List.range d).foldl (findUpdate o gradOld) v).delta i
      = (if i < d then
          (if gradOld i > 0 then min (v.delta i * o.etaPlus) o.deltaMax
           else if gradOld i < 0 then max (v.delta i * o.etaMinus) o.deltaMin
           else v.delta i)
        else v.delta i) ∧
    ((List.range d).foldl (findUpdate o gradOld) v).grad i
      = (if i < d then
          (if gradOld i > 0 then v.grad i else if gradOld i < 0 then 0 else v.grad i)
        else v.grad i) ∧
    ((List.range d).foldl (findUpdate o gradOld) v).params i
      = (if i < d then
          v.params i
            + -Optimisation.sign
                (if gradOld i > 0 then v.grad i else if gradOld i < 0 then 0 else v.grad i)
              * (if gradOld i > 0 then min (v.delta i * o.etaPlus) o.deltaMax
                 else if gradOld i < 0 then max (v.delta i * o.etaMinus) o.deltaMin
                 else v.delta i)
        else v.params i) := by
  induction d with
  | zero => simp
  | succ d ih =>
    rw [List.range_succ, List.foldl_append, List.foldl_cons, List.foldl_nil]
    obtain ⟨ih1, ih2, ih3⟩ := ih
    by_cases hid : i = d
    · subst hid
      have hn : ¬ i < i := lt_irrefl i
      rw [if_neg hn] at ih1 ih2 ih3
      have hp : i < i + 1 := Nat.lt_succ_self i
      rw [findUpdate_params, findUpdate_grad, findUpdate_delta]
      simp only [if_true, if_pos hp, ih1, ih2, ih3]
      exact ⟨trivial, trivial, trivial⟩
    · rw [findUpdate_params, findUpdate_grad, findUpdate_delta]
      simp only [if_neg hid, ih1, ih2, ih3]
      by_cases hlt : i < d
      · have hp : i < d + 1 := by omega
        simp only [if_pos hlt, if_pos hp]
        exact ⟨trivial, trivial, trivial⟩
      · have hp : ¬ i < d + 1 := by omega
        simp only [if_neg hlt, if_neg hp]
        exact ⟨trivial, trivial, trivial⟩

end FindUpdate

end gp

namespace gp

/-! ## The step sizes of `find` -/

section FindSteps
variable {σ α : Type} [LinearOrderedField α]

/-- The inner loop keeps every step size between `deltaMin` and `deltaMax`. -/
theorem foldl_findUpdate_bounds (o : Optimisation α) (gradOld : Nat → α) (v : StepVectors α)
    (d : Nat) (hmin : o.deltaMin ≤ o.deltaMax) (heta1 : o.etaMinus ≤ 1) (heta2 : 1 ≤ o.etaPlus)
    (hpos : 0 < o.deltaMin)
    (hv : ∀ i, o.deltaMin ≤ v.delta i ∧ v.delta i ≤ o.deltaMax) (i : Nat) :
    o.deltaMin ≤ ((List.range d).foldl (findUpdate o gradOld) v).delta i ∧
    ((List.range d).foldl (findUpdate o gradOld) v).delta i ≤ o.deltaMax := by
  rw [(foldl_findUpdate o gradOld v d i).1]
  obtain ⟨hlo, hhi⟩ := hv i
  have hx : 0 ≤ v.delta i := le_trans (le_of_lt hpos) hlo
  split_ifs
  · exact ⟨le_min (le_trans hlo (le_mul_of_one_le_right hx heta2)) hmin, min_le_right _ _⟩
  · exact ⟨le_max_right _ _, max_le (le_trans (mul_le_of_le_one_right hx heta1) hhi) hmin⟩
  · exact ⟨hlo, hhi⟩
  · exact ⟨hlo, hhi⟩

/-- The vectors after one iteration of the loop of `find` in which the gradient was
delivered are those the inner loop leaves. -/
theorem findLoop_one (sqrt : α → α) (o : Optimisation α) (m : Likelihood σ α)
    (st : FindState σ α) (g : Nat → α) (gp1 : σ)
    (hg : m.logLikelihoodGradient st.loghyper st.gp = (Except.ok g, gp1)) :
    (findLoop sqrt o m 1 st).2.delta
      = ((List.range m.paramDim).foldl
          (findUpdate o (fun j => st.gradOld j * -g j))
          { delta := st.delta, grad := fun j => -g j, params := st.params }).delta ∧
    (findLoop sqrt o m 1 st).2.gradOld
      = ((List.range m.paramDim).foldl
          (findUpdate o (fun j => st.gradOld j * -g j))
          { delta := st.delta, grad := fun j => -g j, params := st.params }).grad ∧
    (findLoop sqrt o m 1 st).2.params
      = ((List.range m.paramDim).foldl
          (findUpdate o (fun j => st.gradOld j * -g j))
          { delta := st.delta, grad := fun j => -g j, params := st.params }).params := by
  simp only [findLoop, hg]
  split_ifs with hstop
  · exact ⟨rfl, rfl, rfl⟩
  · rcases hl : m.logLikelihood
        ((List.range m.paramDim).foldl
          (findUpdate o (fun j => st.gradOld j * -g j))
          { delta := st.delta, grad := fun j => -g j, params := st.params }).params
        (m.setLogHyper
          ((List.range m.paramDim).foldl
            (findUpdate o (fun j => st.gradOld j * -g j))
            { delta := st.delta, grad := fun j => -g j, params := st.params }).params gp1)
      with ⟨r, gp2⟩
    cases r with
    | error e => exact ⟨rfl, rfl, rfl⟩
    | ok lik =>
      simp only []
      split_ifs <;> exact ⟨rfl, rfl, rfl⟩

/-- The loop of `find` keeps every step size between `deltaMin` and `deltaMax`. -/
theorem findLoop_delta_bounds (sqrt : α → α) (o : Optimisation α) (m : Likelihood σ α)
    (hmin : o.deltaMin ≤ o.deltaMax) (heta1 : o.etaMinus ≤ 1) (heta2 : 1 ≤ o.etaPlus)
    (hpos : 0 < o.deltaMin) (k : Nat) :
    ∀ st : FindState σ α, (∀ i, o.deltaMin ≤ st.delta i ∧ st.delta i ≤ o.deltaMax) →
      ∀ i, o.deltaMin ≤ (findLoop sqrt o m k st).2.delta i ∧
        (findLoop sqrt o m k st).2.delta i ≤ o.deltaMax := by
  induction k with
  | zero =>
    intro st hst i
    exact hst i
  | succ k ih =>
    intro st hst i
    rcases hg : m.logLikelihoodGradient st.loghyper st.gp with ⟨r, gp1⟩
    cases r with
    | error e =>
      simp only [findLoop, hg]
      exact hst i
    | ok g =>
      have hb := foldl_findUpdate_bounds o (fun j => st.gradOld j * -g j)
        { delta := st.delta, grad := fun j => -g j, params := st.params } m.paramDim
        hmin heta1 heta2 hpos hst
      simp only [findLoop, hg]
      split_ifs with hstop
      · exact hb i
      · rcases hl : m.logLikelihood
            ((List.range m.paramDim).foldl
              (findUpdate o (fun j => st.gradOld j * -g j))
              { delta := st.delta, grad := fun j => -g j, params := st.params }).params
            (m.setLogHyper
              ((List.range m.paramDim).foldl
                (findUpdate o (fun j => st.gradOld j * -g j))
                { delta := st.delta, grad := fun j => -g j, params := st.params }).params gp1)
          with ⟨r, gp2⟩
        cases r with
        | error e => exact hb i
        | ok lik =>
          simp only []
          apply ih
          intro i2
          split_ifs <;> exact hb i2

/-- C30: if `deltaMin ≤ delta0 ≤ deltaMax`, `etaMinus ≤ 1 ≤ etaPlus` and `deltaMin > 0`
(the assumption `0 < etaMinus` is not needed), then throughout `find` every step size
`delta(j)` stays in `[deltaMin, deltaMax]`: after any number of iterations of the loop,
and after `find`.  In an iteration from any state with such step sizes in which the
gradient `g` of the log-likelihood is delivered, for every parameter `j`, with `P` the
product of the stored previous and the current gradient component (both negated, as
`find` keeps them): if `P > 0` the step size becomes `min(delta(j)·etaPlus, deltaMax)`;
if `P < 0` it becomes `max(delta(j)·etaMinus, deltaMin)`, parameter `j` is not moved
and the stored component is set to zero; if `P = 0` it is unchanged; and unless `P < 0`, parameter `j` moves by exactly the
new `delta(j)` in the direction of increasing log-likelihood (up when `g(j) > 0`, down
when `g(j) < 0`, not at all when `g(j) = 0`). -/
theorem find_step_sizes (sqrt : α → α) (o : Optimisation α) (m : Likelihood σ α)
    (h1 : o.deltaMin ≤ o.delta0) (h2 : o.delta0 ≤ o.deltaMax)
    (heta1 : o.etaMinus ≤ 1) (heta2 : 1 ≤ o.etaPlus) (hpos : 0 < o.deltaMin) :
    (∀ (loghyper : Nat → α) (gp : σ) (k j : Nat),
      o.deltaMin ≤ (findLoop sqrt o m k (findInit o loghyper gp)).2.delta j ∧
      (findLoop sqrt o m k (findInit o loghyper gp)).2.delta j ≤ o.deltaMax) ∧
    (∀ (loghyper : Nat → α) (gp : σ) (j : Nat),
      o.deltaMin ≤ (find sqrt o m loghyper gp).2.delta j ∧
      (find sqrt o m loghyper gp).2.delta j ≤ o.deltaMax) ∧
    (∀ (st : FindState σ α) (g : Nat → α) (gp1 : σ),
      (∀ i, o.deltaMin ≤ st.delta i ∧ st.delta i ≤ o.deltaMax) →
      m.logLikelihoodGradient st.loghyper st.gp = (Except.ok g, gp1) →
      ∀ j, j < m.paramDim →
        (o.deltaMin ≤ (findLoop sqrt o m 1 st).2.delta j ∧
          (findLoop sqrt o m 1 st).2.delta j ≤ o.deltaMax) ∧
        (0 < st.gradOld j * -g j →
          (findLoop sqrt o m 1 st).2.delta j = min (st.delta j * o.etaPlus) o.deltaMax) ∧
        (st.gradOld j * -g j < 0 →
          (findLoop sqrt o m 1 st).2.delta j = max (st.delta j * o.etaMinus) o.deltaMin ∧
          (findLoop sqrt o m 1 st).2.params j = st.params j ∧
          (findLoop sqrt o m 1 st).2.gradOld j = 0) ∧
        (st.gradOld j * -g j = 0 → (findLoop sqrt o m 1 st).2.delta j = st.delta j) ∧
        (¬ st.gradOld j * -g j < 0 →
          (0 < g j →
            (findLoop sqrt o m 1 st).2.params j
              = st.params j + (findLoop sqrt o m 1 st).2.delta j) ∧
          (g j < 0 →
            (findLoop sqrt o m 1 st).2.params j
              = st.params j - (findLoop sqrt o m 1 st).2.delta j) ∧
          (g j = 0 → (findLoop sqrt o m 1 st).2.params j = st.params j) ∧
          (findLoop sqrt o m 1 st).2.gradOld j = -g j)) := by
  have hmin : o.deltaMin ≤ o.deltaMax := le_trans h1 h2
  have hinit : ∀ (loghyper : Nat → α) (gp : σ) (i : Nat),
      o.deltaMin ≤ (findInit o loghyper gp).delta i ∧
        (findInit o loghyper gp).delta i ≤ o.deltaMax := by
    intro loghyper gp i
    simp only [findInit, one_mul]
    exact ⟨h1, h2⟩
  have hloop : ∀ (loghyper : Nat → α) (gp : σ) (k j : Nat),
      o.deltaMin ≤ (findLoop sqrt o m k (findInit o loghyper gp)).2.delta j ∧
      (findLoop sqrt o m k (findInit o loghyper gp)).2.delta j ≤ o.deltaMax := by
    intro loghyper gp k j
    exact findLoop_delta_bounds sqrt o m hmin heta1 heta2 hpos k _ (hinit loghyper gp) j
  refine ⟨hloop, ?_, ?_⟩
  · intro loghyper gp j
    have h := hloop loghyper gp o.maxIter j
    unfold find
    rcases hr : findLoop sqrt o m o.maxIter (findInit o loghyper gp) with ⟨r, st⟩
    rw [hr] at h
    cases r with
    | error e => exact h
    | ok u => exact h
  · intro st g gp1 hst hg j hj
    obtain ⟨e1, e2, e3⟩ := findLoop_one sqrt o m st g gp1 hg
    obtain ⟨f1, f2, f3⟩ := foldl_findUpdate o (fun j => st.gradOld j * -g j)
      { delta := st.delta, grad := fun j => -g j, params := st.params } m.paramDim j
    have hb := foldl_findUpdate_bounds o (fun j => st.gradOld j * -g j)
      { delta := st.delta, grad := fun j => -g j, params := st.params } m.paramDim
      hmin heta1 heta2 hpos hst j
    rw [f1] at hb
    rw [e1, e2, e3, f1, f2, f3]
    simp only [if_pos hj] at hb ⊢
    generalize st.gradOld j * -g j = P at hb ⊢
    refine ⟨hb, ?_, ?_, ?_, ?_⟩
    · intro hP
      rw [if_pos hP]
    · intro hP
      have hP2 : ¬ P > 0 := not_lt.mpr (le_of_lt hP)
      have hs : Optimisation.sign (0 : α) = 0 := by
        simp [Optimisation.sign]
      simp only [if_neg hP2, if_pos hP, hs, neg_zero, zero_mul, add_zero, and_self]
    · intro hP
      have hP1 : ¬ P > 0 := by rw [hP]; exact lt_irrefl 0
      have hP2 : ¬ P < 0 := by rw [hP]; exact lt_irrefl 0
      rw [if_neg hP1, if_neg hP2]
    · intro hP
      have hgrad : (if P > 0 then -g j else if P < 0 then 0 else -g j) = -g j := by
        by_cases hP1 : P > 0
        · rw [if_pos hP1]
        · rw [if_neg hP1, if_neg hP]
      rw [hgrad]
      refine ⟨?_, ?_, ?_, rfl⟩
      · intro hgj
        have a1 : ¬ (-g j > 0) := by
          intro h
          have : g j < 0 := neg_pos.mp h
          exact lt_asymm hgj this
        have a2 : -g j < 0 := neg_lt_zero.mpr hgj
        simp only [Optimisation.sign, if_neg a1, if_pos a2]
        ring
      · intro hgj
        have a1 : -g j > 0 := neg_pos.mpr hgj
        simp only [Optimisation.sign, if_pos a1]
        ring
      · intro hgj
        have hs : Optimisation.sign (-g j) = 0 := by
          rw [hgj]
          simp [Optimisation.sign]
        rw [hs, neg_zero, zero_mul, add_zero]

/-- C30, instance: the default parameters of the optimiser satisfy the assumptions; with
the likelihood `−(p − 1)²` started at `p = 0` the step size is within
`[1e-6, 50]` after `find`, and after the first iteration the parameter has moved up by
the step size `0.1`. -/
theorem find_step_sizes_witness :
    ((1e-6 : ℚ) ≤ (find Rat.sqrt Optimisation.setToDefault parabola (fun _ => 0) ()).2.delta 0 ∧
      (find Rat.sqrt Optimisation.setToDefault parabola (fun _ => 0) ()).2.delta 0 ≤ 50) ∧
    (findLoop Rat.sqrt Optimisation.setToDefault parabola 1
        (findInit Optimisation.setToDefault (fun _ => 0) ())).2.delta 0 = 1 * 0.1 ∧
    (findLoop Rat.sqrt Optimisation.setToDefault parabola 1
        (findInit Optimisation.setToDefault (fun _ => 0) ())).2.params 0
      = 0 + (findLoop Rat.sqrt Optimisation.setToDefault parabola 1
        (findInit Optimisation.setToDefault (fun _ => 0) ())).2.delta 0 :=
  have h := find_step_sizes Rat.sqrt Optimisation.setToDefault parabola
    (by norm_num [Optimisation.setToDefault]) (by norm_num [Optimisation.setToDefault])
    (by norm_num [Optimisation.setToDefault]) (by norm_num [Optimisation.setToDefault])
    (by norm_num [Optimisation.setToDefault])
  have h3 := h.2.2 (findInit Optimisation.setToDefault (fun _ => 0) ())
    (fun _ => -2 * (0 - 1)) ()
    (by
      intro i
      simp only [findInit]
      norm_num [Optimisation.setToDefault])
    rfl 0 (by decide)
  ⟨h.2.1 (fun _ => 0) () 0,
    h3.2.2.2.1 (by simp [findInit]),
    (h3.2.2.2.2 (by simp [findInit])).1 (by norm_num)⟩

end FindSteps

end gp

namespace gp

/-! ## The result of `find` -/

section FindBest
variable {σ α : Type} [LinearOrderedField α]

end FindBest

/-- One iteration of `find` on the likelihood `−(p − 1)²` from `p = 0` with the default
step size: the parameter moves to `0.1`, where the likelihood is `−0.81`, and `find`
leaves it in the covariance. -/
theorem find_parabola_one_iteration :
    (find Rat.sqrt { Optimisation.setToDefault with maxIter := 1 } parabola (fun _ => 0) ()).1
      = Except.ok () ∧
    (find Rat.sqrt { Optimisation.setToDefault with maxIter := 1 } parabola
      (fun _ => 0) ()).2.loghyper 0 = 1 / 10 ∧
    (find Rat.sqrt { Optimisation.setToDefault with maxIter := 1 } parabola
      (fun _ => 0) ()).2.best = some (-81 / 100) := by
  have hs : Rat.sqrt 4 = 2 := by norm_num
  have h3 : List.range 1 = [0] := rfl
  simp only [find, findLoop, findInit, parabola, Optimisation.setToDefault, h3,
    List.foldl_cons, List.foldl_nil, findUpdate, Finset.sum_range_one]
  norm_num [Optimisation.sign, exceedsBest, Function.update, hs]

end gp

namespace gp

/-- Row `3` of the factor that `compute` leaves on the four-target sample set with
noise `3`: the augmented kernel matrix is `diag(4, 0, 0, 0)`, so the row is zero. -/
theorem compute_fourTargets_L_row3 (k : Nat) (hk : k ≤ 3) :
    (compute ratNumerics (freshGP 3 (fun _ _ => 0) fourTargets)).L 3 k = 0 := by
  rw [compute_L_of_changed _ _ rfl]
  have hn : (freshGP 3 (fun _ _ => 0) fourTargets).sampleset.rows = 1 := rfl
  have hcf : (freshGP 3 (fun _ _ => 0) fourTargets).cf = thinPlateCov 3 := rfl
  simp only [hn, hcf]
  have h3 : k = 0 ∨ k = 1 ∨ k = 2 ∨ k = 3 := by omega
  rcases h3 with h | h | h | h <;> subst h <;>
    simp [lltBlock, llt_row, solveLower, computeDiffBlock_apply, computeValueBlock_apply,
      thinPlateCov, ratNumerics]

/-- C27, evaluation at the refuting state: after `compute` on the sample set with one
point and the four targets `5, 0, 0, 1` (thin-plate covariance with vanishing derivative
overloads, noise `3`) the flag `alpha_needs_update` is set and the target vector has
`4n = 4` entries, so `update_alpha` returns; but row `3` of `L` is zero, so row `3` of
`L·Lᵀ·alpha` is `0` for the `alpha` it leaves, while the target is `1`: `alpha` is not
a solution of `L·Lᵀ·alpha = y`. -/
theorem update_alpha_singular_factor :
    (compute ratNumerics (freshGP 3 (fun _ _ => 0) fourTargets)).alpha_needs_update = true ∧
    (compute ratNumerics (freshGP 3 (fun _ _ => 0) fourTargets)).sampleset.y.length
      = 4 * (compute ratNumerics (freshGP 3 (fun _ _ => 0) fourTargets)).sampleset.rows ∧
    (update_alpha (compute ratNumerics (freshGP 3 (fun _ _ => 0) fourTargets))).1
      = Except.ok () ∧
    (update_alpha (compute ratNumerics (freshGP 3 (fun _ _ => 0) fourTargets))).2.L 3 3 = 0 ∧
    ¬ AlphaValid (update_alpha (compute ratNumerics (freshGP 3 (fun _ _ => 0) fourTargets))).2 := by
  have h1 : (compute ratNumerics (freshGP 3 (fun _ _ => 0) fourTargets)).alpha_needs_update
      = true := by
    rw [compute_alpha_needs_update]; rfl
  have h2 : (compute ratNumerics (freshGP 3 (fun _ _ => 0) fourTargets)).sampleset.y.length
      = 4 * (compute ratNumerics (freshGP 3 (fun _ _ => 0) fourTargets)).sampleset.rows := by
    rw [compute_sampleset]; rfl
  refine ⟨h1, h2, ?_, ?_, ?_⟩
  · rw [update_alpha_recomputes _ h1 h2]
  · rw [update_alpha_recomputes _ h1 h2]
    exact compute_fourTargets_L_row3 3 le_rfl
  · rw [update_alpha_recomputes _ h1 h2]
    rintro ⟨_, _, h⟩
    have h3 := h 3 (by rw [compute_sampleset]; decide)
    simp only [compute_sampleset] at h3
    have hn : (freshGP 3 (fun _ _ => 0) fourTargets).sampleset.rows = 1 := rfl
    have hy : targetVec (freshGP 3 (fun _ _ => 0) fourTargets).sampleset 3 = 1 := rfl
    rw [hn, hy] at h3
    have hz : ∀ j, ∑ k in Finset.range (4 * 1),
        lowerView (compute ratNumerics (freshGP 3 (fun _ _ => 0) fourTargets)).L 3 k
          * lowerView (compute ratNumerics (freshGP 3 (fun _ _ => 0) fourTargets)).L j k = 0 := by
      intro j
      apply Finset.sum_eq_zero
      intro k _
      unfold lowerView
      by_cases hk : k ≤ 3
      · rw [if_pos hk, compute_fourTargets_L_row3 k hk, zero_mul]
      · rw [if_neg hk, zero_mul]
    simp only [hz, zero_mul, Finset.sum_const_zero] at h3
    exact zero_ne_one h3

/-- C27, as the code has it: when `alpha_needs_update` is `true`, `update_alpha` raises
"Target and alpha vector have a size dismatch" if and only if the number of stored
targets differs from `4n`.  Otherwise it returns, leaves `L` and the sample set as they
are, clears the flag, and sets `alpha`, of `4n` entries, to the result of the forward
substitution of the targets through the lower triangle of the `4n × 4n` block of `L`
followed by the back substitution through its transpose; this `alpha` is the solution of
`L·Lᵀ·alpha = y` on the block whenever the diagonal of the block has no zero.  In
particular, on a sample set with `n ≥ 1` samples and exactly one target per sample
`f(x*)` raises for every `x*`. -/
theorem update_alpha_spec {α : Type} [Field α] (g : GaussianProcess α)
    (h1 : g.alpha_needs_update = true) :
    ((update_alpha g).1 = Except.error "Target and alpha vector have a size dismatch"
      ↔ g.sampleset.y.length ≠ 4 * g.sampleset.rows) ∧
    (g.sampleset.y.length = 4 * g.sampleset.rows →
      (update_alpha g).1 = Except.ok () ∧
      (update_alpha g).2.L = g.L ∧ (update_alpha g).2.sampleset = g.sampleset ∧
      (update_alpha g).2.alphaSize = 4 * g.sampleset.rows ∧
      (update_alpha g).2.alpha_needs_update = false ∧
      (update_alpha g).2.alpha
        = solveUpperT g.L (solveLower g.L (targetVec g.sampleset) (4 * g.sampleset.rows))
            (4 * g.sampleset.rows) (4 * g.sampleset.rows) ∧
      ((∀ i, i < 4 * g.sampleset.rows → g.L i i ≠ 0) → AlphaValid (update_alpha g).2)) ∧
    (∀ (num : Numerics α) (xStar : Vec3 α),
      1 ≤ g.sampleset.rows → g.sampleset.y.length = g.sampleset.rows →
      (f num g xStar).1 = Except.error "Target and alpha vector have a size dismatch") := by
  refine ⟨?_, ?_, ?_⟩
  · constructor
    · intro he hy
      rw [update_alpha_recomputes g h1 hy] at he
      exact absurd he (by simp)
    · intro hy
      rw [update_alpha_raises g h1 hy]
      rfl
  · intro hy
    rw [update_alpha_recomputes g h1 hy]
    refine ⟨rfl, rfl, rfl, rfl, rfl, rfl, ?_⟩
    intro hd
    refine ⟨rfl, hy, ?_⟩
    intro i hi
    exact solve_LLt g.L (targetVec g.sampleset) (4 * g.sampleset.rows) hd i hi
  · intro num xStar hn hy
    apply f_raises num g xStar
    · cases hX : g.sampleset.X with
      | nil => simp [SampleSet.rows, hX] at hn
      | cons a l => simp [SampleSet.empty, hX]
    · rw [compute_alpha_needs_update, h1, Bool.or_true]
    · omega

/-- C27, instance: a fresh engine on one sample with one target raises in `update_alpha`
and in `f`; a fresh engine on one sample with four targets whose `L` holds ones returns
from `update_alpha` with a valid `alpha`. -/
theorem update_alpha_spec_witness :
    (update_alpha (freshGP 0 (fun _ _ => 0) (sampleSetOf [p0] [5]))).1
      = Except.error "Target and alpha vector have a size dismatch" ∧
    (f ratNumerics (freshGP 0 (fun _ _ => 0) (sampleSetOf [p0] [5])) p1).1
      = Except.error "Target and alpha vector have a size dismatch" ∧
    (update_alpha (freshGP 0 (fun _ _ => 1) fourTargets)).1 = Except.ok () ∧
    AlphaValid (update_alpha (freshGP 0 (fun _ _ => 1) fourTargets)).2 :=
  ⟨(update_alpha_spec (freshGP 0 (fun _ _ => 0) (sampleSetOf [p0] [5])) rfl).1.mpr (by decide),
    (update_alpha_spec (freshGP 0 (fun _ _ => 0) (sampleSetOf [p0] [5])) rfl).2.2
      ratNumerics p1 (by decide) rfl,
    ((update_alpha_spec (freshGP 0 (fun _ _ => 1) fourTargets) rfl).2.1 rfl).1,
    ((update_alpha_spec (freshGP 0 (fun _ _ => 1) fourTargets) rfl).2.1 rfl).2.2.2.2.2.2
      (by intro i _; exact one_ne_zero)⟩

end gp

namespace gp_atlas_rrt

/-! ## The run of the projection, iteration by iteration -/

section ProjectRuns
variable {μ α : Type} [LinearOrderedRing α]

/-- The iterates are those of the step of the loop. -/
theorem projectIterate_eq (ev : Vector3d α → α) (normal : Vector3d α) (step_mul : α)
    (inp : Vector3d α) (k : Nat) :
    projectIterate ev normal step_mul inp k = (projectStep ev normal step_mul)^[k] inp := by
  induction k with
  | zero => rfl
  | succ k ih =>
    rw [Function.iterate_succ_apply', ← ih]
    rfl

/-- The iterates from the stepped point are the later iterates from the point. -/
theorem projectIterate_step (ev : Vector3d α → α) (normal : Vector3d α) (step_mul : α)
    (inp : Vector3d α) (k : Nat) :
    projectIterate ev normal step_mul (projectStep ev normal step_mul inp) k
      = projectIterate ev normal step_mul inp (k + 1) := by
  rw [projectIterate_eq, projectIterate_eq, Function.iterate_succ_apply]

/-- The sum form of the iterates: `c_m = in − step_mul·(Σ_{k<m} f(c_k))·normal`. -/
theorem projectIterate_sum (ev : Vector3d α → α) (normal : Vector3d α) (step_mul : α)
    (inp : Vector3d α) (m : Nat) (i : Fin 3) :
    projectIterate ev normal step_mul inp m i
      = inp i - step_mul
          * (∑ k in Finset.range m, ev (projectIterate ev normal step_mul inp k)) * normal i := by
  induction m with
  | zero => simp [projectIterate]
  | succ m ih =>
    rw [Finset.sum_range_succ]
    show projectIterate ev normal step_mul inp m i
        - step_mul * ev (projectIterate ev normal step_mul inp m) * normal i = _
    rw [ih, mul_add, add_mul, sub_sub]

/-- The loop when no criterion fires in any of its `k` iterations: it leaves through the
iteration cap with the `k`-th iterate, after `2k` evaluations. -/
theorem projectLoop_cap (ev : Vector3d α → α) (normal : Vector3d α)
    (f_tol improve_tol step_mul : α) (k iter evals : Nat) (current : Vector3d α)
    (hno : ∀ l, l < k →
      ¬ |ev (projectIterate ev normal step_mul current l)| < f_tol ∧
      ¬ |ev (projectIterate ev normal step_mul current (l + 1))
          - ev (projectIterate ev normal step_mul current l)| < improve_tol) :
    projectLoop ev normal f_tol improve_tol step_mul k iter evals current
      = { out := projectIterate ev normal step_mul current k
          stop := Convergence.maximumIterations, iter := iter + k, evals := evals + 2 * k } := by
  induction k generalizing iter evals current with
  | zero => rfl
  | succ k ih =>
    have h0 := hno 0 (Nat.succ_pos k)
    have h1 : ¬ |ev current| < f_tol := h0.1
    have h2 : ¬ |ev (projectStep ev normal step_mul current) - ev current| < improve_tol := h0.2
    have e : projectLoop ev normal f_tol improve_tol step_mul (k + 1) iter evals current
        = projectLoop ev normal f_tol improve_tol step_mul k (iter + 1) (evals + 2)
            (projectStep ev normal step_mul current) := by
      simp [projectLoop, h1, h2]
    rw [e, ih (iter + 1) (evals + 2) (projectStep ev normal step_mul current)
      (fun l hl => by
        rw [projectIterate_step, projectIterate_step]
        exact hno (l + 1) (by omega))]
    rw [projectIterate_step]
    congr 1 <;> omega

/-- The loop when iteration `j` is the first in which a criterion fires: through the
function-value criterion it leaves with the iterate `c_j` after `2j + 1` evaluations,
through the stall criterion with the stepped point `c_(j+1)` after `2j + 2`. -/
theorem projectLoop_fires (ev : Vector3d α → α) (normal : Vector3d α)
    (f_tol improve_tol step_mul : α) (j : Nat) :
    ∀ (k iter evals : Nat) (current : Vector3d α), j < k →
    (∀ l, l < j →
      ¬ |ev (projectIterate ev normal step_mul current l)| < f_tol ∧
      ¬ |ev (projectIterate ev normal step_mul current (l + 1))
          - ev (projectIterate ev normal step_mul current l)| < improve_tol) →
    (|ev (projectIterate ev normal step_mul current j)| < f_tol →
      projectLoop ev normal f_tol improve_tol step_mul k iter evals current
        = { out := projectIterate ev normal step_mul current j
            stop := Convergence.functionTolerance, iter := iter + j
            evals := evals + 2 * j + 1 }) ∧
    (¬ |ev (projectIterate ev normal step_mul current j)| < f_tol →
      |ev (projectIterate ev normal step_mul current (j + 1))
          - ev (projectIterate ev normal step_mul current j)| < improve_tol →
      projectLoop ev normal f_tol improve_tol step_mul k iter evals current
        = { out := projectIterate ev normal step_mul current (j + 1)
            stop := Convergence.improvementTolerance, iter := iter + j
            evals := evals + 2 * j + 2 }) := by
  induction j with
  | zero =>
    intro k iter evals current hk _
    obtain ⟨k, rfl⟩ : ∃ k2, k = k2 + 1 := ⟨k - 1, by omega⟩
    constructor
    · intro hf
      have hf2 : |ev current| < f_tol := hf
      simp [projectLoop, hf2, projectIterate]
    · intro hf hs
      have hf2 : ¬ |ev current| < f_tol := hf
      have hs2 : |ev (projectStep ev normal step_mul current) - ev current| < improve_tol := hs
      simp [projectLoop, hf2, hs2, projectIterate]
      rfl
  | succ j ih =>
    intro k iter evals current hk hno
    obtain ⟨k, rfl⟩ : ∃ k2, k = k2 + 1 := ⟨k - 1, by omega⟩
    have h0 := hno 0 (Nat.succ_pos j)
    have h1 : ¬ |ev current| < f_tol := h0.1
    have h2 : ¬ |ev (projectStep ev normal step_mul current) - ev current| < improve_tol := h0.2
    have e : projectLoop ev normal f_tol improve_tol step_mul (k + 1) iter evals current
        = projectLoop ev normal f_tol improve_tol step_mul k (iter + 1) (evals + 2)
            (projectStep ev normal step_mul current) := by
      simp [projectLoop, h1, h2]
    have ih2 := ih k (iter + 1) (evals + 2) (projectStep ev normal step_mul current) (by omega)
      (fun l hl => by
        rw [projectIterate_step, projectIterate_step]
        exact hno (l + 1) (by omega))
    rw [projectIterate_step, projectIterate_step] at ih2
    rw [e]
    constructor
    · intro hf
      rw [ih2.1 hf]
      congr 1 <;> omega
    · intro hf hs
      rw [ih2.2 hf hs]
      congr 1 <;> omega

/-- With a regressor in place `project` returns the run of its loop and assigns its
point to `out`. -/
theorem project_of_regressor (a : AtlasBase μ α) (reg : Regressor μ α)
    (inp out normal : Vector3d α) (f_tol improve_tol : α) (max_iter : Nat) (step_mul : α)
    (hreg : a.gp_reg = some reg) :
    a.project inp out normal f_tol improve_tol max_iter step_mul
      = (Except.ok (projectLoop (reg.evaluate a.gp_model) normal f_tol improve_tol step_mul
            max_iter 0 0 inp),
          (projectLoop (reg.evaluate a.gp_model) normal f_tol improve_tol step_mul
            max_iter 0 0 inp).out) := by
  simp [AtlasBase.project, hreg]

/-- C6: with a non-null regressor `project` does not raise and assigns `out`, for every
input point, normal, tolerances, `step_mul`, `max_iter` and evaluation function.  The
run is determined by the iterates `c_0 = in`, `c_(k+1) = c_k − step_mul·f(c_k)·normal`:
if in none of the `max_iter` iterations a criterion fires (`|f(c_k)| < f_tol`, or
`|f(c_(k+1)) − f(c_k)| < improve_tol`), `max_iter` iterations are made with
`2·max_iter` evaluations and `out` is the last iterate `c_max_iter`; if iteration
`j < max_iter` is the first in which one fires, the loop is left in that iteration,
after `2j + 1` evaluations with `out = c_j` (function value) or after `2j + 2`
evaluations with `out = c_(j+1)` (stall).  In every case at most `max_iter` iterations
and at most `2·max_iter` evaluations are made. -/
theorem project_terminates (a : AtlasBase μ α) (reg : Regressor μ α)
    (inp out normal : Vector3d α) (f_tol improve_tol : α) (max_iter : Nat) (step_mul : α)
    (hreg : a.gp_reg = some reg) :
    ∃ run : ProjectRun α,
      a.project inp out normal f_tol improve_tol max_iter step_mul = (Except.ok run, run.out) ∧
      run.iter ≤ max_iter ∧ run.evals ≤ 2 * max_iter ∧
      ((∀ k, k < max_iter →
          ¬ |reg.evaluate a.gp_model
              (projectIterate (reg.evaluate a.gp_model) normal step_mul inp k)| < f_tol ∧
          ¬ |reg.evaluate a.gp_model
                (projectIterate (reg.evaluate a.gp_model) normal step_mul inp (k + 1))
              - reg.evaluate a.gp_model
                (projectIterate (reg.evaluate a.gp_model) normal step_mul inp k)| < improve_tol) →
        run = { out := projectIterate (reg.evaluate a.gp_model) normal step_mul inp max_iter
                stop := Convergence.maximumIterations
                iter := max_iter, evals := 2 * max_iter }) ∧
      (∀ j, j < max_iter →
        (∀ k, k < j →
          ¬ |reg.evaluate a.gp_model
              (projectIterate (reg.evaluate a.gp_model) normal step_mul inp k)| < f_tol ∧
          ¬ |reg.evaluate a.gp_model
                (projectIterate (reg.evaluate a.gp_model) normal step_mul inp (k + 1))
              - reg.evaluate a.gp_model
                (projectIterate (reg.evaluate a.gp_model) normal step_mul inp k)| < improve_tol) →
        (|reg.evaluate a.gp_model
            (projectIterate (reg.evaluate a.gp_model) normal step_mul inp j)| < f_tol →
          run = { out := projectIterate (reg.evaluate a.gp_model) normal step_mul inp j
                  stop := Convergence.functionTolerance, iter := j, evals := 2 * j + 1 }) ∧
        (¬ |reg.evaluate a.gp_model
            (projectIterate (reg.evaluate a.gp_model) normal step_mul inp j)| < f_tol →
          |reg.evaluate a.gp_model
                (projectIterate (reg.evaluate a.gp_model) normal step_mul inp (j + 1))
              - reg.evaluate a.gp_model
                (projectIterate (reg.evaluate a.gp_model) normal step_mul inp j)| < improve_tol →
          run = { out := projectIterate (reg.evaluate a.gp_model) normal step_mul inp (j + 1)
                  stop := Convergence.improvementTolerance
                  iter := j, evals := 2 * j + 2 })) := by
  refine ⟨projectLoop (reg.evaluate a.gp_model) normal f_tol improve_tol step_mul
      max_iter 0 0 inp, project_of_regressor a reg inp out normal f_tol improve_tol max_iter
      step_mul hreg, ?_, ?_, ?_, ?_⟩
  · have h := projectLoop_bounds (reg.evaluate a.gp_model) normal f_tol improve_tol step_mul
      max_iter 0 0 inp
    simp only [Nat.zero_add] at h
    exact h.1
  · have h := projectLoop_bounds (reg.evaluate a.gp_model) normal f_tol improve_tol step_mul
      max_iter 0 0 inp
    simp only [Nat.zero_add] at h
    exact h.2.1
  · intro hno
    rw [projectLoop_cap _ _ _ _ _ _ _ _ _ hno]
    simp
  · intro j hj hno
    have h := projectLoop_fires (reg.evaluate a.gp_model) normal f_tol improve_tol step_mul j
      max_iter 0 0 inp hj hno
    constructor
    · intro hf
      rw [h.1 hf]
      simp
    · intro hf hs
      rw [h.2 hf hs]
      simp

/-- C6, instance: on the atlas whose regressor returns the first coordinate, the run from
`(8, 0, 0)` along `(1, 0, 0)` with `step_mul = 3`, zero tolerances and `max_iter = 2`
passes `8, −16, 32`: no criterion fires, and `out` is the second iterate `(32, 0, 0)`
after `2` iterations and `4` evaluations. -/
theorem project_terminates_witness :
    ∃ run : ProjectRun ℤ,
      lineAtlas.project ![8, 0, 0] ![9, 9, 9] ![1, 0, 0] 0 0 2 3 = (Except.ok run, run.out) ∧
      run.iter ≤ 2 ∧ run.evals ≤ 2 * 2 ∧
      run = { out := projectIterate (fun p : Vector3d ℤ => p 0) ![1, 0, 0] 3 ![8, 0, 0] 2
              stop := Convergence.maximumIterations, iter := 2, evals := 2 * 2 } ∧
      run.out 0 = 32 := by
  obtain ⟨run, h1, h2, h3, h4, _⟩ := project_terminates lineAtlas
    { evaluate := fun _ p => p 0 } ![8, 0, 0] ![9, 9, 9] ![1, 0, 0] 0 0 2 3 rfl
  have h5 := h4 (by
    intro k hk
    have hk2 : k = 0 ∨ k = 1 := by omega
    rcases hk2 with h | h <;> subst h <;> simp [projectIterate])
  refine ⟨run, h1, h2, h3, h5, ?_⟩
  rw [h5]
  simp [projectIterate]

end ProjectRuns

end gp_atlas_rrt

namespace gp_atlas_rrt

section ProjectSum
variable {μ α : Type} [LinearOrderedRing α]

/-- C23: the point `project` returns is built from the steps
`c_(k+1) = c_k − step_mul·f(c_k)·normal` of the iterates from `c_0 = in`, with the
caller-supplied `normal`.  If iteration `j` is the first in which the function-value
criterion `|f(c_j)| < f_tol` fires, or if `j = max_iter` and no criterion fires before,
then `out = c_j = in − step_mul·(Σ_{k<j} f(c_k))·normal`.  If iteration `j` is the first
in which a criterion fires and it is the stall criterion
`|f(c_(j+1)) − f(c_j)| < improve_tol`, then `out` is the stepped point
`c_(j+1) = c_j − step_mul·f(c_j)·normal = in − step_mul·(Σ_{k≤j} f(c_k))·normal`, not
`c_j`.  In every case `out = in − step_mul·(Σ_{k<m} f(c_k))·normal` for some
`m ≤ max_iter`. -/
theorem project_step_sum (a : AtlasBase μ α) (reg : Regressor μ α)
    (inp out normal : Vector3d α) (f_tol improve_tol : α) (max_iter : Nat) (step_mul : α)
    (hreg : a.gp_reg = some reg) :
    ∃ run : ProjectRun α,
      a.project inp out normal f_tol improve_tol max_iter step_mul = (Except.ok run, run.out) ∧
      (∃ m, m ≤ max_iter ∧ ∀ i, run.out i
        = inp i - step_mul
            * (∑ k in Finset.range m, reg.evaluate a.gp_model
                (projectIterate (reg.evaluate a.gp_model) normal step_mul inp k))
            * normal i) ∧
      (∀ j, j ≤ max_iter →
        (∀ k, k < j →
          ¬ |reg.evaluate a.gp_model
              (projectIterate (reg.evaluate a.gp_model) normal step_mul inp k)| < f_tol ∧
          ¬ |reg.evaluate a.gp_model
                (projectIterate (reg.evaluate a.gp_model) normal step_mul inp (k + 1))
              - reg.evaluate a.gp_model
                (projectIterate (reg.evaluate a.gp_model) normal step_mul inp k)| < improve_tol) →
        (j = max_iter ∨
          |reg.evaluate a.gp_model
            (projectIterate (reg.evaluate a.gp_model) normal step_mul inp j)| < f_tol) →
        run.stop ≠ Convergence.improvementTolerance ∧
        run.out = projectIterate (reg.evaluate a.gp_model) normal step_mul inp j ∧
        ∀ i, run.out i
          = inp i - step_mul
              * (∑ k in Finset.range j, reg.evaluate a.gp_model
                  (projectIterate (reg.evaluate a.gp_model) normal step_mul inp k))
              * normal i) ∧
      (∀ j, j < max_iter →
        (∀ k, k < j →
          ¬ |reg.evaluate a.gp_model
              (projectIterate (reg.evaluate a.gp_model) normal step_mul inp k)| < f_tol ∧
          ¬ |reg.evaluate a.gp_model
                (projectIterate (reg.evaluate a.gp_model) normal step_mul inp (k + 1))
              - reg.evaluate a.gp_model
                (projectIterate (reg.evaluate a.gp_model) normal step_mul inp k)| < improve_tol) →
        ¬ |reg.evaluate a.gp_model
            (projectIterate (reg.evaluate a.gp_model) normal step_mul inp j)| < f_tol →
        |reg.evaluate a.gp_model
              (projectIterate (reg.evaluate a.gp_model) normal step_mul inp (j + 1))
            - reg.evaluate a.gp_model
              (projectIterate (reg.evaluate a.gp_model) normal step_mul inp j)| < improve_tol →
        run.stop = Convergence.improvementTolerance ∧
        run.out = projectIterate (reg.evaluate a.gp_model) normal step_mul inp (j + 1) ∧
        (∀ i, run.out i
          = projectIterate (reg.evaluate a.gp_model) normal step_mul inp j i
            - step_mul * reg.evaluate a.gp_model
                (projectIterate (reg.evaluate a.gp_model) normal step_mul inp j) * normal i) ∧
        ∀ i, run.out i
          = inp i - step_mul
              * (∑ k in Finset.range (j + 1), reg.evaluate a.gp_model
                  (projectIterate (reg.evaluate a.gp_model) normal step_mul inp k))
              * normal i) := by
  refine ⟨projectLoop (reg.evaluate a.gp_model) normal f_tol improve_tol step_mul
      max_iter 0 0 inp, project_of_regressor a reg inp out normal f_tol improve_tol max_iter
      step_mul hreg, ?_, ?_, ?_⟩
  · obtain ⟨m, hm, hout, _, _⟩ := projectLoop_steps (reg.evaluate a.gp_model) normal
      f_tol improve_tol step_mul max_iter 0 0 inp
    refine ⟨m, hm, fun i => ?_⟩
    rw [hout, ← projectIterate_eq]
    exact projectIterate_sum _ _ _ _ _ _
  · intro j hj hno hcase
    have hrun : (projectLoop (reg.evaluate a.gp_model) normal f_tol improve_tol step_mul
          max_iter 0 0 inp).stop ≠ Convergence.improvementTolerance ∧
        (projectLoop (reg.evaluate a.gp_model) normal f_tol improve_tol step_mul
          max_iter 0 0 inp).out
          = projectIterate (reg.evaluate a.gp_model) normal step_mul inp j := by
      by_cases hf : |reg.evaluate a.gp_model
          (projectIterate (reg.evaluate a.gp_model) normal step_mul inp j)| < f_tol
      · by_cases hjm : j = max_iter
        · subst hjm
          rw [projectLoop_cap _ _ _ _ _ _ _ _ _ hno]
          exact ⟨by simp, rfl⟩
        · rw [(projectLoop_fires (reg.evaluate a.gp_model) normal f_tol improve_tol step_mul j
            max_iter 0 0 inp (by omega) hno).1 hf]
          exact ⟨by simp, rfl⟩
      · rcases hcase with hjm | hf2
        · subst hjm
          rw [projectLoop_cap _ _ _ _ _ _ _ _ _ hno]
          exact ⟨by simp, rfl⟩
        · exact absurd hf2 hf
    refine ⟨hrun.1, hrun.2, fun i => ?_⟩
    rw [hrun.2]
    exact projectIterate_sum _ _ _ _ _ _
  · intro j hj hno hf hs
    have h := (projectLoop_fires (reg.evaluate a.gp_model) normal f_tol improve_tol step_mul j
      max_iter 0 0 inp hj hno).2 hf hs
    rw [h]
    refine ⟨rfl, rfl, fun i => rfl, fun i => ?_⟩
    exact projectIterate_sum _ _ _ _ _ _

/-- C23, instance: on the atlas whose regressor returns the first coordinate, the run
from `(8, 0, 0)` along `(1, 0, 0)` with `step_mul = 3`, `f_tol = 0`, `improve_tol = 100`
and `max_iter = 2`: the stall criterion fires in the first iteration
(`|−16 − 8| < 100`), and `out` is the stepped point `(−16, 0, 0)`, not `(8, 0, 0)`. -/
theorem project_step_sum_witness :
    ∃ run : ProjectRun ℤ,
      lineAtlas.project ![8, 0, 0] ![9, 9, 9] ![1, 0, 0] 0 100 2 3 = (Except.ok run, run.out) ∧
      run.stop = Convergence.improvementTolerance ∧
      run.out = projectIterate (fun p : Vector3d ℤ => p 0) ![1, 0, 0] 3 ![8, 0, 0] 1 ∧
      run.out 0 = 8 - 3 * 8 * 1 := by
  obtain ⟨run, h1, _, _, h4⟩ := project_step_sum lineAtlas
    { evaluate := fun _ p => p 0 } ![8, 0, 0] ![9, 9, 9] ![1, 0, 0] 0 100 2 3 rfl
  have h5 := h4 0 (by decide) (fun k hk => absurd hk (Nat.not_lt_zero k))
    (by simp [projectIterate]) (by simp [projectIterate])
  refine ⟨run, h1, h5.1, h5.2.1, ?_⟩
  have h6 := h5.2.2.1 0
  simpa [projectIterate] using h6

end ProjectSum

end gp_atlas_rrt

namespace gp

section FindTrace
variable {σ α : Type} [LinearOrderedField α]

end FindTrace

end gp

namespace gp

section FindSpec
variable {σ α : Type} [LinearOrderedField α]

end FindSpec

end gp

namespace GaussianProcessNode

section Rounding
variable {α : Type} [LinearOrderedField α] [FloorRing α]

/-- Rounding a positive number: if `x·2^K` lies in `[2^52, 2^53)` and within less than
one half of the integer `n`, the result is `n / 2^K`. -/
theorem roundDouble_of_pos (x : α) (K : Nat) (n : ℤ) (h1 : (2 : α) ^ 52 ≤ x * 2 ^ K)
    (h2 : x * 2 ^ K < 2 ^ 53) (h3 : (n : α) - 1 / 2 < x * 2 ^ K)
    (h4 : x * 2 ^ K < (n : α) + 1 / 2) :
    roundDouble x = (n : α) / 2 ^ K := by
  have hK : (0 : α) < 2 ^ K := by positivity
  have hx : 0 < x := by
    by_contra h
    have hx0 : x ≤ 0 := not_lt.mp h
    have : x * 2 ^ K ≤ 0 := mul_nonpos_of_nonpos_of_nonneg hx0 hK.le
    have h52 : (0 : α) < 2 ^ 52 := by positivity
    linarith
  have habs : |x| = x := abs_of_pos hx
  have hlog : Int.log 2 x = 52 - (K : ℤ) := by
    apply le_antisymm
    · have : Int.log 2 x < 52 - (K : ℤ) + 1 := by
        rw [← Int.lt_zpow_iff_log_lt (by norm_num) hx]
        have e : ((2 : ℕ) : α) ^ (52 - (K : ℤ) + 1) = 2 ^ 53 / 2 ^ K := by
          have : (52 - (K : ℤ) + 1) = (53 : ℕ) - (K : ℤ) := by push_cast; ring
          rw [this, zpow_sub₀ (by norm_num), zpow_natCast, zpow_natCast]
          norm_num
        rw [e, lt_div_iff₀ hK]
        exact h2
      omega
    · rw [← Int.zpow_le_iff_le_log (by norm_num) hx]
      have e : ((2 : ℕ) : α) ^ (52 - (K : ℤ)) = 2 ^ 52 / 2 ^ K := by
        have : (52 - (K : ℤ)) = (52 : ℕ) - (K : ℤ) := by push_cast; ring
        rw [this, zpow_sub₀ (by norm_num), zpow_natCast, zpow_natCast]
        norm_num
      rw [e, div_le_iff₀ hK]
      exact h1
  have hulp : (2 : α) ^ (Int.log 2 |x| - 52) = (2 ^ K)⁻¹ := by
    rw [habs, hlog]
    have : (52 - (K : ℤ) - 52) = -(K : ℤ) := by ring
    rw [this, zpow_neg, zpow_natCast]
  have hq : |x| / (2 : α) ^ (Int.log 2 |x| - 52) = x * 2 ^ K := by
    rw [hulp, habs, div_inv_eq_mul]
  unfold roundDouble
  rw [if_neg hx.ne', if_neg (not_lt.mpr hx.le)]
  simp only [hq]
  rw [hulp]
  have hn2 : (if x * 2 ^ K - (⌊x * 2 ^ K⌋ : α) < 1 / 2 then ⌊x * 2 ^ K⌋
      else if 1 / 2 < x * 2 ^ K - (⌊x * 2 ^ K⌋ : α) then ⌊x * 2 ^ K⌋ + 1
      else if ⌊x * 2 ^ K⌋ % 2 = 0 then ⌊x * 2 ^ K⌋ else ⌊x * 2 ^ K⌋ + 1) = n := by
    by_cases hfl : (n : α) ≤ x * 2 ^ K
    · have hf : ⌊x * 2 ^ K⌋ = n := by
        rw [Int.floor_eq_iff]
        exact ⟨hfl, by linarith⟩
      rw [hf, if_pos (by linarith)]
    · have hf : ⌊x * 2 ^ K⌋ = n - 1 := by
        rw [Int.floor_eq_iff]
        push_cast
        exact ⟨by linarith, by linarith [not_le.mp hfl]⟩
      rw [hf]
      push_cast
      rw [if_neg (by linarith), if_pos (by linarith)]
      ring
  rw [hn2]
  rw [div_eq_mul_inv]
  ring

/-- Rounding a negative number is the mirror image of rounding its opposite. -/
theorem roundDouble_of_neg (x : α) (K : Nat) (n : ℤ) (h1 : (2 : α) ^ 52 ≤ -x * 2 ^ K)
    (h2 : -x * 2 ^ K < 2 ^ 53) (h3 : (n : α) - 1 / 2 < -x * 2 ^ K)
    (h4 : -x * 2 ^ K < (n : α) + 1 / 2) :
    roundDouble x = -((n : α) / 2 ^ K) := by
  have hK : (0 : α) < 2 ^ K := by positivity
  have hx : x < 0 := by
    by_contra h
    have hx0 : 0 ≤ x := not_lt.mp h
    have : -x * 2 ^ K ≤ 0 := mul_nonpos_of_nonpos_of_nonneg (by linarith) hK.le
    have h52 : (0 : α) < 2 ^ 52 := by positivity
    linarith
  have hpos := roundDouble_of_pos (-x) K n h1 h2 h3 h4
  have hnx : 0 < -x := by linarith
  unfold roundDouble at hpos ⊢
  rw [if_neg hnx.ne', if_neg (not_lt.mpr hnx.le)] at hpos
  rw [if_neg hx.ne, if_pos hx]
  rw [abs_neg] at hpos
  rw [← hpos]
  ring

/-- Rounding a positive number that lies exactly halfway between two neighbours: the
neighbour with the even significand is taken. -/
theorem roundDouble_of_pos_tie (x : α) (K : Nat) (n : ℤ) (h1 : (2 : α) ^ 52 ≤ x * 2 ^ K)
    (h2 : x * 2 ^ K < 2 ^ 53) (hev : n % 2 = 0)
    (ht : x * 2 ^ K = (n : α) + 1 / 2 ∨ x * 2 ^ K = (n : α) - 1 / 2) :
    roundDouble x = (n : α) / 2 ^ K := by
  have hK : (0 : α) < 2 ^ K := by positivity
  have hx : 0 < x := by
    by_contra h
    have hx0 : x ≤ 0 := not_lt.mp h
    have : x * 2 ^ K ≤ 0 := mul_nonpos_of_nonpos_of_nonneg hx0 hK.le
    have h52 : (0 : α) < 2 ^ 52 := by positivity
    linarith
  have habs : |x| = x := abs_of_pos hx
  have hlog : Int.log 2 x = 52 - (K : ℤ) := by
    apply le_antisymm
    · have : Int.log 2 x < 52 - (K : ℤ) + 1 := by
        rw [← Int.lt_zpow_iff_log_lt (by norm_num) hx]
        have e : ((2 : ℕ) : α) ^ (52 - (K : ℤ) + 1) = 2 ^ 53 / 2 ^ K := by
          have : (52 - (K : ℤ) + 1) = (53 : ℕ) - (K : ℤ) := by push_cast; ring
          rw [this, zpow_sub₀ (by norm_num), zpow_natCast, zpow_natCast]
          norm_num
        rw [e, lt_div_iff₀ hK]
        exact h2
      omega
    · rw [← Int.zpow_le_iff_le_log (by norm_num) hx]
      have e : ((2 : ℕ) : α) ^ (52 - (K : ℤ)) = 2 ^ 52 / 2 ^ K := by
        have : (52 - (K : ℤ)) = (52 : ℕ) - (K : ℤ) := by push_cast; ring
        rw [this, zpow_sub₀ (by norm_num), zpow_natCast, zpow_natCast]
        norm_num
      rw [e, div_le_iff₀ hK]
      exact h1
  have hulp : (2 : α) ^ (Int.log 2 |x| - 52) = (2 ^ K)⁻¹ := by
    rw [habs, hlog]
    have : (52 - (K : ℤ) - 52) = -(K : ℤ) := by ring
    rw [this, zpow_neg, zpow_natCast]
  have hq : |x| / (2 : α) ^ (Int.log 2 |x| - 52) = x * 2 ^ K := by
    rw [hulp, habs, div_inv_eq_mul]
  unfold roundDouble
  rw [if_neg hx.ne', if_neg (not_lt.mpr hx.le)]
  simp only [hq]
  rw [hulp]
  have hn2 : (if x * 2 ^ K - (⌊x * 2 ^ K⌋ : α) < 1 / 2 then ⌊x * 2 ^ K⌋
      else if 1 / 2 < x * 2 ^ K - (⌊x * 2 ^ K⌋ : α) then ⌊x * 2 ^ K⌋ + 1
      else if ⌊x * 2 ^ K⌋ % 2 = 0 then ⌊x * 2 ^ K⌋ else ⌊x * 2 ^ K⌋ + 1) = n := by
    rcases ht with ht | ht
    · have hf : ⌊x * 2 ^ K⌋ = n := by
        rw [Int.floor_eq_iff]
        exact ⟨by linarith, by linarith⟩
      rw [hf, if_neg (by linarith), if_neg (by linarith), if_pos hev]
    · have hf : ⌊x * 2 ^ K⌋ = n - 1 := by
        rw [Int.floor_eq_iff]
        push_cast
        exact ⟨by linarith, by linarith⟩
      have hodd : ¬ ((n - 1) % 2 = 0) := by omega
      rw [hf]
      push_cast
      rw [if_neg (by linarith), if_neg (by linarith), if_neg hodd]
      ring
  rw [hn2]
  rw [div_eq_mul_inv]
  ring

/-- Rounding a negative number that lies exactly halfway between two neighbours. -/
theorem roundDouble_of_neg_tie (x : α) (K : Nat) (n : ℤ) (h1 : (2 : α) ^ 52 ≤ -x * 2 ^ K)
    (h2 : -x * 2 ^ K < 2 ^ 53) (hev : n % 2 = 0)
    (ht : -x * 2 ^ K = (n : α) + 1 / 2 ∨ -x * 2 ^ K = (n : α) - 1 / 2) :
    roundDouble x = -((n : α) / 2 ^ K) := by
  have hK : (0 : α) < 2 ^ K := by positivity
  have hx : x < 0 := by
    by_contra h
    have hx0 : 0 ≤ x := not_lt.mp h
    have : -x * 2 ^ K ≤ 0 := mul_nonpos_of_nonpos_of_nonneg (by linarith) hK.le
    have h52 : (0 : α) < 2 ^ 52 := by positivity
    linarith
  have hpos := roundDouble_of_pos_tie (-x) K n h1 h2 hev ht
  have hnx : 0 < -x := by linarith
  unfold roundDouble at hpos ⊢
  rw [if_neg hnx.ne', if_neg (not_lt.mpr hnx.le)] at hpos
  rw [if_neg hx.ne, if_pos hx]
  rw [abs_neg] at hpos
  rw [← hpos]
  ring

end Rounding


end GaussianProcessNode

namespace GaussianProcessNode

/-! ## The loop counters of `cb_start` in `double` arithmetic -/

/-- The constant `M_PI`: `π` rounded to `double`. -/
theorem roundDouble_pi : roundDouble Real.pi = 884279719003555 / 281474976710656 := by
  have h1 := Real.pi_gt_d20
  have h2 := Real.pi_lt_d20
  rw [roundDouble_of_pos Real.pi 51 7074237752028440 (by norm_num; linarith) (by norm_num; linarith)
    (by norm_num; linarith) (by norm_num; linarith)]
  norm_num

/-- The literal `0.06` as a `double`. -/
theorem roundDouble_radius :
    roundDouble (0.06 : ℝ) = 1080863910568919 / 18014398509481984 := by
  rw [roundDouble_of_pos
    (0.06 : ℝ)
    57 8646911284551352 (by norm_num) (by norm_num) (by norm_num) (by norm_num)]
  norm_num

/-- The angle step `M_PI * 2 / 24` of `cb_start`. -/
theorem ang_step_value :
    roundDouble (roundDouble (roundDouble Real.pi * 2) / 24)
      = 4716158501352293 / 18014398509481984 := by
  rw [roundDouble_pi]
  rw [roundDouble_of_pos
    ((884279719003555 / 281474976710656 : ℝ) * 2)
    50 7074237752028440 (by norm_num) (by norm_num) (by norm_num) (by norm_num)]
  rw [roundDouble_of_pos
    (((7074237752028440 : ℤ) : ℝ) / 2 ^ 50 / 24)
    54 4716158501352293 (by norm_num) (by norm_num) (by norm_num) (by norm_num)]
  norm_num

/-- The bound `2 * M_PI` of the angle loop. -/
theorem ang_bound_value :
    roundDouble (2 * roundDouble Real.pi) = 884279719003555 / 140737488355328 := by
  rw [roundDouble_pi]
  rw [roundDouble_of_pos
    (2 * (884279719003555 / 281474976710656 : ℝ))
    50 7074237752028440 (by norm_num) (by norm_num) (by norm_num) (by norm_num)]
  norm_num

/-- The height step `2 * radius / 20` of `cb_start`. -/
theorem lin_step_value :
    roundDouble (roundDouble (2 * roundDouble (0.06 : ℝ)) / 20)
      = 3458764513820541 / 576460752303423488 := by
  rw [roundDouble_radius]
  rw [roundDouble_of_pos
    (2 * (1080863910568919 / 18014398509481984 : ℝ))
    56 8646911284551352 (by norm_num) (by norm_num) (by norm_num) (by norm_num)]
  rw [roundDouble_of_pos
    (((8646911284551352 : ℤ) : ℝ) / 2 ^ 56 / 20)
    60 6917529027641082 (by norm_num) (by norm_num) (by norm_num) (by norm_num)]
  norm_num

/-- The first height `-radius + lin_step / 2` of `cb_start`. -/
theorem lin_start_value :
    roundDouble (-(1080863910568919 / 18014398509481984 : ℝ)
        + roundDouble (3458764513820541 / 576460752303423488 / 2))
      = (-(1026820715040473 / 18014398509481984)) := by
  rw [roundDouble_of_pos
    ((3458764513820541 / 576460752303423488 : ℝ) / 2)
    61 6917529027641082 (by norm_num) (by norm_num) (by norm_num) (by norm_num)]
  rw [roundDouble_of_neg
    (-(1080863910568919 / 18014398509481984 : ℝ) + ((6917529027641082 : ℤ) : ℝ) / 2 ^ 61)
    57 8214565720323784 (by norm_num) (by norm_num) (by norm_num) (by norm_num)]
  norm_num

/-- The angle counter of `cb_start`, accumulated in `double`: its first `26` values. -/
theorem angle_counter_values :
    (fun y : ℝ => roundDouble (y + 4716158501352293 / 18014398509481984))^[0] 0
      = 0 ∧
    (fun y : ℝ => roundDouble (y + 4716158501352293 / 18014398509481984))^[1] 0
      = 4716158501352293 / 18014398509481984 ∧
    (fun y : ℝ => roundDouble (y + 4716158501352293 / 18014398509481984))^[2] 0
      = 4716158501352293 / 9007199254740992 ∧
    (fun y : ℝ => roundDouble (y + 4716158501352293 / 18014398509481984))^[3] 0
      = 884279719003555 / 1125899906842624 ∧
    (fun y : ℝ => roundDouble (y + 4716158501352293 / 18014398509481984))^[4] 0
      = 4716158501352293 / 4503599627370496 ∧
    (fun y : ℝ => roundDouble (y + 4716158501352293 / 18014398509481984))^[5] 0
      = 2947599063345183 / 2251799813685248 ∧
    (fun y : ℝ => roundDouble (y + 4716158501352293 / 18014398509481984))^[6] 0
      = 7074237752028439 / 4503599627370496 ∧
    (fun y : ℝ => roundDouble (y + 4716158501352293 / 18014398509481984))^[7] 0
      = 515829836085407 / 281474976710656 ∧
    (fun y : ℝ => roundDouble (y + 4716158501352293 / 18014398509481984))^[8] 0
      = 4716158501352293 / 2251799813685248 ∧
    (fun y : ℝ => roundDouble (y + 4716158501352293 / 18014398509481984))^[9] 0
      = 2652839157010665 / 1125899906842624 ∧
    (fun y : ℝ => roundDouble (y + 4716158501352293 / 18014398509481984))^[10] 0
      = 5895198126690367 / 2251799813685248 ∧
    (fun y : ℝ => roundDouble (y + 4716158501352293 / 18014398509481984))^[11] 0
      = 1621179484839851 / 562949953421312 ∧
    (fun y : ℝ => roundDouble (y + 4716158501352293 / 18014398509481984))^[12] 0
      = 7074237752028441 / 2251799813685248 ∧
    (fun y : ℝ => roundDouble (y + 4716158501352293 / 18014398509481984))^[13] 0
      = 3831878782348739 / 1125899906842624 ∧
    (fun y : ℝ => roundDouble (y + 4716158501352293 / 18014398509481984))^[14] 0
      = 8253277377366515 / 2251799813685248 ∧
    (fun y : ℝ => roundDouble (y + 4716158501352293 / 18014398509481984))^[15] 0
      = 276337412188611 / 70368744177664 ∧
    (fun y : ℝ => roundDouble (y + 4716158501352293 / 18014398509481984))^[16] 0
      = 2358079250676147 / 562949953421312 ∧
    (fun y : ℝ => roundDouble (y + 4716158501352293 / 18014398509481984))^[17] 0
      = 1252729601921703 / 281474976710656 ∧
    (fun y : ℝ => roundDouble (y + 4716158501352293 / 18014398509481984))^[18] 0
      = 2652839157010665 / 562949953421312 ∧
    (fun y : ℝ => roundDouble (y + 4716158501352293 / 18014398509481984))^[19] 0
      = 700054777544481 / 140737488355328 ∧
    (fun y : ℝ => roundDouble (y + 4716158501352293 / 18014398509481984))^[20] 0
      = 2947599063345183 / 562949953421312 ∧
    (fun y : ℝ => roundDouble (y + 4716158501352293 / 18014398509481984))^[21] 0
      = 1547489508256221 / 281474976710656 ∧
    (fun y : ℝ => roundDouble (y + 4716158501352293 / 18014398509481984))^[22] 0
      = 3242358969679701 / 562949953421312 ∧
    (fun y : ℝ => roundDouble (y + 4716158501352293 / 18014398509481984))^[23] 0
      = 211858682677935 / 35184372088832 ∧
    (fun y : ℝ => roundDouble (y + 4716158501352293 / 18014398509481984))^[24] 0
      = 3537118876014219 / 562949953421312 ∧
    (fun y : ℝ => roundDouble (y + 4716158501352293 / 18014398509481984))^[25] 0
      = 1842249414590739 / 281474976710656 := by
  have h0 : (fun y : ℝ => roundDouble (y + 4716158501352293 / 18014398509481984))^[0] 0
      = 0 := rfl
  have h1 : (fun y : ℝ => roundDouble (y + 4716158501352293 / 18014398509481984))^[1] 0
      = 4716158501352293 / 18014398509481984 := by
    rw [Function.iterate_succ_apply', h0]
    show roundDouble
      ((0 : ℝ) + 4716158501352293 / 18014398509481984) = _
    rw [roundDouble_of_pos
      ((0 : ℝ) + 4716158501352293 / 18014398509481984)
      54 4716158501352293 (by norm_num) (by norm_num) (by norm_num) (by norm_num)]
    norm_num
  have h2 : (fun y : ℝ => roundDouble (y + 4716158501352293 / 18014398509481984))^[2] 0
      = 4716158501352293 / 9007199254740992 := by
    rw [Function.iterate_succ_apply', h1]
    show roundDouble
      ((4716158501352293 / 18014398509481984 : ℝ) + 4716158501352293 / 18014398509481984) = _
    rw [roundDouble_of_pos
      ((4716158501352293 / 18014398509481984 : ℝ) + 4716158501352293 / 18014398509481984)
      53 4716158501352293 (by norm_num) (by norm_num) (by norm_num) (by norm_num)]
    norm_num
  have h3 : (fun y : ℝ => roundDouble (y + 4716158501352293 / 18014398509481984))^[3] 0
      = 884279719003555 / 1125899906842624 := by
    rw [Function.iterate_succ_apply', h2]
    show roundDouble
      ((4716158501352293 / 9007199254740992 : ℝ) + 4716158501352293 / 18014398509481984) = _
    rw [roundDouble_of_pos_tie
      ((4716158501352293 / 9007199254740992 : ℝ) + 4716158501352293 / 18014398509481984)
      53 7074237752028440 (by norm_num) (by norm_num) (by decide) (Or.inr (by norm_num))]
    norm_num
  have h4 : (fun y : ℝ => roundDouble (y + 4716158501352293 / 18014398509481984))^[4] 0
      = 4716158501352293 / 4503599627370496 := by
    rw [Function.iterate_succ_apply', h3]
    show roundDouble
      ((884279719003555 / 1125899906842624 : ℝ) + 4716158501352293 / 18014398509481984) = _
    rw [roundDouble_of_pos
      ((884279719003555 / 1125899906842624 : ℝ) + 4716158501352293 / 18014398509481984)
      52 4716158501352293 (by norm_num) (by norm_num) (by norm_num) (by norm_num)]
    norm_num
  have h5 : (fun y : ℝ => roundDouble (y + 4716158501352293 / 18014398509481984))^[5] 0
      = 2947599063345183 / 2251799813685248 := by
    rw [Function.iterate_succ_apply', h4]
    show roundDouble
      ((4716158501352293 / 4503599627370496 : ℝ) + 4716158501352293 / 18014398509481984) = _
    rw [roundDouble_of_pos
      ((4716158501352293 / 4503599627370496 : ℝ) + 4716158501352293 / 18014398509481984)
      52 5895198126690366 (by norm_num) (by norm_num) (by norm_num) (by norm_num)]
    norm_num
  have h6 : (fun y : ℝ => roundDouble (y + 4716158501352293 / 18014398509481984))^[6] 0
      = 7074237752028439 / 4503599627370496 := by
    rw [Function.iterate_succ_apply', h5]
    show roundDouble
      ((2947599063345183 / 2251799813685248 : ℝ) + 4716158501352293 / 18014398509481984) = _
    rw [roundDouble_of_pos
      ((2947599063345183 / 2251799813685248 : ℝ) + 4716158501352293 / 18014398509481984)
      52 7074237752028439 (by norm_num) (by norm_num) (by norm_num) (by norm_num)]
    norm_num
  have h7 : (fun y : ℝ => roundDouble (y + 4716158501352293 / 18014398509481984))^[7] 0
      = 515829836085407 / 281474976710656 := by
    rw [Function.iterate_succ_apply', h6]
    show roundDouble
      ((7074237752028439 / 4503599627370496 : ℝ) + 4716158501352293 / 18014398509481984) = _
    rw [roundDouble_of_pos
      ((7074237752028439 / 4503599627370496 : ℝ) + 4716158501352293 / 18014398509481984)
      52 8253277377366512 (by norm_num) (by norm_num) (by norm_num) (by norm_num)]
    norm_num
  have h8 : (fun y : ℝ => roundDouble (y + 4716158501352293 / 18014398509481984))^[8] 0
      = 4716158501352293 / 2251799813685248 := by
    rw [Function.iterate_succ_apply', h7]
    show roundDouble
      ((515829836085407 / 281474976710656 : ℝ) + 4716158501352293 / 18014398509481984) = _
    rw [roundDouble_of_pos
      ((515829836085407 / 281474976710656 : ℝ) + 4716158501352293 / 18014398509481984)
      51 4716158501352293 (by norm_num) (by norm_num) (by norm_num) (by norm_num)]
    norm_num
  have h9 : (fun y : ℝ => roundDouble (y + 4716158501352293 / 18014398509481984))^[9] 0
      = 2652839157010665 / 1125899906842624 := by
    rw [Function.iterate_succ_apply', h8]
    show roundDouble
      ((4716158501352293 / 2251799813685248 : ℝ) + 4716158501352293 / 18014398509481984) = _
    rw [roundDouble_of_pos
      ((4716158501352293 / 2251799813685248 : ℝ) + 4716158501352293 / 18014398509481984)
      51 5305678314021330 (by norm_num) (by norm_num) (by norm_num) (by norm_num)]
    norm_num
  have h10 : (fun y : ℝ => roundDouble (y + 4716158501352293 / 18014398509481984))^[10] 0
      = 5895198126690367 / 2251799813685248 := by
    rw [Function.iterate_succ_apply', h9]
    show roundDouble
      ((2652839157010665 / 1125899906842624 : ℝ) + 4716158501352293 / 18014398509481984) = _
    rw [roundDouble_of_pos
      ((2652839157010665 / 1125899906842624 : ℝ) + 4716158501352293 / 18014398509481984)
      51 5895198126690367 (by norm_num) (by norm_num) (by norm_num) (by norm_num)]
    norm_num
  have h11 : (fun y : ℝ => roundDouble (y + 4716158501352293 / 18014398509481984))^[11] 0
      = 1621179484839851 / 562949953421312 := by
    rw [Function.iterate_succ_apply', h10]
    show roundDouble
      ((5895198126690367 / 2251799813685248 : ℝ) + 4716158501352293 / 18014398509481984) = _
    rw [roundDouble_of_pos
      ((5895198126690367 / 2251799813685248 : ℝ) + 4716158501352293 / 18014398509481984)
      51 6484717939359404 (by norm_num) (by norm_num) (by norm_num) (by norm_num)]
    norm_num
  have h12 : (fun y : ℝ => roundDouble (y + 4716158501352293 / 18014398509481984))^[12] 0
      = 7074237752028441 / 2251799813685248 := by
    rw [Function.iterate_succ_apply', h11]
    show roundDouble
      ((1621179484839851 / 562949953421312 : ℝ) + 4716158501352293 / 18014398509481984) = _
    rw [roundDouble_of_pos
      ((1621179484839851 / 562949953421312 : ℝ) + 4716158501352293 / 18014398509481984)
      51 7074237752028441 (by norm_num) (by norm_num) (by norm_num) (by norm_num)]
    norm_num
  have h13 : (fun y : ℝ => roundDouble (y + 4716158501352293 / 18014398509481984))^[13] 0
      = 3831878782348739 / 1125899906842624 := by
    rw [Function.iterate_succ_apply', h12]
    show roundDouble
      ((7074237752028441 / 2251799813685248 : ℝ) + 4716158501352293 / 18014398509481984) = _
    rw [roundDouble_of_pos
      ((7074237752028441 / 2251799813685248 : ℝ) + 4716158501352293 / 18014398509481984)
      51 7663757564697478 (by norm_num) (by norm_num) (by norm_num) (by norm_num)]
    norm_num
  have h14 : (fun y : ℝ => roundDouble (y + 4716158501352293 / 18014398509481984))^[14] 0
      = 8253277377366515 / 2251799813685248 := by
    rw [Function.iterate_succ_apply', h13]
    show roundDouble
      ((3831878782348739 / 1125899906842624 : ℝ) + 4716158501352293 / 18014398509481984) = _
    rw [roundDouble_of_pos
      ((3831878782348739 / 1125899906842624 : ℝ) + 4716158501352293 / 18014398509481984)
      51 8253277377366515 (by norm_num) (by norm_num) (by norm_num) (by norm_num)]
    norm_num
  have h15 : (fun y : ℝ => roundDouble (y + 4716158501352293 / 18014398509481984))^[15] 0
      = 276337412188611 / 70368744177664 := by
    rw [Function.iterate_succ_apply', h14]
    show roundDouble
      ((8253277377366515 / 2251799813685248 : ℝ) + 4716158501352293 / 18014398509481984) = _
    rw [roundDouble_of_pos
      ((8253277377366515 / 2251799813685248 : ℝ) + 4716158501352293 / 18014398509481984)
      51 8842797190035552 (by norm_num) (by norm_num) (by norm_num) (by norm_num)]
    norm_num
  have h16 : (fun y : ℝ => roundDouble (y + 4716158501352293 / 18014398509481984))^[16] 0
      = 2358079250676147 / 562949953421312 := by
    rw [Function.iterate_succ_apply', h15]
    show roundDouble
      ((276337412188611 / 70368744177664 : ℝ) + 4716158501352293 / 18014398509481984) = _
    rw [roundDouble_of_pos
      ((276337412188611 / 70368744177664 : ℝ) + 4716158501352293 / 18014398509481984)
      50 4716158501352294 (by norm_num) (by norm_num) (by norm_num) (by norm_num)]
    norm_num
  have h17 : (fun y : ℝ => roundDouble (y + 4716158501352293 / 18014398509481984))^[17] 0
      = 1252729601921703 / 281474976710656 := by
    rw [Function.iterate_succ_apply', h16]
    show roundDouble
      ((2358079250676147 / 562949953421312 : ℝ) + 4716158501352293 / 18014398509481984) = _
    rw [roundDouble_of_pos
      ((2358079250676147 / 562949953421312 : ℝ) + 4716158501352293 / 18014398509481984)
      50 5010918407686812 (by norm_num) (by norm_num) (by norm_num) (by norm_num)]
    norm_num
  have h18 : (fun y : ℝ => roundDouble (y + 4716158501352293 / 18014398509481984))^[18] 0
      = 2652839157010665 / 562949953421312 := by
    rw [Function.iterate_succ_apply', h17]
    show roundDouble
      ((1252729601921703 / 281474976710656 : ℝ) + 4716158501352293 / 18014398509481984) = _
    rw [roundDouble_of_pos
      ((1252729601921703 / 281474976710656 : ℝ) + 4716158501352293 / 18014398509481984)
      50 5305678314021330 (by norm_num) (by norm_num) (by norm_num) (by norm_num)]
    norm_num
  have h19 : (fun y : ℝ => roundDouble (y + 4716158501352293 / 18014398509481984))^[19] 0
      = 700054777544481 / 140737488355328 := by
    rw [Function.iterate_succ_apply', h18]
    show roundDouble
      ((2652839157010665 / 562949953421312 : ℝ) + 4716158501352293 / 18014398509481984) = _
    rw [roundDouble_of_pos
      ((2652839157010665 / 562949953421312 : ℝ) + 4716158501352293 / 18014398509481984)
      50 5600438220355848 (by norm_num) (by norm_num) (by norm_num) (by norm_num)]
    norm_num
  have h20 : (fun y : ℝ => roundDouble (y + 4716158501352293 / 18014398509481984))^[20] 0
      = 2947599063345183 / 562949953421312 := by
    rw [Function.iterate_succ_apply', h19]
    show roundDouble
      ((700054777544481 / 140737488355328 : ℝ) + 4716158501352293 / 18014398509481984) = _
    rw [roundDouble_of_pos
      ((700054777544481 / 140737488355328 : ℝ) + 4716158501352293 / 18014398509481984)
      50 5895198126690366 (by norm_num) (by norm_num) (by norm_num) (by norm_num)]
    norm_num
  have h21 : (fun y : ℝ => roundDouble (y + 4716158501352293 / 18014398509481984))^[21] 0
      = 1547489508256221 / 281474976710656 := by
    rw [Function.iterate_succ_apply', h20]
    show roundDouble
      ((2947599063345183 / 562949953421312 : ℝ) + 4716158501352293 / 18014398509481984) = _
    rw [roundDouble_of_pos
      ((2947599063345183 / 562949953421312 : ℝ) + 4716158501352293 / 18014398509481984)
      50 6189958033024884 (by norm_num) (by norm_num) (by norm_num) (by norm_num)]
    norm_num
  have h22 : (fun y : ℝ => roundDouble (y + 4716158501352293 / 18014398509481984))^[22] 0
      = 3242358969679701 / 562949953421312 := by
    rw [Function.iterate_succ_apply', h21]
    show roundDouble
      ((1547489508256221 / 281474976710656 : ℝ) + 4716158501352293 / 18014398509481984) = _
    rw [roundDouble_of_pos
      ((1547489508256221 / 281474976710656 : ℝ) + 4716158501352293 / 18014398509481984)
      50 6484717939359402 (by norm_num) (by norm_num) (by norm_num) (by norm_num)]
    norm_num
  have h23 : (fun y : ℝ => roundDouble (y + 4716158501352293 / 18014398509481984))^[23] 0
      = 211858682677935 / 35184372088832 := by
    rw [Function.iterate_succ_apply', h22]
    show roundDouble
      ((3242358969679701 / 562949953421312 : ℝ) + 4716158501352293 / 18014398509481984) = _
    rw [roundDouble_of_pos
      ((3242358969679701 / 562949953421312 : ℝ) + 4716158501352293 / 18014398509481984)
      50 6779477845693920 (by norm_num) (by norm_num) (by norm_num) (by norm_num)]
    norm_num
  have h24 : (fun y : ℝ => roundDouble (y + 4716158501352293 / 18014398509481984))^[24] 0
      = 3537118876014219 / 562949953421312 := by
    rw [Function.iterate_succ_apply', h23]
    show roundDouble
      ((211858682677935 / 35184372088832 : ℝ) + 4716158501352293 / 18014398509481984) = _
    rw [roundDouble_of_pos
      ((211858682677935 / 35184372088832 : ℝ) + 4716158501352293 / 18014398509481984)
      50 7074237752028438 (by norm_num) (by norm_num) (by norm_num) (by norm_num)]
    norm_num
  have h25 : (fun y : ℝ => roundDouble (y + 4716158501352293 / 18014398509481984))^[25] 0
      = 1842249414590739 / 281474976710656 := by
    rw [Function.iterate_succ_apply', h24]
    show roundDouble
      ((3537118876014219 / 562949953421312 : ℝ) + 4716158501352293 / 18014398509481984) = _
    rw [roundDouble_of_pos
      ((3537118876014219 / 562949953421312 : ℝ) + 4716158501352293 / 18014398509481984)
      50 7368997658362956 (by norm_num) (by norm_num) (by norm_num) (by norm_num)]
    norm_num
  exact ⟨h0, h1, h2, h3, h4, h5, h6, h7, h8, h9, h10, h11, h12,
    h13, h14, h15, h16, h17, h18, h19, h20, h21, h22, h23, h24, h25⟩

/-- The height counter of `cb_start`, accumulated in `double`: its first `21` values. -/
theorem height_counter_values :
    (fun y : ℝ => roundDouble (y + 3458764513820541 / 576460752303423488))^[0]
        (-(1026820715040473 / 18014398509481984))
      = (-(1026820715040473 / 18014398509481984)) ∧
    (fun y : ℝ => roundDouble (y + 3458764513820541 / 576460752303423488))^[1]
        (-(1026820715040473 / 18014398509481984))
      = (-(7349874591868649 / 144115188075855872)) ∧
    (fun y : ℝ => roundDouble (y + 3458764513820541 / 576460752303423488))^[2]
        (-(1026820715040473 / 18014398509481984))
      = (-(3242591731706757 / 72057594037927936)) ∧
    (fun y : ℝ => roundDouble (y + 3458764513820541 / 576460752303423488))^[3]
        (-(1026820715040473 / 18014398509481984))
      = (-(5620492334958379 / 144115188075855872)) ∧
    (fun y : ℝ => roundDouble (y + 3458764513820541 / 576460752303423488))^[4]
        (-(1026820715040473 / 18014398509481984))
      = (-(1188950301625811 / 36028797018963968)) ∧
    (fun y : ℝ => roundDouble (y + 3458764513820541 / 576460752303423488))^[5]
        (-(1026820715040473 / 18014398509481984))
      = (-(3891110078048109 / 144115188075855872)) ∧
    (fun y : ℝ => roundDouble (y + 3458764513820541 / 576460752303423488))^[6]
        (-(1026820715040473 / 18014398509481984))
      = (-(1513209474796487 / 72057594037927936)) ∧
    (fun y : ℝ => roundDouble (y + 3458764513820541 / 576460752303423488))^[7]
        (-(1026820715040473 / 18014398509481984))
      = (-(8646911284551355 / 576460752303423488)) ∧
    (fun y : ℝ => roundDouble (y + 3458764513820541 / 576460752303423488))^[8]
        (-(1026820715040473 / 18014398509481984))
      = (-(2594073385365407 / 288230376151711744)) ∧
    (fun y : ℝ => roundDouble (y + 3458764513820541 / 576460752303423488))^[9]
        (-(1026820715040473 / 18014398509481984))
      = (-(1729382256910273 / 576460752303423488)) ∧
    (fun y : ℝ => roundDouble (y + 3458764513820541 / 576460752303423488))^[10]
        (-(1026820715040473 / 18014398509481984))
      = 432345564227567 / 144115188075855872 ∧
    (fun y : ℝ => roundDouble (y + 3458764513820541 / 576460752303423488))^[11]
        (-(1026820715040473 / 18014398509481984))
      = 5188146770730809 / 576460752303423488 ∧
    (fun y : ℝ => roundDouble (y + 3458764513820541 / 576460752303423488))^[12]
        (-(1026820715040473 / 18014398509481984))
      = 4323455642275675 / 288230376151711744 ∧
    (fun y : ℝ => roundDouble (y + 3458764513820541 / 576460752303423488))^[13]
        (-(1026820715040473 / 18014398509481984))
      = 3026418949592973 / 144115188075855872 ∧
    (fun y : ℝ => roundDouble (y + 3458764513820541 / 576460752303423488))^[14]
        (-(1026820715040473 / 18014398509481984))
      = 972777519512027 / 36028797018963968 ∧
    (fun y : ℝ => roundDouble (y + 3458764513820541 / 576460752303423488))^[15]
        (-(1026820715040473 / 18014398509481984))
      = 4755801206503243 / 144115188075855872 ∧
    (fun y : ℝ => roundDouble (y + 3458764513820541 / 576460752303423488))^[16]
        (-(1026820715040473 / 18014398509481984))
      = 2810246167479189 / 72057594037927936 ∧
    (fun y : ℝ => roundDouble (y + 3458764513820541 / 576460752303423488))^[17]
        (-(1026820715040473 / 18014398509481984))
      = 6485183463413513 / 144115188075855872 ∧
    (fun y : ℝ => roundDouble (y + 3458764513820541 / 576460752303423488))^[18]
        (-(1026820715040473 / 18014398509481984))
      = 918734323983581 / 18014398509481984 ∧
    (fun y : ℝ => roundDouble (y + 3458764513820541 / 576460752303423488))^[19]
        (-(1026820715040473 / 18014398509481984))
      = 8214565720323783 / 144115188075855872 ∧
    (fun y : ℝ => roundDouble (y + 3458764513820541 / 576460752303423488))^[20]
        (-(1026820715040473 / 18014398509481984))
      = 4539628424389459 / 72057594037927936 := by
  have h0 : (fun y : ℝ => roundDouble (y + 3458764513820541 / 576460752303423488))^[0]
        (-(1026820715040473 / 18014398509481984))
      = (-(1026820715040473 / 18014398509481984)) := rfl
  have h1 : (fun y : ℝ => roundDouble (y + 3458764513820541 / 576460752303423488))^[1]
        (-(1026820715040473 / 18014398509481984))
      = (-(7349874591868649 / 144115188075855872)) := by
    rw [Function.iterate_succ_apply', h0]
    show roundDouble
      (((-(1026820715040473 / 18014398509481984)) : ℝ) + 3458764513820541 / 576460752303423488) = _
    rw [roundDouble_of_neg
      (((-(1026820715040473 / 18014398509481984)) : ℝ) + 3458764513820541 / 576460752303423488)
      57 7349874591868649 (by norm_num) (by norm_num) (by norm_num) (by norm_num)]
    norm_num
  have h2 : (fun y : ℝ => roundDouble (y + 3458764513820541 / 576460752303423488))^[2]
        (-(1026820715040473 / 18014398509481984))
      = (-(3242591731706757 / 72057594037927936)) := by
    rw [Function.iterate_succ_apply', h1]
    show roundDouble
      (((-(7349874591868649 / 144115188075855872)) : ℝ) + 3458764513820541 / 576460752303423488) = _
    rw [roundDouble_of_neg
      (((-(7349874591868649 / 144115188075855872)) : ℝ) + 3458764513820541 / 576460752303423488)
      57 6485183463413514 (by norm_num) (by norm_num) (by norm_num) (by norm_num)]
    norm_num
  have h3 : (fun y : ℝ => roundDouble (y + 3458764513820541 / 576460752303423488))^[3]
        (-(1026820715040473 / 18014398509481984))
      = (-(5620492334958379 / 144115188075855872)) := by
    rw [Function.iterate_succ_apply', h2]
    show roundDouble
      (((-(3242591731706757 / 72057594037927936)) : ℝ) + 3458764513820541 / 576460752303423488) = _
    rw [roundDouble_of_neg
      (((-(3242591731706757 / 72057594037927936)) : ℝ) + 3458764513820541 / 576460752303423488)
      57 5620492334958379 (by norm_num) (by norm_num) (by norm_num) (by norm_num)]
    norm_num
  have h4 : (fun y : ℝ => roundDouble (y + 3458764513820541 / 576460752303423488))^[4]
        (-(1026820715040473 / 18014398509481984))
      = (-(1188950301625811 / 36028797018963968)) := by
    rw [Function.iterate_succ_apply', h3]
    show roundDouble
      (((-(5620492334958379 / 144115188075855872)) : ℝ) + 3458764513820541 / 576460752303423488) = _
    rw [roundDouble_of_neg
      (((-(5620492334958379 / 144115188075855872)) : ℝ) + 3458764513820541 / 576460752303423488)
      57 4755801206503244 (by norm_num) (by norm_num) (by norm_num) (by norm_num)]
    norm_num
  have h5 : (fun y : ℝ => roundDouble (y + 3458764513820541 / 576460752303423488))^[5]
        (-(1026820715040473 / 18014398509481984))
      = (-(3891110078048109 / 144115188075855872)) := by
    rw [Function.iterate_succ_apply', h4]
    show roundDouble
      (((-(1188950301625811 / 36028797018963968)) : ℝ) + 3458764513820541 / 576460752303423488) = _
    rw [roundDouble_of_neg_tie
      (((-(1188950301625811 / 36028797018963968)) : ℝ) + 3458764513820541 / 576460752303423488)
      58 7782220156096218 (by norm_num) (by norm_num) (by decide) (Or.inr (by norm_num))]
    norm_num
  have h6 : (fun y : ℝ => roundDouble (y + 3458764513820541 / 576460752303423488))^[6]
        (-(1026820715040473 / 18014398509481984))
      = (-(1513209474796487 / 72057594037927936)) := by
    rw [Function.iterate_succ_apply', h5]
    show roundDouble
      (((-(3891110078048109 / 144115188075855872)) : ℝ) + 3458764513820541 / 576460752303423488) = _
    rw [roundDouble_of_neg_tie
      (((-(3891110078048109 / 144115188075855872)) : ℝ) + 3458764513820541 / 576460752303423488)
      58 6052837899185948 (by norm_num) (by norm_num) (by decide) (Or.inr (by norm_num))]
    norm_num
  have h7 : (fun y : ℝ => roundDouble (y + 3458764513820541 / 576460752303423488))^[7]
        (-(1026820715040473 / 18014398509481984))
      = (-(8646911284551355 / 576460752303423488)) := by
    rw [Function.iterate_succ_apply', h6]
    show roundDouble
      (((-(1513209474796487 / 72057594037927936)) : ℝ) + 3458764513820541 / 576460752303423488) = _
    rw [roundDouble_of_neg
      (((-(1513209474796487 / 72057594037927936)) : ℝ) + 3458764513820541 / 576460752303423488)
      59 8646911284551355 (by norm_num) (by norm_num) (by norm_num) (by norm_num)]
    norm_num
  have h8 : (fun y : ℝ => roundDouble (y + 3458764513820541 / 576460752303423488))^[8]
        (-(1026820715040473 / 18014398509481984))
      = (-(2594073385365407 / 288230376151711744)) := by
    rw [Function.iterate_succ_apply', h7]
    show roundDouble
      (((-(8646911284551355 / 576460752303423488)) : ℝ) + 3458764513820541 / 576460752303423488) = _
    rw [roundDouble_of_neg
      (((-(8646911284551355 / 576460752303423488)) : ℝ) + 3458764513820541 / 576460752303423488)
      59 5188146770730814 (by norm_num) (by norm_num) (by norm_num) (by norm_num)]
    norm_num
  have h9 : (fun y : ℝ => roundDouble (y + 3458764513820541 / 576460752303423488))^[9]
        (-(1026820715040473 / 18014398509481984))
      = (-(1729382256910273 / 576460752303423488)) := by
    rw [Function.iterate_succ_apply', h8]
    show roundDouble
      (((-(2594073385365407 / 288230376151711744)) : ℝ) + 3458764513820541 / 576460752303423488) = _
    rw [roundDouble_of_neg
      (((-(2594073385365407 / 288230376151711744)) : ℝ) + 3458764513820541 / 576460752303423488)
      61 6917529027641092 (by norm_num) (by norm_num) (by norm_num) (by norm_num)]
    norm_num
  have h10 : (fun y : ℝ => roundDouble (y + 3458764513820541 / 576460752303423488))^[10]
        (-(1026820715040473 / 18014398509481984))
      = 432345564227567 / 144115188075855872 := by
    rw [Function.iterate_succ_apply', h9]
    show roundDouble
      (((-(1729382256910273 / 576460752303423488)) : ℝ) + 3458764513820541 / 576460752303423488) = _
    rw [roundDouble_of_pos
      (((-(1729382256910273 / 576460752303423488)) : ℝ) + 3458764513820541 / 576460752303423488)
      61 6917529027641072 (by norm_num) (by norm_num) (by norm_num) (by norm_num)]
    norm_num
  have h11 : (fun y : ℝ => roundDouble (y + 3458764513820541 / 576460752303423488))^[11]
        (-(1026820715040473 / 18014398509481984))
      = 5188146770730809 / 576460752303423488 := by
    rw [Function.iterate_succ_apply', h10]
    show roundDouble
      ((432345564227567 / 144115188075855872 : ℝ) + 3458764513820541 / 576460752303423488) = _
    rw [roundDouble_of_pos
      ((432345564227567 / 144115188075855872 : ℝ) + 3458764513820541 / 576460752303423488)
      59 5188146770730809 (by norm_num) (by norm_num) (by norm_num) (by norm_num)]
    norm_num
  have h12 : (fun y : ℝ => roundDouble (y + 3458764513820541 / 576460752303423488))^[12]
        (-(1026820715040473 / 18014398509481984))
      = 4323455642275675 / 288230376151711744 := by
    rw [Function.iterate_succ_apply', h11]
    show roundDouble
      ((5188146770730809 / 576460752303423488 : ℝ) + 3458764513820541 / 576460752303423488) = _
    rw [roundDouble_of_pos
      ((5188146770730809 / 576460752303423488 : ℝ) + 3458764513820541 / 576460752303423488)
      59 8646911284551350 (by norm_num) (by norm_num) (by norm_num) (by norm_num)]
    norm_num
  have h13 : (fun y : ℝ => roundDouble (y + 3458764513820541 / 576460752303423488))^[13]
        (-(1026820715040473 / 18014398509481984))
      = 3026418949592973 / 144115188075855872 := by
    rw [Function.iterate_succ_apply', h12]
    show roundDouble
      ((4323455642275675 / 288230376151711744 : ℝ) + 3458764513820541 / 576460752303423488) = _
    rw [roundDouble_of_pos_tie
      ((4323455642275675 / 288230376151711744 : ℝ) + 3458764513820541 / 576460752303423488)
      58 6052837899185946 (by norm_num) (by norm_num) (by decide) (Or.inr (by norm_num))]
    norm_num
  have h14 : (fun y : ℝ => roundDouble (y + 3458764513820541 / 576460752303423488))^[14]
        (-(1026820715040473 / 18014398509481984))
      = 972777519512027 / 36028797018963968 := by
    rw [Function.iterate_succ_apply', h13]
    show roundDouble
      ((3026418949592973 / 144115188075855872 : ℝ) + 3458764513820541 / 576460752303423488) = _
    rw [roundDouble_of_pos_tie
      ((3026418949592973 / 144115188075855872 : ℝ) + 3458764513820541 / 576460752303423488)
      58 7782220156096216 (by norm_num) (by norm_num) (by decide) (Or.inl (by norm_num))]
    norm_num
  have h15 : (fun y : ℝ => roundDouble (y + 3458764513820541 / 576460752303423488))^[15]
        (-(1026820715040473 / 18014398509481984))
      = 4755801206503243 / 144115188075855872 := by
    rw [Function.iterate_succ_apply', h14]
    show roundDouble
      ((972777519512027 / 36028797018963968 : ℝ) + 3458764513820541 / 576460752303423488) = _
    rw [roundDouble_of_pos
      ((972777519512027 / 36028797018963968 : ℝ) + 3458764513820541 / 576460752303423488)
      57 4755801206503243 (by norm_num) (by norm_num) (by norm_num) (by norm_num)]
    norm_num
  have h16 : (fun y : ℝ => roundDouble (y + 3458764513820541 / 576460752303423488))^[16]
        (-(1026820715040473 / 18014398509481984))
      = 2810246167479189 / 72057594037927936 := by
    rw [Function.iterate_succ_apply', h15]
    show roundDouble
      ((4755801206503243 / 144115188075855872 : ℝ) + 3458764513820541 / 576460752303423488) = _
    rw [roundDouble_of_pos
      ((4755801206503243 / 144115188075855872 : ℝ) + 3458764513820541 / 576460752303423488)
      57 5620492334958378 (by norm_num) (by norm_num) (by norm_num) (by norm_num)]
    norm_num
  have h17 : (fun y : ℝ => roundDouble (y + 3458764513820541 / 576460752303423488))^[17]
        (-(1026820715040473 / 18014398509481984))
      = 6485183463413513 / 144115188075855872 := by
    rw [Function.iterate_succ_apply', h16]
    show roundDouble
      ((2810246167479189 / 72057594037927936 : ℝ) + 3458764513820541 / 576460752303423488) = _
    rw [roundDouble_of_pos
      ((2810246167479189 / 72057594037927936 : ℝ) + 3458764513820541 / 576460752303423488)
      57 6485183463413513 (by norm_num) (by norm_num) (by norm_num) (by norm_num)]
    norm_num
  have h18 : (fun y : ℝ => roundDouble (y + 3458764513820541 / 576460752303423488))^[18]
        (-(1026820715040473 / 18014398509481984))
      = 918734323983581 / 18014398509481984 := by
    rw [Function.iterate_succ_apply', h17]
    show roundDouble
      ((6485183463413513 / 144115188075855872 : ℝ) + 3458764513820541 / 576460752303423488) = _
    rw [roundDouble_of_pos
      ((6485183463413513 / 144115188075855872 : ℝ) + 3458764513820541 / 576460752303423488)
      57 7349874591868648 (by norm_num) (by norm_num) (by norm_num) (by norm_num)]
    norm_num
  have h19 : (fun y : ℝ => roundDouble (y + 3458764513820541 / 576460752303423488))^[19]
        (-(1026820715040473 / 18014398509481984))
      = 8214565720323783 / 144115188075855872 := by
    rw [Function.iterate_succ_apply', h18]
    show roundDouble
      ((918734323983581 / 18014398509481984 : ℝ) + 3458764513820541 / 576460752303423488) = _
    rw [roundDouble_of_pos
      ((918734323983581 / 18014398509481984 : ℝ) + 3458764513820541 / 576460752303423488)
      57 8214565720323783 (by norm_num) (by norm_num) (by norm_num) (by norm_num)]
    norm_num
  have h20 : (fun y : ℝ => roundDouble (y + 3458764513820541 / 576460752303423488))^[20]
        (-(1026820715040473 / 18014398509481984))
      = 4539628424389459 / 72057594037927936 := by
    rw [Function.iterate_succ_apply', h19]
    show roundDouble
      ((8214565720323783 / 144115188075855872 : ℝ) + 3458764513820541 / 576460752303423488) = _
    rw [roundDouble_of_pos
      ((8214565720323783 / 144115188075855872 : ℝ) + 3458764513820541 / 576460752303423488)
      56 4539628424389459 (by norm_num) (by norm_num) (by norm_num) (by norm_num)]
    norm_num
  exact ⟨h0, h1, h2, h3, h4, h5, h6, h7, h8, h9, h10, h11, h12,
    h13, h14, h15, h16, h17, h18, h19, h20⟩

end GaussianProcessNode

namespace GaussianProcessNode

/-! ## The synthetic object cloud of `cb_start` -/

/-- A loop over a `double` counter whose body appends `G x` to the list represented by
the state runs exactly `N` times when the counter stays below the bound for `N` values
and not for the next one, and appends the lists `G x_k` in order, `x_k` being the
counter after `k` rounded additions; any iteration bound of at least `N` suffices. -/
theorem forLoopDouble_append {α σ β : Type} [LinearOrderedField α] [FloorRing α]
    (bound step : α) (body : α → σ → Option σ) (rep : List β → σ) (G : α → List β)
    (hbody : ∀ x l, body x (rep l) = some (rep (l ++ G x))) (N : Nat) :
    ∀ (x : α) (l : List β) (fuel : Nat), N ≤ fuel →
      (∀ k : Nat, k < N → (fun y => roundDouble (y + step))^[k] x < bound) →
      ¬ ((fun y => roundDouble (y + step))^[N] x < bound) →
      forLoopDouble bound step body fuel x (rep l)
        = some (rep (l ++ ((List.range N).map
            (fun k : Nat => G ((fun y => roundDouble (y + step))^[k] x))).flatten)) := by
  induction N with
  | zero =>
    intro x l fuel _ _ hge
    have hx : ¬ (x < bound) := by simpa using hge
    cases fuel <;> simp [forLoopDouble, hx]
  | succ N ih =>
    intro x l fuel hfuel hlt hge
    obtain ⟨fuel2, rfl⟩ : ∃ f2, fuel = f2 + 1 := ⟨fuel - 1, by omega⟩
    have hx : x < bound := by simpa using hlt 0 (by omega)
    have h1 : ∀ k : Nat, k < N →
        (fun y => roundDouble (y + step))^[k] (roundDouble (x + step)) < bound := by
      intro k hk
      have := hlt (k + 1) (by omega)
      rwa [Function.iterate_succ_apply] at this
    have h2 : ¬ ((fun y => roundDouble (y + step))^[N] (roundDouble (x + step)) < bound) := by
      rwa [Function.iterate_succ_apply] at hge
    simp only [forLoopDouble, if_pos hx, hbody, Option.some_bind]
    rw [ih (roundDouble (x + step)) (l ++ G x) fuel2 (by omega) h1 h2]
    congr 2
    rw [List.range_succ_eq_map, List.map_cons, List.flatten_cons, List.map_map, List.append_assoc]
    rfl

/-- The angle loop of `cb_start` makes `25` passes: after `24` rounded additions of the
step the counter is still below `2 * M_PI`, after `25` it is not. -/
theorem angle_steps_25 :
    (∀ k : Nat, k < 25 →
      (fun y : ℝ => roundDouble (y + 4716158501352293 / 18014398509481984))^[k] 0
        < 884279719003555 / 140737488355328) ∧
    ¬ ((fun y : ℝ => roundDouble (y + 4716158501352293 / 18014398509481984))^[25] 0
        < 884279719003555 / 140737488355328) := by
  obtain ⟨h0, h1, h2, h3, h4, h5, h6, h7, h8, h9, h10, h11, h12, h13, h14, h15, h16, h17, h18,
    h19, h20, h21, h22, h23, h24, h25⟩ := angle_counter_values
  constructor
  · intro k hk
    interval_cases k
    · rw [h0]; norm_num
    · rw [h1]; norm_num
    · rw [h2]; norm_num
    · rw [h3]; norm_num
    · rw [h4]; norm_num
    · rw [h5]; norm_num
    · rw [h6]; norm_num
    · rw [h7]; norm_num
    · rw [h8]; norm_num
    · rw [h9]; norm_num
    · rw [h10]; norm_num
    · rw [h11]; norm_num
    · rw [h12]; norm_num
    · rw [h13]; norm_num
    · rw [h14]; norm_num
    · rw [h15]; norm_num
    · rw [h16]; norm_num
    · rw [h17]; norm_num
    · rw [h18]; norm_num
    · rw [h19]; norm_num
    · rw [h20]; norm_num
    · rw [h21]; norm_num
    · rw [h22]; norm_num
    · rw [h23]; norm_num
    · rw [h24]; norm_num
  · rw [h25]; norm_num

/-- The height loop of `cb_start` makes `20` passes, and every height it visits is
within the radius. -/
theorem height_steps_20 :
    (∀ k : Nat, k < 20 →
      (fun y : ℝ => roundDouble (y + 3458764513820541 / 576460752303423488))^[k]
          (-(1026820715040473 / 18014398509481984))
        < 1080863910568919 / 18014398509481984) ∧
    ¬ ((fun y : ℝ => roundDouble (y + 3458764513820541 / 576460752303423488))^[20]
          (-(1026820715040473 / 18014398509481984))
        < 1080863910568919 / 18014398509481984) ∧
    (∀ k : Nat, k < 20 →
      (fun y : ℝ => roundDouble (y + 3458764513820541 / 576460752303423488))^[k]
          (-(1026820715040473 / 18014398509481984))
        * (fun y : ℝ => roundDouble (y + 3458764513820541 / 576460752303423488))^[k]
          (-(1026820715040473 / 18014398509481984))
        ≤ 1080863910568919 / 18014398509481984 * (1080863910568919 / 18014398509481984)) := by
  obtain ⟨h0, h1, h2, h3, h4, h5, h6, h7, h8, h9, h10, h11, h12, h13, h14, h15, h16, h17, h18,
    h19, h20⟩ := height_counter_values
  refine ⟨?_, ?_, ?_⟩
  · intro k hk
    interval_cases k
    · rw [h0]; norm_num
    · rw [h1]; norm_num
    · rw [h2]; norm_num
    · rw [h3]; norm_num
    · rw [h4]; norm_num
    · rw [h5]; norm_num
    · rw [h6]; norm_num
    · rw [h7]; norm_num
    · rw [h8]; norm_num
    · rw [h9]; norm_num
    · rw [h10]; norm_num
    · rw [h11]; norm_num
    · rw [h12]; norm_num
    · rw [h13]; norm_num
    · rw [h14]; norm_num
    · rw [h15]; norm_num
    · rw [h16]; norm_num
    · rw [h17]; norm_num
    · rw [h18]; norm_num
    · rw [h19]; norm_num
  · rw [h20]; norm_num
  · intro k hk
    interval_cases k
    · rw [h0]; norm_num
    · rw [h1]; norm_num
    · rw [h2]; norm_num
    · rw [h3]; norm_num
    · rw [h4]; norm_num
    · rw [h5]; norm_num
    · rw [h6]; norm_num
    · rw [h7]; norm_num
    · rw [h8]; norm_num
    · rw [h9]; norm_num
    · rw [h10]; norm_num
    · rw [h11]; norm_num
    · rw [h12]; norm_num
    · rw [h13]; norm_num
    · rw [h14]; norm_num
    · rw [h15]; norm_num
    · rw [h16]; norm_num
    · rw [h17]; norm_num
    · rw [h18]; norm_num
    · rw [h19]; norm_num

/-- The cloud generated for "sphere": `20` rings of `25` points, in loop order; any
iteration bound of at least `25` suffices.  The heights and the angles are the values of
the two `double` counters. -/
theorem syntheticObjectCloud_sphere_eq (fuel : Nat) (hfuel : 25 ≤ fuel) :
    syntheticObjectCloud
        { sqrt := Real.sqrt, cos := Real.cos, sin := Real.sin, pi := Real.pi } "sphere" fuel
      = some (((List.range 20).map (fun j : Nat =>
          ((List.range 25).map (fun k : Nat =>
            [(⟨Real.sqrt (roundDouble 0.06 * roundDouble 0.06
                  - (fun y : ℝ => roundDouble (y + 3458764513820541 / 576460752303423488))^[j]
                      (-(1026820715040473 / 18014398509481984))
                    * (fun y : ℝ => roundDouble (y + 3458764513820541 / 576460752303423488))^[j]
                      (-(1026820715040473 / 18014398509481984)))
                * Real.cos
                  ((fun y : ℝ => roundDouble (y + 4716158501352293 / 18014398509481984))^[k] 0),
              Real.sqrt (roundDouble 0.06 * roundDouble 0.06
                  - (fun y : ℝ => roundDouble (y + 3458764513820541 / 576460752303423488))^[j]
                      (-(1026820715040473 / 18014398509481984))
                    * (fun y : ℝ => roundDouble (y + 3458764513820541 / 576460752303423488))^[j]
                      (-(1026820715040473 / 18014398509481984)))
                * Real.sin
                  ((fun y : ℝ => roundDouble (y + 4716158501352293 / 18014398509481984))^[k] 0),
              (fun y : ℝ => roundDouble (y + 3458764513820541 / 576460752303423488))^[j]
                  (-(1026820715040473 / 18014398509481984)) + 1.0⟩
              : gp.Vec3 ℝ)])).flatten)).flatten) := by
  have hne : ¬ ("sphere" = "half_sphere") := by decide
  unfold syntheticObjectCloud
  simp only [if_neg hne]
  rw [ang_step_value, ang_bound_value, lin_step_value]
  have hstart : roundDouble (-roundDouble (0.06 : ℝ)
      + roundDouble (3458764513820541 / 576460752303423488 / 2))
      = (-(1026820715040473 / 18014398509481984)) := by
    rw [roundDouble_radius]
    exact lin_start_value
  rw [hstart]
  have inner : ∀ (lin : ℝ) (l : List (gp.Vec3 ℝ)),
      forLoopDouble (884279719003555 / 140737488355328 : ℝ)
        (4716158501352293 / 18014398509481984)
        (fun ang cloud =>
          some (cloud ++ [(⟨Real.sqrt (roundDouble 0.06 * roundDouble 0.06 - lin * lin)
              * Real.cos ang,
            Real.sqrt (roundDouble 0.06 * roundDouble 0.06 - lin * lin) * Real.sin ang,
            lin + 1.0⟩ : gp.Vec3 ℝ)]))
        fuel 0 l
      = some (l ++ ((List.range 25).map (fun k : Nat =>
          [(⟨Real.sqrt (roundDouble 0.06 * roundDouble 0.06 - lin * lin)
              * Real.cos
                ((fun y : ℝ => roundDouble (y + 4716158501352293 / 18014398509481984))^[k] 0),
            Real.sqrt (roundDouble 0.06 * roundDouble 0.06 - lin * lin)
              * Real.sin
                ((fun y : ℝ => roundDouble (y + 4716158501352293 / 18014398509481984))^[k] 0),
            lin + 1.0⟩ : gp.Vec3 ℝ)])).flatten) := by
    intro lin l
    exact forLoopDouble_append (884279719003555 / 140737488355328 : ℝ)
      (4716158501352293 / 18014398509481984) _ (fun l => l)
      (fun ang => [(⟨Real.sqrt (roundDouble 0.06 * roundDouble 0.06 - lin * lin) * Real.cos ang,
            Real.sqrt (roundDouble 0.06 * roundDouble 0.06 - lin * lin) * Real.sin ang,
            lin + 1.0⟩ : gp.Vec3 ℝ)])
      (fun _ _ => rfl) 25 0 l fuel hfuel angle_steps_25.1 angle_steps_25.2
  have hlt := height_steps_20.1
  have hge := height_steps_20.2.1
  rw [← roundDouble_radius] at hlt hge
  have outer := forLoopDouble_append (roundDouble (0.06 : ℝ))
    (3458764513820541 / 576460752303423488)
    (fun lin cloud =>
      forLoopDouble (884279719003555 / 140737488355328 : ℝ)
        (4716158501352293 / 18014398509481984)
        (fun ang cloud =>
          some (cloud ++ [(⟨Real.sqrt (roundDouble 0.06 * roundDouble 0.06 - lin * lin)
              * Real.cos ang,
            Real.sqrt (roundDouble 0.06 * roundDouble 0.06 - lin * lin) * Real.sin ang,
            lin + 1.0⟩ : gp.Vec3 ℝ)]))
        fuel 0 cloud)
    (fun l => l)
    (fun lin => ((List.range 25).map (fun k : Nat =>
          [(⟨Real.sqrt (roundDouble 0.06 * roundDouble 0.06 - lin * lin)
              * Real.cos
                ((fun y : ℝ => roundDouble (y + 4716158501352293 / 18014398509481984))^[k] 0),
            Real.sqrt (roundDouble 0.06 * roundDouble 0.06 - lin * lin)
              * Real.sin
                ((fun y : ℝ => roundDouble (y + 4716158501352293 / 18014398509481984))^[k] 0),
            lin + 1.0⟩ : gp.Vec3 ℝ)])).flatten)
    (fun lin l => inner lin l) 20 (-(1026820715040473 / 18014398509481984)) [] fuel (by omega)
    hlt hge
  simpa using outer

/-- Every point of the cloud generated for "sphere" lies at distance `radius`, the
`double` value of the literal `0.06`, from the centre `(0, 0, 1)`. -/
theorem syntheticObjectCloud_sphere_distance (fuel : Nat) (hfuel : 25 ≤ fuel)
    (cloud : List (gp.Vec3 ℝ))
    (hc : syntheticObjectCloud
        { sqrt := Real.sqrt, cos := Real.cos, sin := Real.sin, pi := Real.pi } "sphere" fuel
      = some cloud) :
    cloud.length = 500 ∧
    ∀ p, p ∈ cloud → gp.Vec3.distance Real.sqrt p ⟨0, 0, 1⟩ = roundDouble 0.06 := by
  rw [syntheticObjectCloud_sphere_eq fuel hfuel] at hc
  have hc2 := Option.some.inj hc
  subst hc2
  refine ⟨?_, ?_⟩
  · rw [grid_length]
  · intro p hp
    obtain ⟨j, k, hj, _, rfl⟩ := grid_mem _ 20 25 p hp
    apply distance_of_sphere_point (roundDouble 0.06)
      ((fun y : ℝ => roundDouble (y + 3458764513820541 / 576460752303423488))^[j]
        (-(1026820715040473 / 18014398509481984)))
      ((fun y : ℝ => roundDouble (y + 4716158501352293 / 18014398509481984))^[k] 0)
    · rw [roundDouble_radius]; norm_num
    · rw [roundDouble_radius]
      exact height_steps_20.2.2 j hj
    · simp
    · simp
    · norm_num

/-- C19, counterexample: with `cloud_dir = "sphere"` the generated cloud has `500` points
(`20` heights times `25` angles), not `48`; and the distance of its points from the
centre is the `double` value of the literal `0.06`, which is not `0.06`. -/
theorem syntheticObjectCloud_sphere_not_48 :
    ∃ cloud : List (gp.Vec3 ℝ),
      syntheticObjectCloud
        { sqrt := Real.sqrt, cos := Real.cos, sin := Real.sin, pi := Real.pi } "sphere" 25
        = some cloud ∧
      cloud.length = 500 ∧ cloud.length ≠ 48 ∧
      ∀ p, p ∈ cloud → gp.Vec3.distance Real.sqrt p ⟨0, 0, 1⟩ ≠ 0.06 := by
  refine ⟨_, syntheticObjectCloud_sphere_eq 25 le_rfl, ?_⟩
  obtain ⟨hlen, hdist⟩ := syntheticObjectCloud_sphere_distance 25 le_rfl _
    (syntheticObjectCloud_sphere_eq 25 le_rfl)
  refine ⟨hlen, by rw [hlen]; decide, ?_⟩
  intro p hp
  rw [hdist p hp, roundDouble_radius]
  norm_num

/-- C19, as the code has it: with `cloud_dir = "sphere"` the loops terminate (any
iteration bound of at least `25` suffices) and the generated object cloud consists of
exactly `500` points: `20` heights times `25` angles, because the angle counter,
accumulated in `double`, is still below `2 * M_PI` after `24` additions of the step.
Each point lies at Euclidean distance `radius` from the centre `(0, 0, 1)`, `radius`
being the `double` value `1080863910568919 / 2^54` of the literal `0.06` (coordinates in
exact real arithmetic, `cos² + sin² = 1`). -/
theorem syntheticObjectCloud_sphere (fuel : Nat) (hfuel : 25 ≤ fuel) :
    ∃ cloud : List (gp.Vec3 ℝ),
      syntheticObjectCloud
        { sqrt := Real.sqrt, cos := Real.cos, sin := Real.sin, pi := Real.pi } "sphere" fuel
        = some cloud ∧
      cloud.length = 500 ∧
      (∀ p, p ∈ cloud → gp.Vec3.distance Real.sqrt p ⟨0, 0, 1⟩ = roundDouble 0.06) ∧
      roundDouble (0.06 : ℝ) = 1080863910568919 / 2 ^ 54 := by
  obtain ⟨hlen, hdist⟩ := syntheticObjectCloud_sphere_distance fuel hfuel _
    (syntheticObjectCloud_sphere_eq fuel hfuel)
  refine ⟨_, syntheticObjectCloud_sphere_eq fuel hfuel, hlen, hdist, ?_⟩
  rw [roundDouble_radius]
  norm_num

/-- C19, instance: the iteration bound `25`. -/
theorem syntheticObjectCloud_sphere_witness :
    ∃ cloud : List (gp.Vec3 ℝ),
      syntheticObjectCloud
        { sqrt := Real.sqrt, cos := Real.cos, sin := Real.sin, pi := Real.pi } "sphere" 25
        = some cloud ∧
      cloud.length = 500 ∧
      (∀ p, p ∈ cloud → gp.Vec3.distance Real.sqrt p ⟨0, 0, 1⟩ = roundDouble 0.06) ∧
      roundDouble (0.06 : ℝ) = 1080863910568919 / 2 ^ 54 :=
  syntheticObjectCloud_sphere 25 (by decide)

end GaussianProcessNode

namespace gp

/-! ## The factor of a positive-definite matrix -/

end gp

namespace gp

/-! ## The posterior mean at a training point -/

end gp

namespace gp

end gp
